import Mathlib

/-!
# BAS-Website: moderation, submission intake, testimonials, subscribers and footer

A shallow embedding of `src/dashboard/SubmittedEvents.jsx`, of the submission form of
`src/pages/community.jsx`, of `src/dashboard/UploadTestimonials.jsx`, of
`src/dashboard/NewsletterSubscribers.jsx`, of the categories logic of
`src/components/Footer.jsx` and of the index arithmetic of
`src/components/sections/TestimonialCarousel.jsx`.

* JavaScript values and plain objects are modelled by `JsVal` and `JsObj`.
* The React component state (`submissions`, `loading`, `previewEvent`, `modal`) is the
  record `SubmittedEvents.State`; every `setX` call is an explicit state update.
* The closure stored in `modal.confirmAction` is defunctionalised: `ConfirmAction.accept s`
  is the arrow function built by `handleAccept(s)`, `ConfirmAction.delete s` the one built
  by `handleDelete(s)`; `runConfirmAction` is its body.
* Firestore is an external collaborator.  Whether a call resolves or rejects is not decided
  by this code, so it is an input (`Outcomes`); what a resolved call does to the two
  collections is recorded in `Store`, and every issued call is appended to `World.calls`.
* The two form components (`Community`, `UploadTestimonials`) have typed form records; their
  storage and store calls are logged in `NetWorld.calls`, and what the browser does with a
  chosen file (read, decode, encode) is the input `FileEnv`.
* JavaScript numbers that result from arithmetic on image sizes are `Double`: binary64
  values with round-to-nearest-even; the attribute `canvas.height` holds an integer.
* JavaScript built-ins whose tables are not part of the repository (`toLowerCase`, the
  `Intl` date formatter) are parameters (`NewsletterSubscribers.Env`).
-/

namespace BAS

/-! ## JavaScript values -/

/-- The JavaScript values that can occur in a document field or in component state.
Numbers are represented by their integer value plus the special `NaN`; objects
(maps, arrays, Firestore `Timestamp`s) are identified by reference, their contents are
never inspected by the code under study.  `serverTimestamp` is the sentinel returned by
Firestore's `serverTimestamp()`. -/
inductive JsVal where
  | undefined
  | null
  | bool (b : Bool)
  | num (n : Int)
  | nan
  | str (s : String)
  | obj (ref : Nat)
  | serverTimestamp
  deriving DecidableEq

namespace JsVal

/-- JavaScript `ToBoolean`: the falsy values are `undefined`, `null`, `false`, `0`, `NaN`
and the empty string. -/
def truthy : JsVal → Bool
  | undefined => false
  | null => false
  | bool b => b
  | num n => n != 0
  | nan => false
  | str s => s != ""
  | obj _ => true
  | serverTimestamp => true

/-- The JavaScript expression `a || b`. -/
def or (a b : JsVal) : JsVal :=
  if a.truthy then a else b

/-- The JavaScript expression `a === b`.  `NaN` is not equal to itself; objects are equal
when they are the same reference; a sentinel is a fresh object of each
`serverTimestamp()` call and is never compared by the code. -/
def strictEq : JsVal → JsVal → Bool
  | undefined, undefined => true
  | null, null => true
  | bool a, bool b => a == b
  | num a, num b => a == b
  | str a, str b => a == b
  | obj a, obj b => a == b
  | _, _ => false

/-- The JavaScript expression `a !== b`. -/
def strictNe (a b : JsVal) : Bool :=
  !(strictEq a b)

end JsVal

/-- A plain JavaScript object: its own properties in insertion order. -/
abbrev JsObj := List (String × JsVal)

namespace JsObj

/-- Property read `o.k`: the value of the property, `undefined` when `o` has none. -/
def getProp (o : JsObj) (k : String) : JsVal :=
  match o.lookup k with
  | some v => v
  | none => JsVal.undefined

/-- Whether `o` has an own property `k`. -/
def hasProp (o : JsObj) (k : String) : Bool :=
  (o.lookup k).isSome

/-- The own property names of `o`. -/
def keys (o : JsObj) : List String :=
  o.map Prod.fst

/-- Property write `o.k = v`: replaces the value in place, or appends a new property. -/
def setProp : JsObj → String → JsVal → JsObj
  | [], k, v => [(k, v)]
  | (k0, v0) :: rest, k, v =>
    if k0 = k then (k, v) :: rest else (k0, v0) :: setProp rest k v

end JsObj

/-! ## The document store -/

/-- Why a Firestore call rejected.  `notFound` is the store reporting that the targeted
document does not exist; the other two stand for every other rejection. -/
inductive StoreError where
  | notFound
  | permissionDenied
  | unavailable
  deriving DecidableEq

/-- A document held by the store: the id assigned by the store and the written fields. -/
structure StoredDoc where
  id : String
  data : JsObj
  deriving DecidableEq

/-- The two collections the moderation workflow touches. -/
structure Store where
  events : List StoredDoc
  submittedEvents : List StoredDoc
  deriving DecidableEq

namespace Store

/-- Effect of a resolved `addDoc(collection(db, coll), payload)` that was assigned `newId`. -/
def insert (st : Store) (coll : String) (newId : String) (payload : JsObj) : Store :=
  if coll = "events" then
    { st with events := st.events ++ [⟨newId, payload⟩] }
  else if coll = "submittedEvents" then
    { st with submittedEvents := st.submittedEvents ++ [⟨newId, payload⟩] }
  else st

/-- Effect of a resolved `deleteDoc(doc(db, coll, id))`: the document with that id is gone. -/
def remove (st : Store) (coll : String) (id : JsVal) : Store :=
  if coll = "events" then
    { st with events := st.events.filter (fun d => decide (JsVal.str d.id ≠ id)) }
  else if coll = "submittedEvents" then
    { st with submittedEvents := st.submittedEvents.filter (fun d => decide (JsVal.str d.id ≠ id)) }
  else st

end Store

/-- A call issued to the document store. -/
inductive StoreCall where
  | addDoc (coll : String) (payload : JsObj)
  | deleteDoc (coll : String) (id : JsVal)
  deriving DecidableEq

/-- A store call together with whether it resolved (`true`) or rejected (`false`). -/
structure CallRecord where
  call : StoreCall
  ok : Bool
  deriving DecidableEq

/-- A `sonner` toast shown to the moderator. -/
inductive Toast where
  | success (msg : String)
  | error (msg : String)
  deriving DecidableEq

/-- Everything outside the component: the store, the log of store calls issued so far
(oldest first), the toasts shown and the `console.error` lines (label and error). -/
structure World where
  store : Store
  calls : List CallRecord
  toasts : List Toast
  console : List (String × StoreError)
  deriving DecidableEq

/-- The statement `await addDoc(collection(db, coll), payload)` when the store answers `res`
(the assigned id, or the rejection). -/
def addDoc (coll : String) (payload : JsObj) (res : Except StoreError String) (w : World) :
    Except StoreError String × World :=
  match res with
  | .ok newId =>
    (.ok newId, { w with store := w.store.insert coll newId payload,
                         calls := w.calls ++ [⟨.addDoc coll payload, true⟩] })
  | .error e =>
    (.error e, { w with calls := w.calls ++ [⟨.addDoc coll payload, false⟩] })

/-- The statement `await deleteDoc(doc(db, coll, id))` when the store answers `res`. -/
def deleteDoc (coll : String) (id : JsVal) (res : Except StoreError Unit) (w : World) :
    Except StoreError Unit × World :=
  match res with
  | .ok () =>
    (.ok (), { w with store := w.store.remove coll id,
                      calls := w.calls ++ [⟨.deleteDoc coll id, true⟩] })
  | .error e =>
    (.error e, { w with calls := w.calls ++ [⟨.deleteDoc coll id, false⟩] })

/-- The answers the store gives to the calls of one confirm action: to `addDoc` (only
asked by accept) and to `deleteDoc`. -/
structure Outcomes where
  addDoc : Except StoreError String
  deleteDoc : Except StoreError Unit

/-! ## The `SubmittedEvents` dashboard component -/

namespace SubmittedEvents

/-- The closure stored in `modal.confirmAction`, with the submission it captured:
`accept s` is the arrow function passed to `openModal` by `handleAccept(s)`,
`delete s` the one passed by `handleDelete(s)`. -/
inductive ConfirmAction where
  | accept (submission : JsObj)
  | delete (submission : JsObj)
  deriving DecidableEq

/-- The `modal` state object `{ open, title, message, confirmAction }`
(`confirmAction: null` is `none`). -/
structure Modal where
  isOpen : Bool
  title : String
  message : String
  confirmAction : Option ConfirmAction
  deriving DecidableEq

/-- The component state: the four `useState` cells (`previewEvent: null` is `none`). -/
structure State where
  submissions : List JsObj
  loading : Bool
  previewEvent : Option JsObj
  modal : Modal
  deriving DecidableEq

/-- The initial values of the four `useState` cells. -/
def initialState : State :=
  { submissions := [], loading := true, previewEvent := none,
    modal := { isOpen := false, title := "", message := "", confirmAction := none } }

/-- The function `openModal(title, message, confirmAction)`. -/
def openModal (title message : String) (confirmAction : Option ConfirmAction) (st : State) :
    State :=
  { st with modal := { isOpen := true, title := title, message := message,
                       confirmAction := confirmAction } }

/-- The function `closeModal()`. -/
def closeModal (st : State) : State :=
  { st with modal := { isOpen := false, title := "", message := "", confirmAction := none } }

/-- The state setter `setPreviewEvent(v)`. -/
def setPreviewEvent (v : Option JsObj) (st : State) : State :=
  { st with previewEvent := v }

/-- The function `handleAccept(submission)`: it only opens the confirmation modal. -/
def handleAccept (submission : JsObj) (st : State) : State :=
  openModal "Accept Event" "Are you sure you want to publish this event?"
    (some (.accept submission)) st

/-- The function `handleDelete(submission)`: it only opens the confirmation modal. -/
def handleDelete (submission : JsObj) (st : State) : State :=
  openModal "Delete Submission" "Are you sure you want to delete this submission?"
    (some (.delete submission)) st

/-- The object literal `payload` built by the accept closure. -/
def acceptPayload (submission : JsObj) : JsObj :=
  [ ("eventName", submission.getProp "eventName"),
    ("venue", submission.getProp "venue"),
    ("address", submission.getProp "address"),
    ("date", submission.getProp "date"),
    ("time", submission.getProp "time"),
    ("description", submission.getProp "description"),
    ("banner", submission.getProp "banner"),
    ("registrationUrl", JsVal.or (submission.getProp "registrationUrl") (.str "")),
    ("createdAt", JsVal.serverTimestamp) ]

/-- The updater `prev => prev.filter(s => s.id !== submission.id)`. -/
def removeById (submission : JsObj) (prev : List JsObj) : List JsObj :=
  prev.filter (fun s => JsVal.strictNe (s.getProp "id") (submission.getProp "id"))

/-- The `catch (err)` block of the accept closure. -/
def acceptCatch (err : StoreError) (st : State) (w : World) : State × World :=
  (st, { w with console := w.console ++ [("Error accepting submission:", err)],
                toasts := w.toasts ++ [.error "Failed to publish event. Please try again."] })

/-- Body of the closure built by `handleAccept(submission)`: one `try` block holding
`addDoc`, `deleteDoc`, the local removal, `closeModal` and the success toast; a rejection
of either awaited call jumps to the `catch` block. -/
def acceptConfirm (submission : JsObj) (o : Outcomes) (st : State) (w : World) :
    State × World :=
  let payload := acceptPayload submission
  match addDoc "events" payload o.addDoc w with
  | (.error err, w1) => acceptCatch err st w1
  | (.ok _, w1) =>
    match deleteDoc "submittedEvents" (submission.getProp "id") o.deleteDoc w1 with
    | (.error err, w2) => acceptCatch err st w2
    | (.ok _, w2) =>
      let st1 := { st with submissions := removeById submission st.submissions }
      let st2 := closeModal st1
      (st2, { w2 with toasts := w2.toasts ++ [.success "Event has been published successfully!"] })

/-- The `catch (err)` block of the delete closure. -/
def deleteCatch (err : StoreError) (st : State) (w : World) : State × World :=
  (st, { w with console := w.console ++ [("Error deleting submission:", err)],
                toasts := w.toasts ++ [.error "Failed to delete submission."] })

/-- Body of the closure built by `handleDelete(submission)`. -/
def deleteConfirm (submission : JsObj) (o : Outcomes) (st : State) (w : World) :
    State × World :=
  match deleteDoc "submittedEvents" (submission.getProp "id") o.deleteDoc w with
  | (.error err, w1) => deleteCatch err st w1
  | (.ok _, w1) =>
    let st1 := { st with submissions := removeById submission st.submissions }
    (closeModal st1, w1)

/-- Invoking a stored `confirmAction`. -/
def runConfirmAction : ConfirmAction → Outcomes → State → World → State × World
  | .accept submission, o, st, w => acceptConfirm submission o st w
  | .delete submission, o, st, w => deleteConfirm submission o st w

/-- The `onClick` handlers of the rendered tree.  The three card buttons exist for each
listed submission once loading is over; the preview buttons exist while `previewEvent` is
set; the modal buttons exist while `modal.open`. -/
inductive UiEvent where
  | cardView (submission : JsObj)
  | cardAccept (submission : JsObj)
  | cardDelete (submission : JsObj)
  | previewClose
  | previewAcceptPublish
  | modalBackdrop
  | modalCancel
  | modalConfirm
  | modalContinue
  deriving DecidableEq

/-- Whether the card of `submission` is rendered: loading is over and it is in the list. -/
def cardShown (submission : JsObj) (st : State) : Bool :=
  !st.loading && decide (submission ∈ st.submissions)

/-- One click.  A click on an element that is not rendered cannot happen and is the
identity; `o` holds the store's answers, which only the CONFIRM button consumes. -/
def step (ev : UiEvent) (o : Outcomes) (st : State) (w : World) : State × World :=
  match ev with
  | .cardView s => if cardShown s st then (setPreviewEvent (some s) st, w) else (st, w)
  | .cardAccept s => if cardShown s st then (handleAccept s st, w) else (st, w)
  | .cardDelete s => if cardShown s st then (handleDelete s st, w) else (st, w)
  | .previewClose =>
    match st.previewEvent with
    | some _ => (setPreviewEvent none st, w)
    | none => (st, w)
  | .previewAcceptPublish =>
    match st.previewEvent with
    | some p => (handleAccept p (setPreviewEvent none st), w)
    | none => (st, w)
  | .modalBackdrop => if st.modal.isOpen then (closeModal st, w) else (st, w)
  | .modalCancel =>
    if st.modal.isOpen && st.modal.confirmAction.isSome then (closeModal st, w) else (st, w)
  | .modalContinue =>
    if st.modal.isOpen && st.modal.confirmAction.isNone then (closeModal st, w) else (st, w)
  | .modalConfirm =>
    if st.modal.isOpen then
      match st.modal.confirmAction with
      | some act => runConfirmAction act o st w
      | none => (st, w)
    else (st, w)

/-- The eight content fields the accept payload takes from the submission. -/
def contentKeys : List String :=
  ["eventName", "venue", "address", "date", "time", "description", "banner", "registrationUrl"]

/-- The content fields the accept payload copies verbatim (all but `registrationUrl`). -/
def copiedKeys : List String :=
  ["eventName", "venue", "address", "date", "time", "description", "banner"]

/-! ### Sample data (the scenario of the specification) -/

/-- A listed submission as `fetchSubmissions` builds it: the document id followed by the
fields of the "Lagos Meetup" document. -/
def lagosSubmission : JsObj :=
  [ ("id", .str "sub1"),
    ("eventName", .str "Lagos Meetup"),
    ("venue", .str "Hub"),
    ("address", .str "1 Freedom Way"),
    ("date", .str "2026-03-01"),
    ("time", .str "6:00 PM"),
    ("description", .str "Monthly gathering"),
    ("banner", .str "https://x.test/b.jpg"),
    ("registrationUrl", .str ""),
    ("submittedAt", .obj 7),
    ("status", .str "pending") ]

/-- A second listed submission. -/
def accraSubmission : JsObj :=
  [ ("id", .str "sub2"),
    ("eventName", .str "Accra Workshop"),
    ("venue", .str "Lab"),
    ("address", .str "2 Ring Road"),
    ("date", .str "2026-04-12"),
    ("time", .str "10:00 AM"),
    ("description", .str "Hands-on wallets"),
    ("banner", .str "https://x.test/c.jpg"),
    ("registrationUrl", .str "https://x.test/register"),
    ("submittedAt", .obj 8),
    ("status", .str "pending") ]

/-- The component after the initial fetch returned the two sample submissions. -/
def loadedState : State :=
  { submissions := [lagosSubmission, accraSubmission], loading := false, previewEvent := none,
    modal := { isOpen := false, title := "", message := "", confirmAction := none } }

/-- The component with the accept confirmation for the Lagos submission on screen. -/
def confirmingAccept : State :=
  handleAccept lagosSubmission loadedState

/-- The component with the delete confirmation for the Lagos submission on screen. -/
def confirmingDelete : State :=
  handleDelete lagosSubmission loadedState

/-- A world whose store holds the two sample submissions and no published event. -/
def loadedWorld : World :=
  { store := { events := [],
               submittedEvents := [⟨"sub1", lagosSubmission.tail⟩, ⟨"sub2", accraSubmission.tail⟩] },
    calls := [], toasts := [], console := [] }

/-- A world in which the Lagos document has meanwhile been removed from `submittedEvents`
by another moderator (the local list still shows it). -/
def racedWorld : World :=
  { store := { events := [], submittedEvents := [⟨"sub2", accraSubmission.tail⟩] },
    calls := [], toasts := [], console := [] }

end SubmittedEvents

/-! ## Strings, images and the network calls of the form components -/

/-- The JavaScript `s.length`: the number of UTF-16 code units of `s`. -/
def jsLength (s : String) : Nat :=
  (s.toList.map (fun c => if c.val < 0x10000 then 1 else 2)).sum

/-- The characters removed by `String.prototype.trim`: ECMAScript `WhiteSpace` and
`LineTerminator`. -/
def jsIsWhiteSpace (c : Char) : Bool :=
  c.val == 0x9 || c.val == 0xA || c.val == 0xB || c.val == 0xC || c.val == 0xD
    || c.val == 0x20 || c.val == 0xA0 || c.val == 0x1680
    || (0x2000 ≤ c.val && c.val ≤ 0x200A)
    || c.val == 0x2028 || c.val == 0x2029 || c.val == 0x202F || c.val == 0x205F
    || c.val == 0x3000 || c.val == 0xFEFF

/-- The JavaScript `s.trim()`. -/
def jsTrim (s : String) : String :=
  String.mk (((s.toList.dropWhile jsIsWhiteSpace).reverse.dropWhile jsIsWhiteSpace).reverse)

/-- Whether `pat` occurs in `l` as a contiguous block, tried at every position. -/
def includesChars : List Char → List Char → Bool
  | [], pat => pat.isPrefixOf []
  | c :: cs, pat => pat.isPrefixOf (c :: cs) || includesChars cs pat

/-- The JavaScript `s.includes(pat)`. -/
def jsIncludes (s pat : String) : Bool :=
  includesChars s.toList pat.toList

/-- A `Blob` object, identified by reference. -/
structure Blob where
  ref : Nat
  deriving DecidableEq

/-- The value held in an image field of a form (`submitFormData.banner`, `formData.image`):
a string typed into the URL input or copied from a document, the blob stored by
`handleFileChange`, or `null` when `compressImage` resolved with no blob. -/
inductive ImageVal where
  | str (s : String)
  | blob (b : Blob)
  | null
  deriving DecidableEq

namespace ImageVal

/-- The image value as a JavaScript value (a blob is an object). -/
def toJs : ImageVal → JsVal
  | str s => JsVal.str s
  | blob b => JsVal.obj b.ref
  | null => JsVal.null

/-- The test `v instanceof Blob`. -/
def isBlob : ImageVal → Bool
  | blob _ => true
  | _ => false

/-- The test `typeof v === 'string'`. -/
def isString : ImageVal → Bool
  | str _ => true
  | _ => false

end ImageVal

/-- The radio choice `imageMode`. -/
inductive ImageMode where
  | url
  | file
  deriving DecidableEq

/-! ## JavaScript numbers: binary64 arithmetic -/

/-- The number of binary digits of `n` (`0` for `0`), by halving; `fuel` bounds the number
of steps. -/
def bitLengthAux : Nat → Nat → Nat
  | 0, _ => 0
  | fuel + 1, n => if n = 0 then 0 else bitLengthAux fuel (n / 2) + 1

/-- The number of binary digits of `n`. -/
def bitLength (n : Nat) : Nat := bitLengthAux n n

/-- The integer `E` with `2 ^ E ≤ a / b < 2 ^ (E + 1)`, for positive `a` and `b`. -/
def floorLog2Ratio (a b : Nat) : Int :=
  let l : Int := (bitLength a : Int) - (bitLength b : Int)
  if a * 2 ^ (-l).toNat < b * 2 ^ l.toNat then l - 1 else l

/-- The integer nearest to `p / q`, a tie going to the even one. -/
def roundHalfEvenDiv (p q : Nat) : Nat :=
  if 2 * (p % q) < q then p / q
  else if q < 2 * (p % q) then p / q + 1
  else if (p / q) % 2 = 0 then p / q else p / q + 1

/-- A finite, non-negative JavaScript number (IEEE 754 binary64): the value
`mant * 2 ^ exp`.  The values produced by `Double.round` are zero (`mant = 0`, `exp = 0`)
or have a 53-bit significand, `2 ^ 52 ≤ mant < 2 ^ 53`, so that equal numbers are equal
records.  The exponent is not bounded: overflow and subnormal numbers are not modelled;
the arithmetic of `compressImage` on image sizes (integers below `2 ^ 32`) stays within
the normal range, between `2 ^ (-32)` and `2 ^ 64`. -/
structure Double where
  mant : Nat
  exp : Int
  deriving DecidableEq

/-- The double nearest to the exact quotient `a / b` (`b` positive), ties to the even
significand: the rounding every binary64 operation applies to its exact result. -/
def Double.round (a b : Nat) : Double :=
  if a = 0 ∨ b = 0 then ⟨0, 0⟩
  else
    let e : Int := floorLog2Ratio a b - 52
    let n := roundHalfEvenDiv (a * 2 ^ (-e).toNat) (b * 2 ^ e.toNat)
    if n = 2 ^ 53 then ⟨2 ^ 52, e + 1⟩ else ⟨n, e⟩

/-- The number whose value is the integer `n` (exact below `2 ^ 53`). -/
def Double.ofNat (n : Nat) : Double := Double.round n 1

/-- The expression `x / y` for a non-zero `y`: the exact quotient, rounded. -/
def Double.div (x y : Double) : Double :=
  Double.round (x.mant * 2 ^ (x.exp - y.exp).toNat) (y.mant * 2 ^ (y.exp - x.exp).toNat)

/-- The expression `x * y`: the exact product, rounded. -/
def Double.mul (x y : Double) : Double :=
  Double.round (x.mant * y.mant * 2 ^ (x.exp + y.exp).toNat) (2 ^ (-(x.exp + y.exp)).toNat)

/-- The integer part of a number. -/
def Double.floor (x : Double) : Nat :=
  x.mant * 2 ^ x.exp.toNat / 2 ^ (-x.exp).toNat

/-- The exact value of a number. -/
def Double.toRat (x : Double) : ℚ := (x.mant : ℚ) * (2 : ℚ) ^ x.exp

/-- The value the attribute `canvas.height` holds after the assignment `canvas.height = v`:
the attribute is an integer (`unsigned long`), so the fraction of `v` is dropped.  (The
wrap-around of the conversion at `2 ^ 32` is out of reach of image sizes and is not
modelled.) -/
def canvasDimension (v : Double) : Nat := v.floor

/-- What the browser does with a chosen file, as far as `compressImage` observes it:
whether `FileReader` fires `onload` (or `onerror`), whether the `Image` fires `onload`, and
then with which `width` and `height` (or `onerror`), and the argument `canvas.toBlob` passes
to its callback (`none` is `null`) for a canvas whose attributes `width` and `height` hold
the first two arguments and on which the image was drawn with the height given as third
argument (and the canvas width as its width). -/
structure FileEnv where
  readOk : Bool
  decoded : Option (Nat × Nat)
  toBlob : Nat → Nat → Double → Option Blob

/-- The event a rejected `compressImage` promise carries. -/
inductive CompressError where
  | readError
  | decodeError
  deriving DecidableEq

/-- The rejection of a storage or document-store call, with its `message`. -/
structure NetError where
  message : String
  deriving DecidableEq

/-- A call issued to Firebase storage or to Firestore by the form components. -/
inductive NetCall where
  | uploadBytes (path : String) (blob : Blob)
  | getDownloadURL (path : String)
  | deleteObject (url : String)
  | addDoc (coll : String) (payload : JsObj)
  | updateDoc (coll : String) (id : String) (payload : JsObj)
  | deleteDoc (coll : String) (id : String)
  deriving DecidableEq

/-- A network call together with whether it resolved (`true`) or rejected (`false`). -/
structure NetRecord where
  call : NetCall
  ok : Bool
  deriving DecidableEq

/-- Everything outside a form component: the document store, the log of network calls
issued so far (oldest first), the toasts shown and the labels of the console lines. -/
structure NetWorld where
  store : Store
  calls : List NetRecord
  toasts : List Toast
  console : List String
  deriving DecidableEq

/-- Appends a call record to the log. -/
def NetWorld.log (w : NetWorld) (call : NetCall) (ok : Bool) : NetWorld :=
  { w with calls := w.calls ++ [⟨call, ok⟩] }

/-! ## The public `Community` page: event submission intake -/

namespace Community

/-- The default value of the parameter `maxWidth` of this page's `compressImage`. -/
def defaultMaxWidth : Nat := 1200

/-- The variables `width` and `height` of `compressImage` after the `if`, from `img.width`,
`img.height` and `maxWidth`: the values assigned to the canvas and passed to `drawImage`.
The width is an integer; the height is the number `(maxWidth / width) * height`, one
division and one multiplication of doubles, each rounded. -/
def canvasSize (width height maxWidth : Nat) : Nat × Double :=
  if width > maxWidth then
    (maxWidth,
     Double.mul (Double.div (Double.ofNat maxWidth) (Double.ofNat width)) (Double.ofNat height))
  else
    (width, Double.ofNat height)

/-- The promise built by `compressImage(file, maxWidth)`: `.error` when it rejects, `.ok v`
when it resolves with `v` (`none` is `null`).  The canvas gets `width` and the integer
part of `height`; `drawImage` gets `width` and `height`. -/
def compressImage (file : FileEnv) (maxWidth : Nat) : Except CompressError (Option Blob) :=
  if file.readOk then
    match file.decoded with
    | some (width, height) =>
      .ok (file.toBlob (canvasSize width height maxWidth).1
        (canvasDimension (canvasSize width height maxWidth).2)
        (canvasSize width height maxWidth).2)
    | none => .error .decodeError
  else .error .readError

/-- The state object `submitFormData`. -/
structure SubmitFormData where
  eventName : String
  venue : String
  address : String
  date : String
  time : String
  description : String
  banner : ImageVal
  registrationUrl : String
  deriving DecidableEq

/-- The object with eight empty strings used initially and on reset. -/
def emptyForm : SubmitFormData :=
  { eventName := "", venue := "", address := "", date := "", time := "", description := "",
    banner := .str "", registrationUrl := "" }

/-- The state cells of the page that the submission form uses. -/
structure State where
  showSubmitModal : Bool
  submitting : Bool
  submitFormData : SubmitFormData
  imageMode : ImageMode
  imagePreview : String
  deriving DecidableEq

/-- The answers of storage and store to the calls of one `handleSubmitEvent`. -/
structure SubmitOutcomes where
  uploadBytes : Except NetError Unit
  getDownloadURL : Except NetError String
  addDoc : Except NetError String

/-- The `catch` and `finally` blocks of `handleFileChange`. -/
def fileChangeCatch (st : State) (w : NetWorld) : State × NetWorld :=
  ({ st with submitting := false },
   { w with console := w.console ++ ["Image compression error"],
            toasts := w.toasts ++ [.error "Failed to process image"] })

/-- The function `handleFileChange(e)`; `file` is `e.target.files && e.target.files[0]` and
`objectUrl` is `URL.createObjectURL`, which throws on `null`. -/
def handleFileChange (file : Option FileEnv) (objectUrl : Blob → String) (st : State)
    (w : NetWorld) : State × NetWorld :=
  match file with
  | none => (st, w)
  | some f =>
    let st1 := { st with submitting := true }
    match compressImage f defaultMaxWidth with
    | .error _ => fileChangeCatch st1 w
    | .ok (some blob) =>
      let st2 := { st1 with submitFormData := { st1.submitFormData with banner := .blob blob } }
      let st3 := { st2 with imagePreview := objectUrl blob }
      ({ st3 with submitting := false }, w)
    | .ok none =>
      let st2 := { st1 with submitFormData := { st1.submitFormData with banner := .null } }
      fileChangeCatch st2 w

/-- The object literal `payload` of `handleSubmitEvent`, for the resolved `bannerUrl`. -/
def submitPayload (form : SubmitFormData) (bannerUrl : ImageVal) : JsObj :=
  [ ("eventName", .str form.eventName),
    ("venue", .str form.venue),
    ("address", .str form.address),
    ("date", .str form.date),
    ("time", .str form.time),
    ("description", .str form.description),
    ("banner", JsVal.or bannerUrl.toJs (.str "")),
    ("registrationUrl", JsVal.or (.str form.registrationUrl) (.str "")),
    ("submittedAt", JsVal.serverTimestamp),
    ("status", .str "pending") ]

/-- The `catch` and `finally` blocks of `handleSubmitEvent`. -/
def submitCatch (st : State) (w : NetWorld) : State × NetWorld :=
  ({ st with submitting := false },
   { w with console := w.console ++ ["Error submitting event:"],
            toasts := w.toasts ++ [.error "Failed to submit event. Please try again."] })

/-- The storage path of a banner uploaded at `Date.now() = now`. -/
def bannerPath (now : Nat) : String :=
  "submittedEvents/banner_" ++ toString now

/-- The statements of `handleSubmitEvent` from `await addDoc` on, once `bannerUrl` is known. -/
def createSubmission (bannerUrl : ImageVal) (o : SubmitOutcomes) (st : State) (w : NetWorld) :
    State × NetWorld :=
  let payload := submitPayload st.submitFormData bannerUrl
  match o.addDoc with
  | .error _ => submitCatch st (w.log (.addDoc "submittedEvents" payload) false)
  | .ok newId =>
    let w1 := { w.log (.addDoc "submittedEvents" payload) true with
                store := w.store.insert "submittedEvents" newId payload }
    let st1 := { st with submitFormData := emptyForm, imagePreview := "",
                         showSubmitModal := false }
    ({ st1 with submitting := false },
     { w1 with toasts := w1.toasts ++
        [.success "Event submitted successfully! Our team will review it shortly."] })

/-- The function `handleSubmitEvent(e)`, run at `Date.now() = now`. -/
def handleSubmitEvent (now : Nat) (o : SubmitOutcomes) (st : State) (w : NetWorld) :
    State × NetWorld :=
  let st1 := { st with submitting := true }
  match st1.submitFormData.banner with
  | .blob b =>
    match o.uploadBytes with
    | .error _ => submitCatch st1 (w.log (.uploadBytes (bannerPath now) b) false)
    | .ok _ =>
      let w1 := w.log (.uploadBytes (bannerPath now) b) true
      match o.getDownloadURL with
      | .error _ => submitCatch st1 (w1.log (.getDownloadURL (bannerPath now)) false)
      | .ok url => createSubmission (.str url) o st1 (w1.log (.getDownloadURL (bannerPath now)) true)
  | other => createSubmission other o st1 w

/-- The `value` shown by the banner URL input: `banner instanceof Blob ? '' : banner`. -/
def bannerInputValue : ImageVal → String
  | .str s => s
  | .blob _ => ""
  | .null => ""

/-- The `required` attributes of the rendered form: the six text inputs, and the banner
URL input, which is rendered in URL mode only (the file input carries no `required`). -/
def requiredFilled (st : State) : Bool :=
  st.submitFormData.eventName != "" && st.submitFormData.venue != ""
    && st.submitFormData.address != "" && st.submitFormData.date != ""
    && st.submitFormData.time != "" && st.submitFormData.description != ""
    && (match st.imageMode with
        | .url => bannerInputValue st.submitFormData.banner != ""
        | .file => true)

/-- Pressing "Submit Event": the form exists while the modal is shown, and the browser
fires `onSubmit` only when every `required` input has a value. -/
def submitForm (now : Nat) (o : SubmitOutcomes) (st : State) (w : NetWorld) :
    State × NetWorld :=
  if st.showSubmitModal && requiredFilled st then handleSubmitEvent now o st w else (st, w)

/-! ### Sample data -/

/-- The form of the specification's scenario, with the banner given as a URL. -/
def lagosForm : SubmitFormData :=
  { eventName := "Lagos Meetup", venue := "Hub", address := "1 Freedom Way",
    date := "2026-03-01", time := "6:00 PM", description := "Monthly gathering",
    banner := .str "https://x.test/b.jpg", registrationUrl := "" }

/-- The submission modal with the scenario's form, in URL mode. -/
def lagosState : State :=
  { showSubmitModal := true, submitting := false, submitFormData := lagosForm,
    imageMode := .url, imagePreview := "" }

/-- The submission modal in upload mode with the six text fields filled and no file
chosen: the banner is still the initial empty string. -/
def noBannerState : State :=
  { showSubmitModal := true, submitting := false,
    submitFormData := { lagosForm with banner := .str "" },
    imageMode := .file, imagePreview := "" }

/-- A world with an empty store and nothing logged. -/
def emptyWorld : NetWorld :=
  { store := { events := [], submittedEvents := [] }, calls := [], toasts := [], console := [] }

/-- Store answers that all resolve. -/
def allResolve : SubmitOutcomes :=
  { uploadBytes := .ok (), getDownloadURL := .ok "https://storage.test/banner",
    addDoc := .ok "sub1" }

/-- A file that reads and decodes as a 2400 x 1 image, in a browser whose `toBlob` yields
`null` for a canvas without pixels (width or height zero). -/
def thinImage : FileEnv :=
  { readOk := true, decoded := some (2400, 1),
    toBlob := fun cw ch _ => if cw = 0 ∨ ch = 0 then none else some ⟨1⟩ }

end Community

/-! ## The `UploadTestimonials` dashboard component -/

namespace UploadTestimonials

/-- The constant `MAX_TEXT_LENGTH`. -/
def MAX_TEXT_LENGTH : Nat := 280

/-- The default value of the parameter `maxWidth` of this component's `compressImage`. -/
def defaultMaxWidth : Nat := 400

/-- The variables `width` and `height` of `compressImage` after the `if`, from `img.width`,
`img.height` and `maxWidth`: the values assigned to the canvas and passed to `drawImage`.
The width is an integer; the height is the number `(maxWidth / width) * height`, one
division and one multiplication of doubles, each rounded. -/
def canvasSize (width height maxWidth : Nat) : Nat × Double :=
  if width > maxWidth then
    (maxWidth,
     Double.mul (Double.div (Double.ofNat maxWidth) (Double.ofNat width)) (Double.ofNat height))
  else
    (width, Double.ofNat height)

/-- The promise built by `compressImage(file, maxWidth)`: `.error` when it rejects, `.ok v`
when it resolves with `v` (`none` is `null`).  The canvas gets `width` and the integer
part of `height`; `drawImage` gets `width` and `height`. -/
def compressImage (file : FileEnv) (maxWidth : Nat) : Except CompressError (Option Blob) :=
  if file.readOk then
    match file.decoded with
    | some (width, height) =>
      .ok (file.toBlob (canvasSize width height maxWidth).1
        (canvasDimension (canvasSize width height maxWidth).2)
        (canvasSize width height maxWidth).2)
    | none => .error .decodeError
  else .error .readError

/-- The function `validateTwitterLink(link)`. -/
def validateTwitterLink (link : String) : Bool :=
  if jsTrim link == "" then true
  else jsIncludes link "twitter.com" || jsIncludes link "x.com"

/-- The state object `formData` (`id: null` is `none`). -/
structure FormData where
  name : String
  role : String
  text : String
  image : ImageVal
  twitterLink : String
  id : Option String
  deriving DecidableEq

/-- The object `{ name: '', role: '', text: '', image: '', twitterLink: '', id: null }`. -/
def emptyForm : FormData :=
  { name := "", role := "", text := "", image := .str "", twitterLink := "", id := none }

/-- A listed testimonial, with the fields of the data model (`twitterLink` may be absent). -/
structure Testimonial where
  id : String
  name : String
  role : String
  text : String
  image : String
  twitterLink : Option String
  createdAt : JsVal
  deriving DecidableEq

/-- The closure stored in `modal.confirmAction`: the arrow function built by
`handleDelete(testimonial)`. -/
inductive ConfirmAction where
  | delete (testimonial : Testimonial)
  deriving DecidableEq

/-- The `modal` state object `{ open, title, message, confirmAction }`. -/
structure Modal where
  isOpen : Bool
  title : String
  message : String
  confirmAction : Option ConfirmAction
  deriving DecidableEq

/-- The component state: the eight `useState` cells. -/
structure State where
  formData : FormData
  testimonials : List Testimonial
  isEditing : Bool
  modal : Modal
  initialLoading : Bool
  isSubmitting : Bool
  imageMode : ImageMode
  imagePreview : String
  deriving DecidableEq

/-- The function `openModal(title, message, confirmAction = null)`. -/
def openModal (title message : String) (confirmAction : Option ConfirmAction) (st : State) :
    State :=
  { st with modal := { isOpen := true, title := title, message := message,
                       confirmAction := confirmAction } }

/-- The input names that `handleChange` receives as `e.target.name`. -/
inductive Field where
  | name
  | role
  | text
  | image
  | twitterLink
  deriving DecidableEq

/-- The function `handleChange(e)` with `e.target = { name: field, value }`. -/
def handleChange (field : Field) (value : String) (st : State) : State :=
  match field with
  | .name => { st with formData := { st.formData with name := value } }
  | .role => { st with formData := { st.formData with role := value } }
  | .text => { st with formData := { st.formData with text := value } }
  | .image => { st with formData := { st.formData with image := .str value } }
  | .twitterLink => { st with formData := { st.formData with twitterLink := value } }

/-- The expression `v || ''` for `v` a string or absent (`testimonial.twitterLink || ''`,
`imageUrl || ''`): the string itself, and the empty string when there is none. -/
def linkOrEmpty : Option String → String
  | some s => s
  | none => ""

/-- The function `handleEdit(testimonial)`. -/
def handleEdit (testimonial : Testimonial) (st : State) : State :=
  { st with
    formData := { name := testimonial.name, role := testimonial.role, text := testimonial.text,
                  image := .str testimonial.image,
                  twitterLink := linkOrEmpty testimonial.twitterLink,
                  id := some testimonial.id },
    imagePreview := testimonial.image,
    imageMode := .url,
    isEditing := true }

/-- The value of `imageUrl` once the upload block is over: a string, or `null` (`none`). -/
def urlToJs : Option String → JsVal
  | some s => JsVal.str s
  | none => JsVal.null

/-- The fields of the object literal `payload` of `handleSubmit` other than `createdAt`:
`image` is `imageUrl || ''` and `twitterLink` is `formData.twitterLink || ''`. -/
structure Payload where
  name : String
  role : String
  text : String
  image : String
  twitterLink : String
  deriving DecidableEq

/-- The `payload` of `handleSubmit` for the resolved `imageUrl`. -/
def mkPayload (form : FormData) (imageUrl : Option String) : Payload :=
  { name := form.name, role := form.role, text := form.text,
    image := linkOrEmpty imageUrl, twitterLink := form.twitterLink }

/-- The payload as the object sent to Firestore, with `createdAt: serverTimestamp()`. -/
def Payload.toJs (p : Payload) : JsObj :=
  [ ("name", .str p.name), ("role", .str p.role), ("text", .str p.text),
    ("image", .str p.image), ("twitterLink", .str p.twitterLink),
    ("createdAt", JsVal.serverTimestamp) ]

/-- The list item `{ ...payload, id }` (on edit `{ ...t, ...payload, id }`, in which the
payload and the id overwrite every field of `t`). -/
def Payload.toItem (p : Payload) (id : String) : Testimonial :=
  { id := id, name := p.name, role := p.role, text := p.text, image := p.image,
    twitterLink := some p.twitterLink, createdAt := JsVal.serverTimestamp }

/-- The guard of the old-image cleanup in the edit branch of `handleSubmit`:
`formData.image && typeof formData.image === 'string' &&
formData.image.includes('firebasestorage') && imageUrl !== formData.image`. -/
def replacesStoredImage (image : ImageVal) (imageUrl : Option String) : Bool :=
  image.toJs.truthy && image.isString
    && (match image with
        | .str s => jsIncludes s "firebasestorage"
        | _ => false)
    && JsVal.strictNe (urlToJs imageUrl) image.toJs

/-- The answers of storage and store to the calls of one `handleSubmit`. -/
structure SubmitOutcomes where
  uploadBytes : Except NetError Unit
  getDownloadURL : Except NetError String
  deleteObject : Except NetError Unit
  updateDoc : Except NetError Unit
  addDoc : Except NetError String

/-- The expression `err.message || 'unknown'`. -/
def messageOrUnknown (err : NetError) : String :=
  if err.message != "" then err.message else "unknown"

/-- The `catch` and `finally` blocks of `handleSubmit`. -/
def submitCatch (err : NetError) (st : State) (w : NetWorld) : State × NetWorld :=
  ({ st with isSubmitting := false },
   { w with console := w.console ++ ["Error saving testimonial:"],
            toasts := w.toasts ++ [.error ("Error saving testimonial: " ++ messageOrUnknown err)] })

/-- The tail of the `try` block of `handleSubmit` ("reset form") and the `finally` block. -/
def resetAfterSave (st : State) : State :=
  { st with formData := emptyForm, imagePreview := "", imageMode := .url, isEditing := false,
            isSubmitting := false }

/-- The old-image cleanup of the edit branch: the guarded inner `try`/`catch` around
`deleteObject(ref(storage, formData.image))`.  The guard holds for strings only. -/
def cleanupOldImage (image : ImageVal) (imageUrl : Option String) (o : SubmitOutcomes)
    (w : NetWorld) : NetWorld :=
  match image with
  | .str s =>
    if replacesStoredImage (.str s) imageUrl then
      match o.deleteObject with
      | .ok _ => w.log (.deleteObject s) true
      | .error _ =>
        { w.log (.deleteObject s) false with
          console := w.console ++ ["Could not delete old image"] }
    else w
  | _ => w

/-- The document id being edited when the test `isEditing && formData.id` holds (`null` and
the empty string are falsy). -/
def editingId (st : State) : Option String :=
  match st.isEditing, st.formData.id with
  | true, some id => if id != "" then some id else none
  | _, _ => none

/-- The statements of `handleSubmit` from the `payload` literal on, once `imageUrl` is
known. -/
def saveTestimonial (imageUrl : Option String) (o : SubmitOutcomes) (st : State)
    (w : NetWorld) : State × NetWorld :=
  let payload := mkPayload st.formData imageUrl
  match editingId st with
  | some id =>
    let w1 := cleanupOldImage st.formData.image imageUrl o w
    match o.updateDoc with
    | .error err => submitCatch err st (w1.log (.updateDoc "testimonials" id payload.toJs) false)
    | .ok _ =>
      let w2 := w1.log (.updateDoc "testimonials" id payload.toJs) true
      let st1 := { st with testimonials :=
        st.testimonials.map (fun t => if t.id = id then payload.toItem id else t) }
      (resetAfterSave st1,
       { w2 with toasts := w2.toasts ++ [.success "Testimonial updated successfully."] })
  | none =>
    match o.addDoc with
    | .error err => submitCatch err st (w.log (.addDoc "testimonials" payload.toJs) false)
    | .ok newId =>
      let w1 := w.log (.addDoc "testimonials" payload.toJs) true
      let st1 := { st with testimonials := payload.toItem newId :: st.testimonials }
      (resetAfterSave st1,
       { w1 with toasts := w1.toasts ++
          [.success "Testimonial created and saved to Firebase!"] })

/-- The storage path of an image uploaded at `Date.now() = now`. -/
def imagePath (now : Nat) : String :=
  "testimonials/image_" ++ toString now

/-- The function `handleSubmit(e)`, run at `Date.now() = now`. -/
def handleSubmit (now : Nat) (o : SubmitOutcomes) (st : State) (w : NetWorld) :
    State × NetWorld :=
  if jsTrim st.formData.name == "" || jsTrim st.formData.role == ""
      || jsTrim st.formData.text == "" then
    (openModal "Error" "Please fill in all required fields (Name, Role, and Text)" none st, w)
  else if jsLength st.formData.text > MAX_TEXT_LENGTH then
    (openModal "Error" ("Testimonial text is too long. Maximum " ++ toString MAX_TEXT_LENGTH
        ++ " characters allowed.") none st, w)
  else if jsTrim st.formData.twitterLink != "" && !validateTwitterLink st.formData.twitterLink
  then
    (openModal "Error" "Please enter a valid Twitter/X post link (twitter.com or x.com)" none st,
     w)
  else
    let st1 := { st with isSubmitting := true }
    match st1.formData.image with
    | .blob b =>
      match o.uploadBytes with
      | .error err => submitCatch err st1 (w.log (.uploadBytes (imagePath now) b) false)
      | .ok _ =>
        let w1 := w.log (.uploadBytes (imagePath now) b) true
        match o.getDownloadURL with
        | .error err => submitCatch err st1 (w1.log (.getDownloadURL (imagePath now)) false)
        | .ok url =>
          saveTestimonial (some url) o st1 (w1.log (.getDownloadURL (imagePath now)) true)
    | .str s => saveTestimonial (some s) o st1 w
    | .null => saveTestimonial none o st1 w

/-- The answers of storage and store to the calls of one delete confirm action. -/
structure DeleteOutcomes where
  deleteObject : Except NetError Unit
  deleteDoc : Except NetError Unit

/-- The guard of the image cleanup in the delete closure:
`testimonial.image && testimonial.image.includes('firebasestorage.googleapis.com')`. -/
def hostedInStorage (image : String) : Bool :=
  image != "" && jsIncludes image "firebasestorage.googleapis.com"

/-- The function `handleDelete(testimonial)`: it only opens the confirmation modal. -/
def handleDelete (testimonial : Testimonial) (st : State) : State :=
  openModal "Confirm Delete" "Are you sure you want to delete this testimonial?"
    (some (.delete testimonial)) st

/-- The image cleanup of the delete closure: the guarded inner `try`/`catch` around
`deleteObject(ref(storage, testimonial.image))`. -/
def cleanupImage (testimonial : Testimonial) (o : DeleteOutcomes) (w : NetWorld) : NetWorld :=
  if hostedInStorage testimonial.image then
    match o.deleteObject with
    | .ok _ => w.log (.deleteObject testimonial.image) true
    | .error _ =>
      { w.log (.deleteObject testimonial.image) false with
        console := w.console ++ ["Could not delete image from storage"] }
  else w

/-- Body of the closure built by `handleDelete(testimonial)`. -/
def deleteConfirm (testimonial : Testimonial) (o : DeleteOutcomes) (st : State)
    (w : NetWorld) : State × NetWorld :=
  let w1 := cleanupImage testimonial o w
  match o.deleteDoc with
  | .error err =>
    (openModal "Error" ("Error deleting testimonial: " ++ messageOrUnknown err) none st,
     { w1.log (.deleteDoc "testimonials" testimonial.id) false with
       console := w1.console ++ ["Error deleting testimonial:"] })
  | .ok _ =>
    let st1 := { st with testimonials :=
      st.testimonials.filter (fun t => t.id != testimonial.id) }
    (openModal "Deleted" "Testimonial deleted successfully." none st1,
     w1.log (.deleteDoc "testimonials" testimonial.id) true)

/-! ### Sample data -/

/-- A listed testimonial whose image is hosted in the storage bucket. -/
def amara : Testimonial :=
  { id := "t1", name := "Amara O.", role := "Lagos, Nigeria", text := "Bitcoin changed my life.",
    image := "https://firebasestorage.googleapis.com/v0/b/bas/o/testimonials%2Fimage_1",
    twitterLink := some "https://x.com/amara/status/1", createdAt := .obj 3 }

/-- A second listed testimonial, with an externally hosted image. -/
def kofi : Testimonial :=
  { id := "t2", name := "Kofi A.", role := "Accra, Ghana", text := "Learned to self-custody.",
    image := "https://example.com/kofi.jpg", twitterLink := none, createdAt := .obj 4 }

/-- The component showing both testimonials with an empty form. -/
def listState : State :=
  { formData := emptyForm, testimonials := [amara, kofi], isEditing := false,
    modal := { isOpen := false, title := "", message := "", confirmAction := none },
    initialLoading := false, isSubmitting := false, imageMode := .url, imagePreview := "" }

/-- The moderator edits the first testimonial and types a different image URL. -/
def editNewUrlState : State :=
  handleChange .image "https://example.com/new.jpg" (handleEdit amara listState)

/-- The moderator edits the first testimonial and chooses a file, stored as a blob. -/
def editNewFileState : State :=
  { handleEdit amara listState with
    formData := { (handleEdit amara listState).formData with image := .blob ⟨9⟩ } }

/-- A world with an empty store and nothing logged. -/
def emptyWorld : NetWorld :=
  { store := { events := [], submittedEvents := [] }, calls := [], toasts := [], console := [] }

/-- Answers that all resolve. -/
def allResolve : SubmitOutcomes :=
  { uploadBytes := .ok (), getDownloadURL := .ok "https://firebasestorage.googleapis.com/new",
    deleteObject := .ok (), updateDoc := .ok (), addDoc := .ok "t3" }

/-- A form state whose text has 281 characters. -/
def longTextState : State :=
  { listState with
    formData := { name := "Amara O.", role := "Lagos",
                  text := String.mk (List.replicate 281 (Char.ofNat 97)),
                  image := .str "", twitterLink := "", id := none } }

end UploadTestimonials

/-! ## Further parts of `UploadTestimonials`, the carousel, the subscribers and the footer -/

namespace UploadTestimonials

/-- The part of the edit-branch cleanup guard that decides whether the image is hosted in
storage: `formData.image && typeof formData.image === 'string' &&
formData.image.includes('firebasestorage')`. -/
def editHostedInStorage (image : ImageVal) : Bool :=
  image.toJs.truthy && image.isString
    && (match image with
        | .str s => jsIncludes s "firebasestorage"
        | _ => false)

/-- The `catch` and `finally` blocks of `handleFileChange`. -/
def fileChangeCatch (st : State) (w : NetWorld) : State × NetWorld :=
  ({ openModal "Error" "Failed to process image" none st with isSubmitting := false },
   { w with console := w.console ++ ["Image compression error"] })

/-- The function `handleFileChange(e)`; `file` is `e.target.files && e.target.files[0]` and
`objectUrl` is `URL.createObjectURL`, which throws on `null`. -/
def handleFileChange (file : Option FileEnv) (objectUrl : Blob → String) (st : State)
    (w : NetWorld) : State × NetWorld :=
  match file with
  | none => (st, w)
  | some f =>
    let st1 := { st with isSubmitting := true }
    match compressImage f defaultMaxWidth with
    | .error _ => fileChangeCatch st1 w
    | .ok (some blob) =>
      let st2 := { st1 with formData := { st1.formData with image := .blob blob } }
      let st3 := { st2 with imagePreview := objectUrl blob }
      ({ st3 with isSubmitting := false }, w)
    | .ok none =>
      let st2 := { st1 with formData := { st1.formData with image := .null } }
      fileChangeCatch st2 w

/-- A form that passes the name, role and text checks and whose link is one space. -/
def blankLinkState : State :=
  { listState with
    formData := { name := "Amara O.", role := "Lagos", text := "Bitcoin changed my life.",
                  image := .str "", twitterLink := " ", id := none } }

end UploadTestimonials

/-! ## The `TestimonialCarousel` component -/

namespace TestimonialCarousel

/-- The updater passed to `setCurrentIndex` by `prevTestimonial`; `n` is
`testimonials.length` (and 0 when `testimonials` is `null`), `%` is the JavaScript
remainder, which truncates. -/
def prevTestimonial (n : Nat) (i : Int) : Int :=
  if n != 0 then Int.tmod (i - 1 + (n : Int)) (n : Int) else 0

/-- The updater passed to `setCurrentIndex` by `nextTestimonial`. -/
def nextTestimonial (n : Nat) (i : Int) : Int :=
  if n != 0 then Int.tmod (i + 1) (n : Int) else 0

/-- The updater run by each tick of the auto-advance interval. -/
def tick (n : Nat) (i : Int) : Int :=
  Int.tmod (i + 1) (n : Int)

/-- One period of the auto-advance effect: the interval exists only when the list is
non-empty and the carousel is not paused. -/
def autoAdvance (n : Nat) (isPaused : Bool) (i : Int) : Int :=
  if n = 0 then i else if isPaused then i else tick n i

end TestimonialCarousel

/-! ## The `NewsletterSubscribers` dashboard component -/

namespace NewsletterSubscribers

/-- A listed subscriber: the document id, the `email` field (`none` when the document has
none) and `subscribedAt` as a `Date` in milliseconds (`none` when absent). -/
structure Subscriber where
  id : String
  email : Option String
  subscribedAt : Option Nat
  deriving DecidableEq

/-- The built-ins the component calls: `String.prototype.toLowerCase`, the
`Intl.DateTimeFormat` formatter of `formatDate`, and the date part of
`new Date().toISOString()` at the time of an export. -/
structure Env where
  toLowerCase : String → String
  formatDateTime : Nat → String
  today : String

/-- The component state: the five `useState` cells.  An element of `selectedEmails` is
whatever `sub.email` was, so it may be `undefined` (`none`). -/
structure State where
  subscribers : List Subscriber
  loading : Bool
  searchTerm : String
  selectedEmails : List (Option String)
  deleteConfirm : Option String
  deriving DecidableEq

/-- The initial values of the five `useState` cells. -/
def initialState : State :=
  { subscribers := [], loading := true, searchTerm := "", selectedEmails := [],
    deleteConfirm := none }

/-- What the component does outside its state: store calls, toasts, console lines, the
URLs passed to `window.open` and the files offered for download (name and content). -/
structure SubWorld where
  calls : List NetRecord
  toasts : List Toast
  console : List String
  opened : List String
  downloads : List (String × String)
  deriving DecidableEq

/-- The filter callback `sub => sub.email?.toLowerCase().includes(searchTerm.toLowerCase())`:
the optional chain yields `undefined`, which is falsy, when there is no email. -/
def matchesSearch (env : Env) (searchTerm : String) (sub : Subscriber) : Bool :=
  match sub.email with
  | some e => jsIncludes (env.toLowerCase e) (env.toLowerCase searchTerm)
  | none => false

/-- The constant `filteredSubscribers`. -/
def filteredSubscribers (env : Env) (st : State) : List Subscriber :=
  st.subscribers.filter (matchesSearch env st.searchTerm)

/-- The function `toggleEmailSelection(email)`. -/
def toggleEmailSelection (email : Option String) (st : State) : State :=
  { st with selectedEmails :=
      if st.selectedEmails.contains email then st.selectedEmails.filter (fun e => e != email)
      else st.selectedEmails ++ [email] }

/-- The function `toggleSelectAll()`. -/
def toggleSelectAll (env : Env) (st : State) : State :=
  if st.selectedEmails.length = (filteredSubscribers env st).length then
    { st with selectedEmails := [] }
  else
    { st with selectedEmails := (filteredSubscribers env st).map (fun sub => sub.email) }

/-- A value inside a template literal or a string concatenation: `undefined` prints as
"undefined". -/
def templateText : Option String → String
  | some s => s
  | none => "undefined"

/-- An element inside `Array.prototype.join`: `undefined` contributes the empty string. -/
def joinText : Option String → String
  | some s => s
  | none => ""

/-- The function `handleDelete(id, email)` when `deleteDoc` answers `res`. -/
def handleDelete (id : String) (email : Option String) (res : Except NetError Unit)
    (st : State) (w : SubWorld) : State × SubWorld :=
  match res with
  | .ok _ =>
    ({ st with subscribers := st.subscribers.filter (fun sub => sub.id != id),
               deleteConfirm := none },
     { w with calls := w.calls ++ [⟨.deleteDoc "newsletterSubscribers" id, true⟩],
              toasts := w.toasts ++
                [.success ("Removed " ++ templateText email ++ " from subscribers")] })
  | .error _ =>
    (st,
     { w with calls := w.calls ++ [⟨.deleteDoc "newsletterSubscribers" id, false⟩],
              console := w.console ++ ["Error deleting subscriber:"],
              toasts := w.toasts ++ [.error "Failed to delete subscriber"] })

/-- The constant `emails` of `openGmailCompose`. -/
def composeEmails (env : Env) (st : State) : List (Option String) :=
  if st.selectedEmails.length > 0 then st.selectedEmails
  else (filteredSubscribers env st).map (fun sub => sub.email)

/-- The function `openGmailCompose()`. -/
def openGmailCompose (env : Env) (st : State) (w : SubWorld) : SubWorld :=
  let emails := composeEmails env st
  if emails.length = 0 then
    { w with toasts := w.toasts ++ [.error "No subscribers to email"] }
  else
    { w with opened := w.opened ++
        ["https://mail.google.com/mail/?view=cm&fs=1&bcc="
          ++ ",".intercalate (emails.map joinText)] }

/-- The function `formatDate(date)`. -/
def formatDate (env : Env) (date : Option Nat) : String :=
  match date with
  | none => "N/A"
  | some d => env.formatDateTime d

/-- The constant `emails` of `exportToCSV`. -/
def exportEmails (env : Env) (st : State) : List (Option String) :=
  if st.selectedEmails.length > 0 then st.selectedEmails
  else (filteredSubscribers env st).map (fun sub => sub.email)

/-- The subscribers whose rows `exportToCSV` writes: the filtered view restricted to the
selection when the selection is non-empty, the filtered view otherwise. -/
def exportedSubscribers (env : Env) (st : State) : List Subscriber :=
  if st.selectedEmails.length > 0 then
    (filteredSubscribers env st).filter (fun sub => st.selectedEmails.contains sub.email)
  else filteredSubscribers env st

/-- The data rows of the CSV, one string per exported subscriber. -/
def exportRows (env : Env) (st : State) : List String :=
  (exportedSubscribers env st).map
    (fun sub => templateText sub.email ++ "," ++ formatDate env sub.subscribedAt)

/-- The constant `csvContent`: the header line followed by the rows joined by newlines. -/
def csvContent (env : Env) (st : State) : String :=
  "Email,Subscribed Date\n" ++ "\n".intercalate (exportRows env st)

/-- The function `exportToCSV()`. -/
def exportToCSV (env : Env) (st : State) (w : SubWorld) : SubWorld :=
  let emails := exportEmails env st
  if emails.length = 0 then
    { w with toasts := w.toasts ++ [.error "No subscribers to export"] }
  else
    { w with
      downloads := w.downloads ++
        [("newsletter_subscribers_" ++ env.today ++ ".csv", csvContent env st)],
      toasts := w.toasts ++
        [.success ("Exported " ++ toString emails.length ++ " subscribers to CSV")] }

/-- Every selected email is the email of a listed subscriber. -/
def selectionListed (st : State) : Prop :=
  ∀ e ∈ st.selectedEmails, ∃ sub ∈ st.subscribers, sub.email = e

instance (st : State) : Decidable (selectionListed st) := by
  unfold selectionListed
  infer_instance

/-! ### Sample data -/

/-- A sample environment: ASCII lower-casing, a fixed date text. -/
def sampleEnv : Env :=
  { toLowerCase := fun s => String.mk (s.toList.map Char.toLower),
    formatDateTime := fun _ => "Mar 1, 2026, 06:00 PM",
    today := "2026-03-02" }

/-- The first subscriber of the specification's scenario. -/
def subA : Subscriber :=
  { id := "s1", email := some "a@x.com", subscribedAt := some 1000 }

/-- The second subscriber of the specification's scenario. -/
def subB : Subscriber :=
  { id := "s2", email := some "b@y.com", subscribedAt := none }

/-- The scenario of the specification: two subscribers, no selection, filter text "a@". -/
def scenarioState : State :=
  { subscribers := [subA, subB], loading := false, searchTerm := "a@", selectedEmails := [],
    deleteConfirm := none }

/-- Both subscribers listed, the first one selected, no filter text. -/
def selectedAState : State :=
  toggleEmailSelection (some "a@x.com")
    { subscribers := [subA, subB], loading := false, searchTerm := "", selectedEmails := [],
      deleteConfirm := none }

/-- The first subscriber selected, then "b@" typed into the search box. -/
def selectedThenFiltered : State :=
  { selectedAState with searchTerm := "b@" }

/-- A world in which nothing has happened yet. -/
def quietWorld : SubWorld :=
  { calls := [], toasts := [], console := [], opened := [], downloads := [] }

/-- A third subscriber document carrying the email of the first (the collection does not
prevent duplicate emails). -/
def subA2 : Subscriber :=
  { id := "s3", email := some "a@x.com", subscribedAt := some 2000 }

/-- Two documents share the selected email a@x.com. -/
def sharedEmailState : State :=
  { subscribers := [subA, subB, subA2], loading := false, searchTerm := "",
    selectedEmails := [some "a@x.com"], deleteConfirm := none }

/-- The first subscriber selected and then deleted, the store call having resolved. -/
def afterDeleteState : State :=
  (handleDelete "s1" (some "a@x.com") (.ok ()) selectedAState quietWorld).1

end NewsletterSubscribers

/-! ## The `Footer` component: dynamic categories -/

namespace Footer

/-- A news post, as far as the categories logic reads it: `category` is `none` when the
post has none. -/
structure Post where
  id : String
  category : Option String
  deriving DecidableEq

/-- The value of a property of the object `counts`: a number, or the string that results
when `+ 1` is applied to something that is not a number. -/
inductive CountVal where
  | num (n : Nat)
  | text
  deriving DecidableEq

/-- The property names every object created by `{}` inherits from `Object.prototype`. -/
def inheritedNames : List String :=
  ["constructor", "__defineGetter__", "__defineSetter__", "hasOwnProperty",
   "__lookupGetter__", "__lookupSetter__", "isPrototypeOf", "propertyIsEnumerable",
   "toString", "valueOf", "__proto__", "toLocaleString"]

/-- The expression `(v || 0) + 1` for the value `v` of an own property of `counts`. -/
def CountVal.bumped : CountVal → CountVal
  | .num n => .num (n + 1)
  | .text => .text

/-- The statement `counts[cat] = (counts[cat] || 0) + 1` on the own properties of `counts`
(in insertion order).  An own property is incremented in place.  Otherwise the read goes
to `Object.prototype`: for `__proto__` it yields the prototype object and the write of the
resulting string is ignored by the `__proto__` setter; for another inherited name it yields
a function and the resulting string becomes an own property; for any other name it yields
`undefined` and the new own property is 1. -/
def bump (counts : List (String × CountVal)) (cat : String) : List (String × CountVal) :=
  match counts.lookup cat with
  | some _ => counts.map (fun kv => if kv.1 = cat then (kv.1, kv.2.bumped) else kv)
  | none =>
    if cat = "__proto__" then counts
    else if cat ∈ inheritedNames then counts ++ [(cat, .text)]
    else counts ++ [(cat, .num 1)]

/-- The callback of `news.forEach`: `if (post.category) { ... }`. -/
def countPost (counts : List (String × CountVal)) (post : Post) : List (String × CountVal) :=
  match post.category with
  | some c => if c != "" then bump counts c else counts
  | none => counts

/-- The object `counts` after `news.forEach(...)`. -/
def countCategories (news : List Post) : List (String × CountVal) :=
  news.foldl countPost []

/-- The value of a string of decimal digits, `none` when a character is not a digit. -/
def digitsValue : List Char → Option Nat
  | [] => some 0
  | c :: cs =>
    match digitsValue cs with
    | some v => if c.isDigit then some ((c.toNat - 48) * 10 ^ cs.length + v) else none
    | none => none

/-- The array index a property name denotes, if any: a canonical decimal numeral (no
leading zero, except "0" itself) below 2^32 - 1. -/
def arrayIndex (name : String) : Option Nat :=
  match name.toList with
  | [] => none
  | c :: cs =>
    if c = '0' ∧ cs ≠ [] then none
    else
      match digitsValue (c :: cs) with
      | some v => if v < 4294967295 then some v else none
      | none => none

/-- The order of two array-index names in `Object.entries`: ascending index. -/
def indexBefore (a b : String × CountVal) : Prop :=
  (arrayIndex a.1).getD 0 ≤ (arrayIndex b.1).getD 0

instance : DecidableRel indexBefore := fun a b => by
  unfold indexBefore
  infer_instance

/-- The array `Object.entries(counts)`: the array-index names in ascending numeric order,
then the other names in insertion order. -/
def objectEntries (counts : List (String × CountVal)) : List (String × CountVal) :=
  List.insertionSort indexBefore (counts.filter (fun kv => (arrayIndex kv.1).isSome))
    ++ counts.filter (fun kv => !(arrayIndex kv.1).isSome)

/-- An element of `categories`. -/
structure Category where
  name : String
  count : CountVal
  link : String
  deriving DecidableEq

/-- The replacement `.replace(/\s+/g, '-')`, scanning left to right: every maximal run of
white space becomes one hyphen (`inRun` tells that the previous character was white
space). -/
def dashSpacesFrom : Bool → List Char → List Char
  | _, [] => []
  | inRun, c :: cs =>
    if jsIsWhiteSpace c then
      if inRun then dashSpacesFrom true cs else '-' :: dashSpacesFrom true cs
    else c :: dashSpacesFrom false cs

/-- The replacement `.replace(/\s+/g, '-')` on a whole string. -/
def dashSpaces (l : List Char) : List Char :=
  dashSpacesFrom false l

/-- The callback of `.map`: `([name, count]) => ({ name, count, link })`. -/
def toCategory (toLowerCase : String → String) (kv : String × CountVal) : Category :=
  { name := kv.1, count := kv.2,
    link := "/category/" ++ String.mk (dashSpaces (toLowerCase kv.1).toList) }

/-- The comparator `(a, b) => b.count - a.count`: `none` is `NaN`, the result of
subtracting with a string that is not a numeral. -/
def compareCount (a b : Category) : Option Int :=
  match a.count, b.count with
  | .num m, .num n => some ((n : Int) - (m : Int))
  | _, _ => none

/-- Whether the comparator lets `a` stay before `b`: its result is not positive (`NaN`
counts as zero). -/
def staysBefore (a b : Category) : Prop :=
  match compareCount a b with
  | some d => d ≤ 0
  | none => True

instance : DecidableRel staysBefore := fun a b => by
  unfold staysBefore
  cases compareCount a b <;> infer_instance

/-- The value of `categories` for the context value `news` (`none` is `null` or
`undefined`).  `Array.prototype.sort` is stable, so for numeric counts its result is that
of any stable sort; when a count is a string the comparator is inconsistent and the order
the engine produces is implementation-defined. -/
def categories (toLowerCase : String → String) (news : Option (List Post)) : List Category :=
  match news with
  | none => []
  | some posts =>
    if posts.length = 0 then []
    else
      (List.insertionSort staysBefore
        ((objectEntries (countCategories posts)).map (toCategory toLowerCase))).take 8

/-- The number of posts whose category is `name`. -/
def postsIn (news : List Post) (name : String) : Nat :=
  news.countP (fun post => post.category == some name)

/-! ### Sample data -/

/-- A news list whose only post has the category "__proto__". -/
def protoNews : List Post :=
  [⟨"n1", some "__proto__"⟩]

/-- A news list whose only post has the category "constructor". -/
def constructorNews : List Post :=
  [⟨"n1", some "constructor"⟩]

/-- A news list with three categories, a post without category and one with the empty
category. -/
def mixedNews : List Post :=
  [⟨"n1", some "News"⟩, ⟨"n2", some "Op Ed"⟩, ⟨"n3", some "2024"⟩, ⟨"n4", some "Op Ed"⟩,
   ⟨"n5", none⟩, ⟨"n6", some ""⟩]

/-- A sample lower-casing: ASCII letters only. -/
def asciiLower (s : String) : String :=
  String.mk (s.toList.map Char.toLower)

end Footer

end BAS

/-! ## Theorems -/

namespace BAS

namespace SubmittedEvents

/-! ### Auxiliary facts -/

theorem strictEq_str (a b : String) :
    JsVal.strictEq (.str a) (.str b) = decide (a = b) := by
  unfold JsVal.strictEq
  by_cases h : a = b <;> simp [h]

theorem or_str_empty (u : String) : JsVal.or (.str u) (.str "") = .str u := by
  unfold JsVal.or JsVal.truthy
  by_cases h : u = "" <;> simp [h]

theorem mem_removeById (submission x : JsObj) (l : List JsObj) :
    x ∈ removeById submission l ↔
      x ∈ l ∧ JsVal.strictEq (x.getProp "id") (submission.getProp "id") = false := by
  simp [removeById, List.mem_filter, JsVal.strictNe]

theorem acceptPayload_copied (submission : JsObj) :
    ∀ k ∈ copiedKeys, (acceptPayload submission).getProp k = submission.getProp k := by
  intro k hk
  simp only [copiedKeys, List.mem_cons, List.mem_singleton, List.mem_nil_iff, or_false] at hk
  rcases hk with h | h | h | h | h | h | h <;> subst h <;>
    simp [acceptPayload, JsObj.getProp, List.lookup]

theorem acceptPayload_registrationUrl (submission : JsObj) :
    (acceptPayload submission).getProp "registrationUrl"
      = JsVal.or (submission.getProp "registrationUrl") (.str "") := by
  simp [acceptPayload, JsObj.getProp, List.lookup]

/-! ### Accept -/

/-- C1: in the accept confirm action, when `addDoc` to `events` rejects, the only store
call issued is that `addDoc` (no `deleteDoc` follows), both collections are as before, and
the component state, hence the local pending list, is unchanged; the failure toast is
shown. -/
theorem acceptConfirm_addDoc_rejected (submission : JsObj) (err : StoreError)
    (del : Except StoreError Unit) (st : State) (w : World) :
    (acceptConfirm submission ⟨.error err, del⟩ st w).2.calls
        = w.calls ++ [⟨.addDoc "events" (acceptPayload submission), false⟩]
    ∧ (∀ r ∈ (acceptConfirm submission ⟨.error err, del⟩ st w).2.calls,
        r ∈ w.calls ∨ ∀ coll id, r.call ≠ .deleteDoc coll id)
    ∧ (acceptConfirm submission ⟨.error err, del⟩ st w).2.store = w.store
    ∧ (acceptConfirm submission ⟨.error err, del⟩ st w).1.submissions = st.submissions
    ∧ (acceptConfirm submission ⟨.error err, del⟩ st w).1 = st
    ∧ (acceptConfirm submission ⟨.error err, del⟩ st w).2.toasts
        = w.toasts ++ [.error "Failed to publish event. Please try again."] := by
  refine ⟨rfl, ?_, rfl, rfl, rfl, rfl⟩
  intro r hr
  have hr2 : r ∈ w.calls ++ [⟨.addDoc "events" (acceptPayload submission), false⟩] := hr
  rcases List.mem_append.mp hr2 with h | h
  · exact Or.inl h
  · right
    intro coll id
    rw [List.mem_singleton.mp h]
    intro hc
    cases hc

/-- C2 fails as stated: with the Lagos submission listed, `addDoc` resolving and `deleteDoc`
rejecting, the published copy exists in `events` and yet the local pending list still holds
an item with the submission's id. -/
theorem failed_delete_keeps_item_listed :
    (∃ d ∈ (acceptConfirm lagosSubmission ⟨.ok "ev1", .error .unavailable⟩
              confirmingAccept loadedWorld).2.store.events, d.data = acceptPayload lagosSubmission)
    ∧ ¬ (∀ x ∈ (acceptConfirm lagosSubmission ⟨.ok "ev1", .error .unavailable⟩
              confirmingAccept loadedWorld).1.submissions,
          x.getProp "id" ≠ lagosSubmission.getProp "id") := by
  refine ⟨⟨⟨"ev1", acceptPayload lagosSubmission⟩, ?_, rfl⟩, ?_⟩
  · decide
  · intro h
    exact h lagosSubmission (by decide) rfl

/-- C2 amended: in the accept confirm action, when `addDoc` resolves and `deleteDoc`
rejects, the `catch` block runs: the component state (pending list and open modal) is
unchanged, the failure toast is shown, `events` has gained the published copy and
`submittedEvents` is as before. -/
theorem acceptConfirm_deleteDoc_rejected (submission : JsObj) (newId : String)
    (err : StoreError) (st : State) (w : World) :
    (acceptConfirm submission ⟨.ok newId, .error err⟩ st w).1 = st
    ∧ (acceptConfirm submission ⟨.ok newId, .error err⟩ st w).1.submissions = st.submissions
    ∧ (acceptConfirm submission ⟨.ok newId, .error err⟩ st w).2.toasts
        = w.toasts ++ [.error "Failed to publish event. Please try again."]
    ∧ (acceptConfirm submission ⟨.ok newId, .error err⟩ st w).2.store.events
        = w.store.events ++ [⟨newId, acceptPayload submission⟩]
    ∧ (acceptConfirm submission ⟨.ok newId, .error err⟩ st w).2.store.submittedEvents
        = w.store.submittedEvents
    ∧ (acceptConfirm submission ⟨.ok newId, .error err⟩ st w).2.calls
        = w.calls ++ [⟨.addDoc "events" (acceptPayload submission), true⟩,
                      ⟨.deleteDoc "submittedEvents" (submission.getProp "id"), false⟩] := by
  refine ⟨rfl, rfl, rfl, ?_, ?_, ?_⟩
  · simp [acceptConfirm, addDoc, deleteDoc, acceptCatch, Store.insert]
  · simp [acceptConfirm, addDoc, deleteDoc, acceptCatch, Store.insert]
  · simp [acceptConfirm, addDoc, deleteDoc, acceptCatch]

/-- C3: for a submission whose `registrationUrl` is a string, when both store calls
resolve, the accept confirm action issues exactly two store calls, one `addDoc` to `events`
and then one `deleteDoc` of the submission's id in `submittedEvents`; `events` gains exactly
one document, whose eight content fields equal the submission's; no document with that id
remains in `submittedEvents`; and no item of the local pending list has that id (in the
sense of `===`, which for a string id is equality). -/
theorem acceptConfirm_success (submission : JsObj) (url newId : String) (st : State)
    (w : World) (hurl : submission.getProp "registrationUrl" = .str url) :
    (acceptConfirm submission ⟨.ok newId, .ok ()⟩ st w).2.calls
        = w.calls ++ [⟨.addDoc "events" (acceptPayload submission), true⟩,
                      ⟨.deleteDoc "submittedEvents" (submission.getProp "id"), true⟩]
    ∧ (acceptConfirm submission ⟨.ok newId, .ok ()⟩ st w).2.store.events
        = w.store.events ++ [⟨newId, acceptPayload submission⟩]
    ∧ (∀ k ∈ contentKeys, (acceptPayload submission).getProp k = submission.getProp k)
    ∧ (∀ d ∈ (acceptConfirm submission ⟨.ok newId, .ok ()⟩ st w).2.store.submittedEvents,
        JsVal.str d.id ≠ submission.getProp "id")
    ∧ (∀ x ∈ (acceptConfirm submission ⟨.ok newId, .ok ()⟩ st w).1.submissions,
        JsVal.strictEq (x.getProp "id") (submission.getProp "id") = false)
    ∧ (∀ i, submission.getProp "id" = .str i →
        ∀ x ∈ (acceptConfirm submission ⟨.ok newId, .ok ()⟩ st w).1.submissions,
          x.getProp "id" ≠ submission.getProp "id") := by
  have hsub : (acceptConfirm submission ⟨.ok newId, .ok ()⟩ st w).1.submissions
      = removeById submission st.submissions := rfl
  refine ⟨?_, ?_, ?_, ?_, ?_, ?_⟩
  · simp [acceptConfirm, addDoc, deleteDoc]
  · simp [acceptConfirm, addDoc, deleteDoc, Store.insert, Store.remove]
  · intro k hk
    simp only [contentKeys, List.mem_cons, List.mem_singleton, List.mem_nil_iff,
      or_false] at hk
    rcases hk with h | h | h | h | h | h | h | h
    · exact acceptPayload_copied submission k (by simp [copiedKeys, h])
    · exact acceptPayload_copied submission k (by simp [copiedKeys, h])
    · exact acceptPayload_copied submission k (by simp [copiedKeys, h])
    · exact acceptPayload_copied submission k (by simp [copiedKeys, h])
    · exact acceptPayload_copied submission k (by simp [copiedKeys, h])
    · exact acceptPayload_copied submission k (by simp [copiedKeys, h])
    · exact acceptPayload_copied submission k (by simp [copiedKeys, h])
    · subst h
      rw [acceptPayload_registrationUrl, hurl, or_str_empty]
  · intro d hd
    have hd2 : d ∈ (w.store.submittedEvents).filter
        (fun d => decide (JsVal.str d.id ≠ submission.getProp "id")) := by
      simpa [acceptConfirm, addDoc, deleteDoc, Store.insert, Store.remove] using hd
    simpa using (List.mem_filter.mp hd2).2
  · intro x hx
    rw [hsub] at hx
    exact ((mem_removeById submission x st.submissions).mp hx).2
  · intro i hi x hx hxi
    rw [hsub] at hx
    have h := ((mem_removeById submission x st.submissions).mp hx).2
    rw [hxi, hi, strictEq_str] at h
    simp at h

/-- Witness for C3 on the Lagos submission of the specification's scenario. -/
theorem acceptConfirm_success_witness :
    lagosSubmission.getProp "registrationUrl" = .str ""
    ∧ (acceptConfirm lagosSubmission ⟨.ok "ev1", .ok ()⟩ confirmingAccept loadedWorld).2.store.events
        = [⟨"ev1", acceptPayload lagosSubmission⟩]
    ∧ (acceptConfirm lagosSubmission ⟨.ok "ev1", .ok ()⟩ confirmingAccept loadedWorld).1.submissions
        = [accraSubmission] :=
  ⟨by decide,
   (acceptConfirm_success lagosSubmission "" "ev1" confirmingAccept loadedWorld (by decide)).2.1,
   by decide⟩

/-- C4: for every outcome of the accept confirm action, the calls it issues are either a
rejected `addDoc` alone, or a resolved `addDoc` to `events` followed by the `deleteDoc` on
`submittedEvents`; whenever `submittedEvents` changed, `addDoc` had resolved and `events`
holds the created document; so every document that was in `submittedEvents` is still there
or `events` holds a document carrying the submission's content (the seven required fields
verbatim, and `registrationUrl || ''`). -/
theorem acceptConfirm_create_before_delete (submission : JsObj) (o : Outcomes) (st : State)
    (w : World) :
    (((∃ e, o.addDoc = .error e)
        ∧ (acceptConfirm submission o st w).2.calls
            = w.calls ++ [⟨.addDoc "events" (acceptPayload submission), false⟩])
      ∨ ((∃ newId, o.addDoc = .ok newId)
        ∧ (acceptConfirm submission o st w).2.calls
            = w.calls ++ [⟨.addDoc "events" (acceptPayload submission), true⟩,
                ⟨.deleteDoc "submittedEvents" (submission.getProp "id"), o.deleteDoc.toBool⟩]))
    ∧ ((acceptConfirm submission o st w).2.store.submittedEvents ≠ w.store.submittedEvents →
        ∃ newId, o.addDoc = .ok newId ∧
          (⟨newId, acceptPayload submission⟩ : StoredDoc)
            ∈ (acceptConfirm submission o st w).2.store.events)
    ∧ (∀ d ∈ w.store.submittedEvents,
        d ∈ (acceptConfirm submission o st w).2.store.submittedEvents
        ∨ ∃ e ∈ (acceptConfirm submission o st w).2.store.events,
            e.data = acceptPayload submission)
    ∧ (∀ k ∈ copiedKeys, (acceptPayload submission).getProp k = submission.getProp k)
    ∧ (acceptPayload submission).getProp "registrationUrl"
        = JsVal.or (submission.getProp "registrationUrl") (.str "") := by
  obtain ⟨oa, od⟩ := o
  refine ⟨?_, ?_, ?_, acceptPayload_copied submission,
    acceptPayload_registrationUrl submission⟩
  · cases oa with
    | error e => exact Or.inl ⟨⟨e, rfl⟩, rfl⟩
    | ok newId =>
      refine Or.inr ⟨⟨newId, rfl⟩, ?_⟩
      cases od with
      | error e => simp [acceptConfirm, addDoc, deleteDoc, acceptCatch, Except.toBool]
      | ok u => simp [acceptConfirm, addDoc, deleteDoc, Except.toBool]
  · intro hne
    cases oa with
    | error e => exact absurd rfl hne
    | ok newId =>
      refine ⟨newId, rfl, ?_⟩
      cases od with
      | error e => simp [acceptConfirm, addDoc, deleteDoc, acceptCatch, Store.insert]
      | ok u => simp [acceptConfirm, addDoc, deleteDoc, Store.insert, Store.remove]
  · intro d hd
    cases oa with
    | error e => exact Or.inl hd
    | ok newId =>
      right
      refine ⟨⟨newId, acceptPayload submission⟩, ?_, rfl⟩
      cases od with
      | error e => simp [acceptConfirm, addDoc, deleteDoc, acceptCatch, Store.insert]
      | ok u => simp [acceptConfirm, addDoc, deleteDoc, Store.insert, Store.remove]

/-! ### Reject -/

/-- C5: for every submission and every store outcome, the reject confirm action issues
exactly one store call, a `deleteDoc` of the submission's id in `submittedEvents`; it issues
no `addDoc` and leaves the `events` collection as it was. -/
theorem deleteConfirm_only_deletes (submission : JsObj) (o : Outcomes) (st : State)
    (w : World) :
    (deleteConfirm submission o st w).2.calls
        = w.calls ++ [⟨.deleteDoc "submittedEvents" (submission.getProp "id"), o.deleteDoc.toBool⟩]
    ∧ (∀ r ∈ (deleteConfirm submission o st w).2.calls,
        r ∈ w.calls ∨ ∀ coll payload, r.call ≠ .addDoc coll payload)
    ∧ (deleteConfirm submission o st w).2.store.events = w.store.events := by
  obtain ⟨oa, od⟩ := o
  have hcalls : (deleteConfirm submission ⟨oa, od⟩ st w).2.calls
      = w.calls ++ [⟨.deleteDoc "submittedEvents" (submission.getProp "id"), od.toBool⟩] := by
    cases od with
    | error e => rfl
    | ok u => rfl
  refine ⟨hcalls, ?_, ?_⟩
  · intro r hr
    rw [hcalls] at hr
    rcases List.mem_append.mp hr with h | h
    · exact Or.inl h
    · right
      intro coll payload
      rw [List.mem_singleton.mp h]
      intro hc
      cases hc
  · cases od with
    | error e => rfl
    | ok u => simp [deleteConfirm, deleteDoc, Store.remove]

theorem deleteConfirm_list_cases (submission : JsObj) (o : Outcomes) (st : State)
    (w : World) :
    (deleteConfirm submission o st w).1.submissions
        = (match o.deleteDoc with
           | .ok _ => removeById submission st.submissions
           | .error _ => st.submissions)
    ∧ ((∃ x ∈ (deleteConfirm submission o st w).1.submissions,
          JsVal.strictEq (x.getProp "id") (submission.getProp "id") = true)
        ↔ ((∃ x ∈ st.submissions,
              JsVal.strictEq (x.getProp "id") (submission.getProp "id") = true)
            ∧ ∃ e, o.deleteDoc = .error e))
    ∧ (∀ i, submission.getProp "id" = .str i → submission ∈ st.submissions →
        (submission ∉ (deleteConfirm submission o st w).1.submissions
          ↔ o.deleteDoc = .ok ())) := by
  obtain ⟨oa, od⟩ := o
  cases od with
  | error e =>
    have hs : (deleteConfirm submission ⟨oa, .error e⟩ st w).1.submissions = st.submissions :=
      rfl
    refine ⟨rfl, ?_, ?_⟩
    · rw [hs]
      constructor
      · intro h
        exact ⟨h, e, rfl⟩
      · intro h
        exact h.1
    · intro i _ hmem
      rw [hs]
      constructor
      · intro h
        exact absurd hmem h
      · intro h
        cases h
  | ok u =>
    have hs : (deleteConfirm submission ⟨oa, .ok u⟩ st w).1.submissions
        = removeById submission st.submissions := rfl
    refine ⟨rfl, ?_, ?_⟩
    · rw [hs]
      constructor
      · rintro ⟨x, hx, hxe⟩
        have h := ((mem_removeById submission x st.submissions).mp hx).2
        rw [hxe] at h
        cases h
      · rintro ⟨_, e, he⟩
        cases he
    · intro i hi _
      rw [hs]
      constructor
      · intro _
        rfl
      · intro _ hmem
        have h := ((mem_removeById submission submission st.submissions).mp hmem).2
        rw [hi, strictEq_str] at h
        simp at h

/-- C6: in the reject confirm action the local pending list is, when `deleteDoc` resolved,
the pending list without the items whose id `===` the submission's (every other item kept,
in order), and the unchanged list when it rejected; hence the result holds an item with
that id exactly when one was listed and `deleteDoc` rejected, and a listed submission (with
a string id) is gone from the list if and only if `deleteDoc` resolved.  On the sample list
rejecting the Lagos submission leaves exactly the Accra one, and a failed `deleteDoc`
leaves both. -/
theorem deleteConfirm_removes_iff_deleted (submission : JsObj) (o : Outcomes) (st : State)
    (w : World) :
    (deleteConfirm submission o st w).1.submissions
        = (match o.deleteDoc with
           | .ok _ => removeById submission st.submissions
           | .error _ => st.submissions)
    ∧ ((∃ x ∈ (deleteConfirm submission o st w).1.submissions,
          JsVal.strictEq (x.getProp "id") (submission.getProp "id") = true)
        ↔ ((∃ x ∈ st.submissions,
              JsVal.strictEq (x.getProp "id") (submission.getProp "id") = true)
            ∧ ∃ e, o.deleteDoc = .error e))
    ∧ (∀ i, submission.getProp "id" = .str i → submission ∈ st.submissions →
        (submission ∉ (deleteConfirm submission o st w).1.submissions
          ↔ o.deleteDoc = .ok ()))
    ∧ (deleteConfirm submission o st w).1.submissions
        = (match o.deleteDoc with
           | .ok _ => st.submissions.filter
               (fun x => !(JsVal.strictEq (x.getProp "id") (submission.getProp "id")))
           | .error _ => st.submissions)
    ∧ (∀ x, x ∈ (deleteConfirm submission o st w).1.submissions
        ↔ x ∈ st.submissions
          ∧ (o.deleteDoc = .ok () →
              JsVal.strictEq (x.getProp "id") (submission.getProp "id") = false))
    ∧ (deleteConfirm submission o st w).1.submissions.Sublist st.submissions
    ∧ (deleteConfirm lagosSubmission ⟨.ok "ev1", .ok ()⟩ confirmingDelete loadedWorld).1.submissions
        = [accraSubmission]
    ∧ (deleteConfirm lagosSubmission ⟨.ok "ev1", .error .unavailable⟩ confirmingDelete
          loadedWorld).1.submissions = [lagosSubmission, accraSubmission] := by
  obtain ⟨h1, h2, h3⟩ := deleteConfirm_list_cases submission o st w
  refine ⟨h1, h2, h3, ?_, ?_, ?_, by decide, by decide⟩
  · rw [h1]
    cases o.deleteDoc <;> rfl
  · intro x
    rw [h1]
    cases hd : o.deleteDoc with
    | error e => simp
    | ok u => simp [mem_removeById]
  · rw [h1]
    cases o.deleteDoc with
    | error e => exact List.Sublist.refl _
    | ok u => exact List.filter_sublist _

/-! ### Two-step confirmation -/

/-- C7: `handleAccept` and `handleDelete` only open the modal holding the pending action
(pending list untouched); every click other than CONFIRM leaves the world (store, call
log, toasts) and the pending list as they were; the call log grows only when CONFIRM
invokes the stored `confirmAction`, and invoking it always issues a store call; `closeModal`
resets the modal to closed with no action, after which no stored action is left to run. -/
theorem two_step_confirmation (submission : JsObj) (o : Outcomes) (st : State) (w : World) :
    handleAccept submission st
        = { st with modal := ⟨true, "Accept Event",
              "Are you sure you want to publish this event?", some (.accept submission)⟩ }
    ∧ handleDelete submission st
        = { st with modal := ⟨true, "Delete Submission",
              "Are you sure you want to delete this submission?", some (.delete submission)⟩ }
    ∧ (handleAccept submission st).submissions = st.submissions
    ∧ (handleDelete submission st).submissions = st.submissions
    ∧ (step (.cardAccept submission) o st w).2 = w
    ∧ (step (.cardDelete submission) o st w).2 = w
    ∧ (∀ ev, ev ≠ UiEvent.modalConfirm →
        (step ev o st w).2 = w ∧ (step ev o st w).1.submissions = st.submissions)
    ∧ (∀ ev, (step ev o st w).2.calls ≠ w.calls →
        ev = UiEvent.modalConfirm ∧ st.modal.isOpen = true ∧
          ∃ act, st.modal.confirmAction = some act ∧
            step ev o st w = runConfirmAction act o st w)
    ∧ (∀ act, w.calls.length < ((runConfirmAction act o st w).2.calls).length)
    ∧ (closeModal st).modal = ⟨false, "", "", none⟩
    ∧ (closeModal st).submissions = st.submissions
    ∧ step UiEvent.modalConfirm o (closeModal st) w = (closeModal st, w)
    ∧ step UiEvent.modalCancel o st w = (if st.modal.isOpen && st.modal.confirmAction.isSome
        then closeModal st else st, w) := by
  have hquiet : ∀ ev, ev ≠ UiEvent.modalConfirm →
      (step ev o st w).2 = w ∧ (step ev o st w).1.submissions = st.submissions := by
    intro ev hev
    cases ev with
    | cardView s => simp only [step]; split <;> exact ⟨rfl, rfl⟩
    | cardAccept s => simp only [step]; split <;> exact ⟨rfl, rfl⟩
    | cardDelete s => simp only [step]; split <;> exact ⟨rfl, rfl⟩
    | previewClose => simp only [step]; split <;> exact ⟨rfl, rfl⟩
    | previewAcceptPublish => simp only [step]; split <;> exact ⟨rfl, rfl⟩
    | modalBackdrop => simp only [step]; split <;> exact ⟨rfl, rfl⟩
    | modalCancel => simp only [step]; split <;> exact ⟨rfl, rfl⟩
    | modalConfirm => exact absurd rfl hev
    | modalContinue => simp only [step]; split <;> exact ⟨rfl, rfl⟩
  refine ⟨rfl, rfl, rfl, rfl, (hquiet _ (by simp)).1, (hquiet _ (by simp)).1, hquiet,
    ?_, ?_, rfl, rfl, rfl, ?_⟩
  · intro ev hcalls
    by_cases hev : ev = UiEvent.modalConfirm
    · subst hev
      refine ⟨rfl, ?_⟩
      cases hopen : st.modal.isOpen with
      | false =>
        exfalso
        apply hcalls
        simp [step, hopen]
      | true =>
        refine ⟨rfl, ?_⟩
        cases hact : st.modal.confirmAction with
        | none =>
          exfalso
          apply hcalls
          simp [step, hopen, hact]
        | some act =>
          exact ⟨act, rfl, by simp [step, hopen, hact]⟩
    · exfalso
      apply hcalls
      rw [(hquiet ev hev).1]
  · intro act
    obtain ⟨oa, od⟩ := o
    cases act with
    | accept s =>
      cases oa with
      | error e => simp [runConfirmAction, acceptConfirm, addDoc, acceptCatch]
      | ok newId =>
        cases od with
        | error e => simp [runConfirmAction, acceptConfirm, addDoc, deleteDoc, acceptCatch]
        | ok u => simp [runConfirmAction, acceptConfirm, addDoc, deleteDoc]
    | delete s =>
      cases od with
      | error e => simp [runConfirmAction, deleteConfirm, deleteDoc, deleteCatch]
      | ok u => simp [runConfirmAction, deleteConfirm, deleteDoc]
  · simp only [step]
    split <;> rfl

/-! ### The published payload -/

theorem getProp_setProp_of_ne (o : JsObj) (k j : String) (v : JsVal) (h : k ≠ j) :
    (JsObj.setProp o k v).getProp j = o.getProp j := by
  induction o with
  | nil =>
    have hj : (j == k) = false := by simpa using h.symm
    simp [JsObj.setProp, JsObj.getProp, List.lookup, hj]
  | cons kv rest ih =>
    obtain ⟨k0, v0⟩ := kv
    unfold JsObj.getProp at ih ⊢
    by_cases hk : k0 = k
    · subst hk
      have hj : (j == k0) = false := by simpa using h.symm
      simp [JsObj.setProp, List.lookup, hj]
    · by_cases hj : j = k0
      · subst hj
        simp [JsObj.setProp, hk, List.lookup]
      · have hj2 : (j == k0) = false := by simpa using hj
        simp only [JsObj.setProp, hk, if_false, List.lookup, hj2]
        exact ih

/-- C8: for every submission, whatever fields it has, the payload written by accept has
exactly the nine properties of the object literal; its `createdAt` is the
`serverTimestamp()` sentinel; it has no `submittedAt`, `status` or `id` property; and it is
determined by the eight content fields alone, so in particular changing the submission's
`submittedAt`, `status` or `id` does not change the payload. -/
theorem acceptPayload_fresh_createdAt (submission : JsObj) :
    (acceptPayload submission).getProp "createdAt" = JsVal.serverTimestamp
    ∧ (acceptPayload submission).keys
        = ["eventName", "venue", "address", "date", "time", "description", "banner",
           "registrationUrl", "createdAt"]
    ∧ (acceptPayload submission).hasProp "submittedAt" = false
    ∧ (acceptPayload submission).hasProp "status" = false
    ∧ (acceptPayload submission).hasProp "id" = false
    ∧ (∀ other : JsObj, (∀ k ∈ contentKeys, other.getProp k = submission.getProp k) →
        acceptPayload other = acceptPayload submission)
    ∧ (∀ v, acceptPayload (JsObj.setProp submission "submittedAt" v) = acceptPayload submission)
    ∧ (∀ v, acceptPayload (JsObj.setProp submission "status" v) = acceptPayload submission)
    ∧ (∀ v, acceptPayload (JsObj.setProp submission "id" v) = acceptPayload submission) := by
  have hdet : ∀ other : JsObj, (∀ k ∈ contentKeys, other.getProp k = submission.getProp k) →
      acceptPayload other = acceptPayload submission := by
    intro other h
    simp only [acceptPayload]
    rw [h "eventName" (by simp [contentKeys]), h "venue" (by simp [contentKeys]),
      h "address" (by simp [contentKeys]), h "date" (by simp [contentKeys]),
      h "time" (by simp [contentKeys]), h "description" (by simp [contentKeys]),
      h "banner" (by simp [contentKeys]), h "registrationUrl" (by simp [contentKeys])]
  have hset : ∀ (j : String) (v : JsVal), j ∉ contentKeys →
      acceptPayload (JsObj.setProp submission j v) = acceptPayload submission := by
    intro j v hj
    apply hdet
    intro k hk
    apply getProp_setProp_of_ne
    intro hjk
    exact hj (hjk ▸ hk)
  refine ⟨?_, rfl, ?_, ?_, ?_, hdet, ?_, ?_, ?_⟩
  · simp [acceptPayload, JsObj.getProp, List.lookup]
  · simp [acceptPayload, JsObj.hasProp, List.lookup]
  · simp [acceptPayload, JsObj.hasProp, List.lookup]
  · simp [acceptPayload, JsObj.hasProp, List.lookup]
  · intro v
    exact hset "submittedAt" v (by simp [contentKeys])
  · intro v
    exact hset "status" v (by simp [contentKeys])
  · intro v
    exact hset "id" v (by simp [contentKeys])

/-! ### Items that vanished from the store -/

/-- C9 fails as stated: with the Lagos document already gone from `submittedEvents`, a
`deleteDoc` rejected as not-found gives the very toast list a generic rejection gives, for
reject and for accept alike, and a preview click opens the detail view without any notice
or store call. -/
theorem not_found_notice_counterexample :
    (∀ d ∈ racedWorld.store.submittedEvents, JsVal.str d.id ≠ lagosSubmission.getProp "id")
    ∧ (deleteConfirm lagosSubmission ⟨.ok "ev1", .error .notFound⟩ confirmingDelete
          racedWorld).2.toasts
        = (deleteConfirm lagosSubmission ⟨.ok "ev1", .error .unavailable⟩ confirmingDelete
          racedWorld).2.toasts
    ∧ (deleteConfirm lagosSubmission ⟨.ok "ev1", .error .notFound⟩ confirmingDelete
          racedWorld).2.toasts = [.error "Failed to delete submission."]
    ∧ (acceptConfirm lagosSubmission ⟨.ok "ev1", .error .notFound⟩ confirmingAccept
          racedWorld).2.toasts
        = (acceptConfirm lagosSubmission ⟨.ok "ev1", .error .unavailable⟩ confirmingAccept
          racedWorld).2.toasts
    ∧ (acceptConfirm lagosSubmission ⟨.ok "ev1", .error .notFound⟩ confirmingAccept
          racedWorld).2.toasts = [.error "Failed to publish event. Please try again."]
    ∧ step (.cardView lagosSubmission) ⟨.ok "ev1", .error .notFound⟩ loadedState racedWorld
        = ({ loadedState with previewEvent := some lagosSubmission }, racedWorld) := by
  refine ⟨by decide, rfl, rfl, rfl, rfl, by decide⟩

/-- C9 amended: no operation has a not-found outcome of its own.  The preview click issues
no store call and shows no notice, and opens the detail view of any listed item whatever
the store holds.  Accept and reject end, for a rejected store call of any cause, in the
same component state, store and toast list (the one generic failure toast); only the
console line carries the cause.  That component state is the one before the action: a
rejected `addDoc`, a rejected `deleteDoc` of accept and a rejected `deleteDoc` of reject
each leave the pending list, the preview, the loading flag and the modal as they were; the
store is unchanged too, except for the event a resolved `addDoc` created before the
`deleteDoc` of accept rejected.  When the calls resolve, accept shows its ordinary success
toast and reject shows none. -/
theorem rejection_cause_not_distinguished (submission : JsObj) (newId : String)
    (oa : Except StoreError String) (od : Except StoreError Unit) (e1 e2 : StoreError)
    (st : State) (w : World) :
    (step (.cardView submission) ⟨oa, od⟩ st w).2 = w
    ∧ (step (.cardView submission) ⟨oa, od⟩ st w).1
        = (if cardShown submission st then { st with previewEvent := some submission } else st)
    ∧ (acceptConfirm submission ⟨.ok newId, .error e1⟩ st w).1
        = (acceptConfirm submission ⟨.ok newId, .error e2⟩ st w).1
    ∧ (acceptConfirm submission ⟨.ok newId, .error e1⟩ st w).2.toasts
        = (acceptConfirm submission ⟨.ok newId, .error e2⟩ st w).2.toasts
    ∧ (acceptConfirm submission ⟨.ok newId, .error e1⟩ st w).2.store
        = (acceptConfirm submission ⟨.ok newId, .error e2⟩ st w).2.store
    ∧ (acceptConfirm submission ⟨.error e1, od⟩ st w).1
        = (acceptConfirm submission ⟨.error e2, od⟩ st w).1
    ∧ (acceptConfirm submission ⟨.error e1, od⟩ st w).2.toasts
        = (acceptConfirm submission ⟨.error e2, od⟩ st w).2.toasts
    ∧ (acceptConfirm submission ⟨.ok newId, .error e1⟩ st w).2.toasts
        = w.toasts ++ [.error "Failed to publish event. Please try again."]
    ∧ (acceptConfirm submission ⟨.error e1, od⟩ st w).2.toasts
        = w.toasts ++ [.error "Failed to publish event. Please try again."]
    ∧ (deleteConfirm submission ⟨oa, .error e1⟩ st w).1
        = (deleteConfirm submission ⟨oa, .error e2⟩ st w).1
    ∧ (deleteConfirm submission ⟨oa, .error e1⟩ st w).2.toasts
        = (deleteConfirm submission ⟨oa, .error e2⟩ st w).2.toasts
    ∧ (deleteConfirm submission ⟨oa, .error e1⟩ st w).2.store
        = (deleteConfirm submission ⟨oa, .error e2⟩ st w).2.store
    ∧ (deleteConfirm submission ⟨oa, .error e1⟩ st w).2.toasts
        = w.toasts ++ [.error "Failed to delete submission."]
    ∧ (deleteConfirm submission ⟨oa, .error e1⟩ st w).2.console
        = w.console ++ [("Error deleting submission:", e1)]
    ∧ (acceptConfirm submission ⟨.ok newId, .error e1⟩ st w).2.console
        = w.console ++ [("Error accepting submission:", e1)]
    ∧ (acceptConfirm submission ⟨.ok newId, .ok ()⟩ st w).2.toasts
        = w.toasts ++ [.success "Event has been published successfully!"]
    ∧ (deleteConfirm submission ⟨oa, .ok ()⟩ st w).2.toasts = w.toasts
    ∧ (acceptConfirm submission ⟨.error e1, od⟩ st w).1 = st
    ∧ (acceptConfirm submission ⟨.ok newId, .error e1⟩ st w).1 = st
    ∧ (deleteConfirm submission ⟨oa, .error e1⟩ st w).1 = st
    ∧ (acceptConfirm submission ⟨.error e1, od⟩ st w).2.store = w.store
    ∧ (acceptConfirm submission ⟨.ok newId, .error e1⟩ st w).2.store
        = w.store.insert "events" newId (acceptPayload submission)
    ∧ (deleteConfirm submission ⟨oa, .error e1⟩ st w).2.store = w.store
    ∧ (acceptConfirm submission ⟨.error e1, od⟩ st w).2.console
        = w.console ++ [("Error accepting submission:", e1)] := by
  refine ⟨?_, ?_, rfl, rfl, rfl, rfl, rfl, rfl, rfl, rfl, rfl, rfl, rfl, rfl, rfl, rfl, rfl,
    rfl, rfl, rfl, rfl, rfl, rfl, rfl⟩
  · simp only [step]
    split <;> rfl
  · simp only [step]
    split <;> rfl

/-! ### Preview -/

/-- C10: opening a preview (`setPreviewEvent(submission)`) and closing it
(`setPreviewEvent(null)`) change only `previewEvent`: the pending list and the modal are
untouched, and the corresponding clicks leave the world (store, call log, toasts) as it
was; after opening and closing, the list is the one before, so a listed submission is
still listed, and the preview is closed again. -/
theorem preview_non_mutating (submission : JsObj) (o : Outcomes) (st : State) (w : World) :
    (setPreviewEvent (some submission) st).submissions = st.submissions
    ∧ (setPreviewEvent none st).submissions = st.submissions
    ∧ (setPreviewEvent (some submission) st).modal = st.modal
    ∧ (setPreviewEvent none st).modal = st.modal
    ∧ setPreviewEvent none (setPreviewEvent (some submission) st)
        = { st with previewEvent := none }
    ∧ (step (.cardView submission) o st w).2 = w
    ∧ (step (.cardView submission) o st w).1.submissions = st.submissions
    ∧ (step .previewClose o st w).2 = w
    ∧ (step .previewClose o st w).1.submissions = st.submissions
    ∧ (step .previewClose o (step (.cardView submission) o st w).1
          (step (.cardView submission) o st w).2).2 = w
    ∧ (step .previewClose o (step (.cardView submission) o st w).1
          (step (.cardView submission) o st w).2).1.submissions = st.submissions
    ∧ (step .previewClose o (step (.cardView submission) o st w).1
          (step (.cardView submission) o st w).2).1.previewEvent = none
    ∧ (submission ∈ st.submissions →
        submission ∈ (step .previewClose o (step (.cardView submission) o st w).1
          (step (.cardView submission) o st w).2).1.submissions) := by
  have hview : (step (.cardView submission) o st w).2 = w
      ∧ (step (.cardView submission) o st w).1.submissions = st.submissions := by
    simp only [step]
    split <;> exact ⟨rfl, rfl⟩
  have hclose : ∀ (st0 : State) (w0 : World), (step .previewClose o st0 w0).2 = w0
      ∧ (step .previewClose o st0 w0).1.submissions = st0.submissions
      ∧ (step .previewClose o st0 w0).1.previewEvent = none := by
    intro st0 w0
    simp only [step]
    split
    · exact ⟨rfl, rfl, rfl⟩
    · next h => exact ⟨rfl, rfl, h⟩
  have hboth := hclose (step (.cardView submission) o st w).1
    (step (.cardView submission) o st w).2
  refine ⟨rfl, rfl, rfl, rfl, rfl, hview.1, hview.2, (hclose st w).1, (hclose st w).2.1,
    ?_, ?_, hboth.2.2, ?_⟩
  · rw [hboth.1, hview.1]
  · rw [hboth.2.1, hview.2]
  · intro hmem
    rw [hboth.2.1, hview.2]
    exact hmem

end SubmittedEvents

/-! ## Event submission intake (`Community`) -/

namespace Community

/-! ### Auxiliary facts -/

theorem submitPayload_fields (form : SubmitFormData) (bannerUrl : ImageVal) :
    (submitPayload form bannerUrl).getProp "status" = .str "pending"
    ∧ (submitPayload form bannerUrl).getProp "submittedAt" = JsVal.serverTimestamp
    ∧ (submitPayload form bannerUrl).getProp "eventName" = .str form.eventName
    ∧ (submitPayload form bannerUrl).getProp "venue" = .str form.venue
    ∧ (submitPayload form bannerUrl).getProp "address" = .str form.address
    ∧ (submitPayload form bannerUrl).getProp "date" = .str form.date
    ∧ (submitPayload form bannerUrl).getProp "time" = .str form.time
    ∧ (submitPayload form bannerUrl).getProp "description" = .str form.description
    ∧ (submitPayload form bannerUrl).getProp "banner" = JsVal.or bannerUrl.toJs (.str "") := by
  simp [submitPayload, JsObj.getProp, List.lookup]

theorem createSubmission_resolved (bannerUrl : ImageVal) (up : Except NetError Unit)
    (dl : Except NetError String) (newId : String) (st : State) (w : NetWorld) :
    createSubmission bannerUrl ⟨up, dl, .ok newId⟩ st w
      = ({ st with submitFormData := emptyForm, imagePreview := "", showSubmitModal := false,
                   submitting := false },
         { store := w.store.insert "submittedEvents" newId
              (submitPayload st.submitFormData bannerUrl),
           calls := w.calls ++
              [⟨.addDoc "submittedEvents" (submitPayload st.submitFormData bannerUrl), true⟩],
           toasts := w.toasts ++
              [.success "Event submitted successfully! Our team will review it shortly."],
           console := w.console }) := by
  simp [createSubmission, NetWorld.log]

theorem createSubmission_rejected (bannerUrl : ImageVal) (up : Except NetError Unit)
    (dl : Except NetError String) (e : NetError) (st : State) (w : NetWorld) :
    createSubmission bannerUrl ⟨up, dl, .error e⟩ st w
      = ({ st with submitting := false },
         { store := w.store,
           calls := w.calls ++
              [⟨.addDoc "submittedEvents" (submitPayload st.submitFormData bannerUrl), false⟩],
           toasts := w.toasts ++ [.error "Failed to submit event. Please try again."],
           console := w.console ++ ["Error submitting event:"] }) := by
  simp [createSubmission, submitCatch, NetWorld.log]

theorem insert_submittedEvents (s : Store) (newId : String) (payload : JsObj) :
    (s.insert "submittedEvents" newId payload).submittedEvents
        = s.submittedEvents ++ [⟨newId, payload⟩]
    ∧ (s.insert "submittedEvents" newId payload).events = s.events := by
  simp [Store.insert]

/-! ### Submission -/

/-- C11: when every storage and store call resolves, `handleSubmitEvent` issues exactly one
document-create call, an `addDoc` to `submittedEvents` (preceded by `uploadBytes` and
`getDownloadURL` when the banner is a blob, by nothing when it is a URL string); the store
gains exactly that one document in `submittedEvents` and `events` is untouched; the payload
has `status` equal to "pending", the `serverTimestamp()` sentinel as `submittedAt`, and
`eventName`, `venue`, `address`, `date`, `time`, `description` equal to the form's. -/
theorem handleSubmitEvent_creates_pending (now : Nat) (url newId : String) (st : State)
    (w : NetWorld) :
    (∀ u, st.submitFormData.banner = .str u →
      (handleSubmitEvent now ⟨.ok (), .ok url, .ok newId⟩ st w).2.calls
          = w.calls ++ [⟨.addDoc "submittedEvents" (submitPayload st.submitFormData (.str u)),
                          true⟩]
      ∧ (handleSubmitEvent now ⟨.ok (), .ok url, .ok newId⟩ st w).2.store.submittedEvents
          = w.store.submittedEvents ++ [⟨newId, submitPayload st.submitFormData (.str u)⟩]
      ∧ (handleSubmitEvent now ⟨.ok (), .ok url, .ok newId⟩ st w).2.store.events
          = w.store.events)
    ∧ (∀ b, st.submitFormData.banner = .blob b →
      (handleSubmitEvent now ⟨.ok (), .ok url, .ok newId⟩ st w).2.calls
          = w.calls ++ [⟨.uploadBytes (bannerPath now) b, true⟩,
                        ⟨.getDownloadURL (bannerPath now), true⟩,
                        ⟨.addDoc "submittedEvents" (submitPayload st.submitFormData (.str url)),
                          true⟩]
      ∧ (handleSubmitEvent now ⟨.ok (), .ok url, .ok newId⟩ st w).2.store.submittedEvents
          = w.store.submittedEvents ++ [⟨newId, submitPayload st.submitFormData (.str url)⟩]
      ∧ (handleSubmitEvent now ⟨.ok (), .ok url, .ok newId⟩ st w).2.store.events
          = w.store.events)
    ∧ (∀ bannerUrl : ImageVal,
        (submitPayload st.submitFormData bannerUrl).getProp "status" = .str "pending"
        ∧ (submitPayload st.submitFormData bannerUrl).getProp "submittedAt"
            = JsVal.serverTimestamp
        ∧ (submitPayload st.submitFormData bannerUrl).getProp "eventName"
            = .str st.submitFormData.eventName
        ∧ (submitPayload st.submitFormData bannerUrl).getProp "venue"
            = .str st.submitFormData.venue
        ∧ (submitPayload st.submitFormData bannerUrl).getProp "address"
            = .str st.submitFormData.address
        ∧ (submitPayload st.submitFormData bannerUrl).getProp "date"
            = .str st.submitFormData.date
        ∧ (submitPayload st.submitFormData bannerUrl).getProp "time"
            = .str st.submitFormData.time
        ∧ (submitPayload st.submitFormData bannerUrl).getProp "description"
            = .str st.submitFormData.description) := by
  refine ⟨?_, ?_, ?_⟩
  · intro u hu
    have h : handleSubmitEvent now ⟨.ok (), .ok url, .ok newId⟩ st w
        = createSubmission (.str u) ⟨.ok (), .ok url, .ok newId⟩
            { st with submitting := true } w := by
      simp [handleSubmitEvent, hu]
    rw [h, createSubmission_resolved]
    exact ⟨rfl, (insert_submittedEvents _ _ _).1, (insert_submittedEvents _ _ _).2⟩
  · intro b hb
    have h : handleSubmitEvent now ⟨.ok (), .ok url, .ok newId⟩ st w
        = createSubmission (.str url) ⟨.ok (), .ok url, .ok newId⟩
            { st with submitting := true }
            ((w.log (.uploadBytes (bannerPath now) b) true).log
              (.getDownloadURL (bannerPath now)) true) := by
      simp [handleSubmitEvent, hb]
    rw [h, createSubmission_resolved]
    refine ⟨?_, (insert_submittedEvents _ _ _).1, (insert_submittedEvents _ _ _).2⟩
    simp [NetWorld.log]
  · intro bannerUrl
    have h := submitPayload_fields st.submitFormData bannerUrl
    exact ⟨h.1, h.2.1, h.2.2.1, h.2.2.2.1, h.2.2.2.2.1, h.2.2.2.2.2.1, h.2.2.2.2.2.2.1,
      h.2.2.2.2.2.2.2.1⟩

theorem handleSubmitEvent_of_not_blob (now : Nat) (o : SubmitOutcomes) (st : State)
    (w : NetWorld) (h : st.submitFormData.banner.isBlob = false) :
    handleSubmitEvent now o st w
      = createSubmission st.submitFormData.banner o { st with submitting := true } w := by
  unfold handleSubmitEvent
  cases hb : st.submitFormData.banner with
  | blob b => simp [hb, ImageVal.isBlob] at h
  | str s => simp [hb]
  | null => simp [hb]

/-- The text inputs carry `required`: whenever the form submission creates a document, the
six text fields of the form are non-empty, and in URL mode the banner is too. -/
theorem submitForm_required_fields (now : Nat) (o : SubmitOutcomes) (st : State) (w : NetWorld)
    (h : (submitForm now o st w).2.store ≠ w.store) :
    st.submitFormData.eventName ≠ "" ∧ st.submitFormData.venue ≠ ""
    ∧ st.submitFormData.address ≠ "" ∧ st.submitFormData.date ≠ ""
    ∧ st.submitFormData.time ≠ "" ∧ st.submitFormData.description ≠ ""
    ∧ (st.imageMode = .url → bannerInputValue st.submitFormData.banner ≠ "") := by
  unfold submitForm at h
  by_cases hg : (st.showSubmitModal && requiredFilled st) = true
  · simp only [Bool.and_eq_true] at hg
    have hr := hg.2
    simp only [requiredFilled, Bool.and_eq_true, bne_iff_ne, ne_eq] at hr
    obtain ⟨⟨⟨⟨⟨⟨h1, h2⟩, h3⟩, h4⟩, h5⟩, h6⟩, h7⟩ := hr
    refine ⟨h1, h2, h3, h4, h5, h6, ?_⟩
    intro hm
    rw [hm] at h7
    simpa using h7
  · rw [if_neg hg] at h
    exact absurd rfl h

/-- C12 (the code's behaviour at the failing input): in upload mode the banner input
carries no `required`, so with the six text fields filled and no file chosen the form is
submitted and a document whose `banner` is the empty string is created in
`submittedEvents`. -/
theorem submitForm_creates_document_without_banner :
    noBannerState.submitFormData.banner = .str ""
    ∧ requiredFilled noBannerState = true
    ∧ (submitForm 0 allResolve noBannerState emptyWorld).2.store.submittedEvents
        = [⟨"sub1", submitPayload noBannerState.submitFormData (.str "")⟩]
    ∧ (submitPayload noBannerState.submitFormData (.str "")).getProp "banner" = .str ""
    ∧ (submitForm 0 allResolve noBannerState emptyWorld).2.calls
        = [⟨.addDoc "submittedEvents" (submitPayload noBannerState.submitFormData (.str "")),
            true⟩] := by
  refine ⟨rfl, by decide, by decide, by decide, by decide⟩

/-- C13: in `handleSubmitEvent`, when the banner upload, the download-URL lookup or the
document create rejects, the store is unchanged (no document is created), no resolved
`addDoc` is logged and `submitFormData` is exactly as before; in every run, either that
holds or `addDoc` resolved, its document was added to `submittedEvents` and the form was
reset to the empty fields. -/
theorem handleSubmitEvent_failure_keeps_form (now : Nat) (o : SubmitOutcomes) (st : State)
    (w : NetWorld) :
    (∀ b e, st.submitFormData.banner = .blob b → o.uploadBytes = .error e →
      (handleSubmitEvent now o st w).1.submitFormData = st.submitFormData
      ∧ (handleSubmitEvent now o st w).2.store = w.store
      ∧ (handleSubmitEvent now o st w).2.calls
          = w.calls ++ [⟨.uploadBytes (bannerPath now) b, false⟩])
    ∧ (∀ b e, st.submitFormData.banner = .blob b → o.uploadBytes = .ok () →
        o.getDownloadURL = .error e →
      (handleSubmitEvent now o st w).1.submitFormData = st.submitFormData
      ∧ (handleSubmitEvent now o st w).2.store = w.store
      ∧ (handleSubmitEvent now o st w).2.calls
          = w.calls ++ [⟨.uploadBytes (bannerPath now) b, true⟩,
                        ⟨.getDownloadURL (bannerPath now), false⟩])
    ∧ (∀ e, o.addDoc = .error e →
      (handleSubmitEvent now o st w).1.submitFormData = st.submitFormData
      ∧ (handleSubmitEvent now o st w).2.store = w.store
      ∧ ∀ r ∈ (handleSubmitEvent now o st w).2.calls,
          r ∈ w.calls ∨ r.ok = false ∨ ∀ coll payload, r.call ≠ .addDoc coll payload)
    ∧ (((handleSubmitEvent now o st w).1.submitFormData = st.submitFormData
        ∧ (handleSubmitEvent now o st w).2.store = w.store)
      ∨ (∃ newId payload, o.addDoc = .ok newId
          ∧ (handleSubmitEvent now o st w).1.submitFormData = emptyForm
          ∧ (handleSubmitEvent now o st w).2.store.submittedEvents
              = w.store.submittedEvents ++ [⟨newId, payload⟩]
          ∧ (⟨.addDoc "submittedEvents" payload, true⟩ : NetRecord)
              ∈ (handleSubmitEvent now o st w).2.calls)) := by
  obtain ⟨up, dl, ad⟩ := o
  refine ⟨?_, ?_, ?_, ?_⟩
  · intro b e hb hup
    simp only at hup
    subst hup
    simp [handleSubmitEvent, hb, submitCatch, NetWorld.log]
  · intro b e hb hup hdl
    simp only at hup hdl
    subst hup hdl
    simp [handleSubmitEvent, hb, submitCatch, NetWorld.log]
  · intro e had
    simp only at had
    subst had
    cases hb : st.submitFormData.banner with
    | blob b =>
      cases up with
      | error e1 =>
        refine ⟨?_, ?_, ?_⟩
        · simp [handleSubmitEvent, hb, submitCatch, NetWorld.log]
        · simp [handleSubmitEvent, hb, submitCatch, NetWorld.log]
        · intro r hr
          simp [handleSubmitEvent, hb, submitCatch, NetWorld.log] at hr
          rcases hr with hr | hr
          · exact Or.inl hr
          · right; left; rw [hr]
      | ok u =>
        cases dl with
        | error e2 =>
          refine ⟨?_, ?_, ?_⟩
          · simp [handleSubmitEvent, hb, submitCatch, NetWorld.log]
          · simp [handleSubmitEvent, hb, submitCatch, NetWorld.log]
          · intro r hr
            simp [handleSubmitEvent, hb, submitCatch, NetWorld.log] at hr
            rcases hr with hr | hr | hr
            · exact Or.inl hr
            · right; right; rw [hr]; intro coll payload hc; cases hc
            · right; left; rw [hr]
        | ok url =>
          refine ⟨?_, ?_, ?_⟩
          · simp [handleSubmitEvent, hb, createSubmission_rejected]
          · simp [handleSubmitEvent, hb, createSubmission_rejected, NetWorld.log]
          · intro r hr
            simp [handleSubmitEvent, hb, createSubmission_rejected, NetWorld.log] at hr
            rcases hr with hr | hr | hr | hr
            · exact Or.inl hr
            · right; right; rw [hr]; intro coll payload hc; cases hc
            · right; right; rw [hr]; intro coll payload hc; cases hc
            · right; left; rw [hr]
    | str s =>
      rw [handleSubmitEvent_of_not_blob now _ st w (by simp [hb, ImageVal.isBlob]),
        createSubmission_rejected]
      refine ⟨rfl, rfl, ?_⟩
      intro r hr
      simp at hr
      rcases hr with hr | hr
      · exact Or.inl hr
      · right; left; rw [hr]
    | null =>
      rw [handleSubmitEvent_of_not_blob now _ st w (by simp [hb, ImageVal.isBlob]),
        createSubmission_rejected]
      refine ⟨rfl, rfl, ?_⟩
      intro r hr
      simp at hr
      rcases hr with hr | hr
      · exact Or.inl hr
      · right; left; rw [hr]
  · cases ad with
    | error e =>
      left
      cases hb : st.submitFormData.banner with
      | blob b =>
        cases up with
        | error e1 => simp [handleSubmitEvent, hb, submitCatch, NetWorld.log]
        | ok u =>
          cases dl with
          | error e2 => simp [handleSubmitEvent, hb, submitCatch, NetWorld.log]
          | ok url => simp [handleSubmitEvent, hb, createSubmission_rejected, NetWorld.log]
      | str s =>
        rw [handleSubmitEvent_of_not_blob now _ st w (by simp [hb, ImageVal.isBlob]),
          createSubmission_rejected]
        exact ⟨rfl, rfl⟩
      | null =>
        rw [handleSubmitEvent_of_not_blob now _ st w (by simp [hb, ImageVal.isBlob]),
          createSubmission_rejected]
        exact ⟨rfl, rfl⟩
    | ok newId =>
      cases hb : st.submitFormData.banner with
      | blob b =>
        cases up with
        | error e1 => left; simp [handleSubmitEvent, hb, submitCatch, NetWorld.log]
        | ok u =>
          cases dl with
          | error e2 => left; simp [handleSubmitEvent, hb, submitCatch, NetWorld.log]
          | ok url =>
            right
            refine ⟨newId, submitPayload st.submitFormData (.str url), rfl, ?_, ?_, ?_⟩
            · simp [handleSubmitEvent, hb, createSubmission_resolved]
            · simp [handleSubmitEvent, hb, createSubmission_resolved, Store.insert,
                NetWorld.log]
            · simp [handleSubmitEvent, hb, createSubmission_resolved, NetWorld.log]
      | str s =>
        right
        rw [handleSubmitEvent_of_not_blob now _ st w (by simp [hb, ImageVal.isBlob]),
          createSubmission_resolved]
        refine ⟨newId, submitPayload st.submitFormData st.submitFormData.banner, rfl, rfl,
          ?_, ?_⟩
        · simp [Store.insert]
        · simp
      | null =>
        right
        rw [handleSubmitEvent_of_not_blob now _ st w (by simp [hb, ImageVal.isBlob]),
          createSubmission_resolved]
        refine ⟨newId, submitPayload st.submitFormData st.submitFormData.banner, rfl, rfl,
          ?_, ?_⟩
        · simp [Store.insert]
        · simp

end Community

/-! ## Binary64 arithmetic -/

theorem bitLengthAux_bounds : ∀ (fuel n : Nat), n ≤ fuel → 0 < n →
    n < 2 ^ bitLengthAux fuel n ∧ 2 ^ bitLengthAux fuel n ≤ 2 * n := by
  intro fuel
  induction fuel with
  | zero =>
    intro n hn hpos
    omega
  | succ f ih =>
    intro n hn hpos
    have hne : n ≠ 0 := by omega
    simp only [bitLengthAux, hne, if_false]
    by_cases h2 : n / 2 = 0
    · have h1 : n = 1 := by omega
      subst h1
      have hz : bitLengthAux f (1 / 2) = 0 := by
        cases f with
        | zero => rfl
        | succ g => simp [bitLengthAux]
      rw [hz]
      decide
    · have hpos2 : 0 < n / 2 := Nat.pos_of_ne_zero h2
      have hle : n / 2 ≤ f := by omega
      obtain ⟨hlt, hge⟩ := ih (n / 2) hle hpos2
      rw [pow_succ]
      constructor <;> omega

theorem bitLength_bounds (n : Nat) (hpos : 0 < n) :
    n < 2 ^ bitLength n ∧ 2 ^ bitLength n ≤ 2 * n :=
  bitLengthAux_bounds n n le_rfl hpos

theorem scaled_ratio (a b : Nat) (e : Int) :
    ((a * 2 ^ (-e).toNat : Nat) : ℚ) / ((b * 2 ^ e.toNat : Nat) : ℚ)
      = (a : ℚ) / (b : ℚ) * (2 : ℚ) ^ (-e) := by
  have h2 : (2 : ℚ) ≠ 0 := by norm_num
  rcases Int.eq_nat_or_neg e with ⟨n, rfl | rfl⟩
  · have h1 : (-(n : Int)).toNat = 0 := by
      apply Int.toNat_eq_zero.mpr
      omega
    rw [h1, Int.toNat_natCast, zpow_neg, zpow_natCast]
    push_cast
    rw [mul_one, ← div_div, div_eq_mul_inv ((a : ℚ) / b)]
  · have h1 : ((-(n : Int))).toNat = 0 := by
      apply Int.toNat_eq_zero.mpr
      omega
    rw [neg_neg, h1, Int.toNat_natCast, zpow_natCast]
    push_cast
    rw [mul_one, mul_div_right_comm]

theorem roundHalfEvenDiv_near (p q : Nat) (hq : 0 < q) :
    |((roundHalfEvenDiv p q : Nat) : ℚ) - (p : ℚ) / (q : ℚ)| ≤ 1 / 2 := by
  have hq' : (0 : ℚ) < (q : ℚ) := by exact_mod_cast hq
  have hdm : (p : ℚ) = (q : ℚ) * ((p / q : Nat) : ℚ) + ((p % q : Nat) : ℚ) := by
    exact_mod_cast (Nat.div_add_mod p q).symm
  have key : (p : ℚ) / (q : ℚ) = ((p / q : Nat) : ℚ) + ((p % q : Nat) : ℚ) / (q : ℚ) := by
    rw [div_eq_iff hq'.ne', add_mul, div_mul_cancel₀ _ hq'.ne']
    linarith
  have hx0 : (0 : ℚ) ≤ ((p % q : Nat) : ℚ) / (q : ℚ) := by positivity
  rw [abs_le, key]
  unfold roundHalfEvenDiv
  have hlt : ∀ (_ : 2 * (p % q) ≤ q), ((p % q : Nat) : ℚ) / (q : ℚ) ≤ 1 / 2 := by
    intro h
    rw [div_le_iff₀ hq']
    have : (2 : ℚ) * ((p % q : Nat) : ℚ) ≤ (q : ℚ) := by exact_mod_cast h
    linarith
  have hgt : ∀ (_ : q ≤ 2 * (p % q)), 1 / 2 ≤ ((p % q : Nat) : ℚ) / (q : ℚ) := by
    intro h
    rw [le_div_iff₀ hq']
    have : (q : ℚ) ≤ (2 : ℚ) * ((p % q : Nat) : ℚ) := by exact_mod_cast h
    linarith
  have hx1 : ((p % q : Nat) : ℚ) / (q : ℚ) ≤ 1 := by
    rw [div_le_one hq']
    exact_mod_cast (Nat.mod_lt p hq).le
  split_ifs with h1 h2 h3
  · have := hlt h1.le
    constructor <;> linarith
  · have := hgt h2.le
    push_cast
    constructor <;> linarith
  · have := hlt (by omega)
    constructor <;> linarith
  · have := hgt (by omega)
    push_cast
    constructor <;> linarith

theorem scaled_lt_iff (a b : Nat) (e : Int) (hb : 0 < b) :
    a * 2 ^ (-e).toNat < b * 2 ^ e.toNat ↔ (a : ℚ) / (b : ℚ) < (2 : ℚ) ^ e := by
  have hq : 0 < b * 2 ^ e.toNat := Nat.mul_pos hb (Nat.two_pow_pos _)
  have hq' : (0 : ℚ) < ((b * 2 ^ e.toNat : Nat) : ℚ) := by exact_mod_cast hq
  have h2 : (0 : ℚ) < (2 : ℚ) ^ e := zpow_pos (by norm_num) e
  rw [← Nat.cast_lt (α := ℚ), ← div_lt_one hq', scaled_ratio, zpow_neg,
    ← div_eq_mul_inv, div_lt_one h2]

theorem floorLog2Ratio_bounds (a b : Nat) (ha : 0 < a) (hb : 0 < b) :
    (2 : ℚ) ^ floorLog2Ratio a b ≤ (a : ℚ) / (b : ℚ)
    ∧ (a : ℚ) / (b : ℚ) < (2 : ℚ) ^ (floorLog2Ratio a b + 1) := by
  obtain ⟨ha1, ha2⟩ := bitLength_bounds a ha
  obtain ⟨hb1, hb2⟩ := bitLength_bounds b hb
  have hb' : (0 : ℚ) < (b : ℚ) := by exact_mod_cast hb
  have ha' : (0 : ℚ) < (a : ℚ) := by exact_mod_cast ha
  have qa1 : (a : ℚ) < (2 : ℚ) ^ bitLength a := by exact_mod_cast ha1
  have qa2 : (2 : ℚ) ^ bitLength a ≤ 2 * (a : ℚ) := by exact_mod_cast ha2
  have qb1 : (b : ℚ) < (2 : ℚ) ^ bitLength b := by exact_mod_cast hb1
  have qb2 : (2 : ℚ) ^ bitLength b ≤ 2 * (b : ℚ) := by exact_mod_cast hb2
  have h20 : (2 : ℚ) ≠ 0 := by norm_num
  have hl : (2 : ℚ) ^ ((bitLength a : Int) - (bitLength b : Int))
      = (2 : ℚ) ^ bitLength a / (2 : ℚ) ^ bitLength b := by
    rw [zpow_sub₀ h20, zpow_natCast, zpow_natCast]
  have hpb : (0 : ℚ) < (2 : ℚ) ^ bitLength b := by positivity
  unfold floorLog2Ratio
  simp only
  split_ifs with hc
  · rw [scaled_lt_iff a b _ hb] at hc
    refine ⟨?_, by rwa [sub_add_cancel]⟩
    rw [zpow_sub_one₀ h20, hl, div_mul_eq_mul_div, div_le_div_iff₀ (by positivity) hb']
    nlinarith
  · rw [scaled_lt_iff a b _ hb, not_lt] at hc
    refine ⟨hc, ?_⟩
    rw [zpow_add_one₀ h20, hl, div_mul_eq_mul_div, div_lt_div_iff₀ hb' hpb]
    nlinarith

theorem round_toRat (a b : Nat) (ha : 0 < a) (hb : 0 < b) :
    (Double.round a b).toRat
      = ((roundHalfEvenDiv (a * 2 ^ (-(floorLog2Ratio a b - 52)).toNat)
            (b * 2 ^ (floorLog2Ratio a b - 52).toNat) : Nat) : ℚ)
          * (2 : ℚ) ^ (floorLog2Ratio a b - 52) := by
  have h20 : (2 : ℚ) ≠ 0 := by norm_num
  unfold Double.round
  rw [if_neg (by omega)]
  simp only
  split_ifs with hn
  · rw [hn]
    simp only [Double.toRat]
    rw [zpow_add_one₀ h20]
    push_cast
    ring
  · rfl

theorem round_near (a b : Nat) (hb : 0 < b) :
    |(Double.round a b).toRat - (a : ℚ) / (b : ℚ)| ≤ (a : ℚ) / (b : ℚ) * (1 / 2 ^ 53) := by
  rcases Nat.eq_zero_or_pos a with ha | ha
  · subst ha
    simp [Double.round, Double.toRat]
  have h20 : (2 : ℚ) ≠ 0 := by norm_num
  obtain ⟨hlo, _⟩ := floorLog2Ratio_bounds a b ha hb
  have hq : 0 < b * 2 ^ (floorLog2Ratio a b - 52).toNat :=
    Nat.mul_pos hb (Nat.two_pow_pos _)
  have hnear := roundHalfEvenDiv_near (a * 2 ^ (-(floorLog2Ratio a b - 52)).toNat)
    (b * 2 ^ (floorLog2Ratio a b - 52).toNat) hq
  rw [scaled_ratio] at hnear
  rw [round_toRat a b ha hb]
  generalize (roundHalfEvenDiv (a * 2 ^ (-(floorLog2Ratio a b - 52)).toNat)
    (b * 2 ^ (floorLog2Ratio a b - 52).toNat) : Nat) = n at hnear ⊢
  generalize floorLog2Ratio a b = E at hlo hnear ⊢
  have hpe : (0 : ℚ) < (2 : ℚ) ^ (E - 52) := zpow_pos (by norm_num) _
  have hsplit : (2 : ℚ) ^ E = (2 : ℚ) ^ (E - 52) * 2 ^ 52 := by
    rw [← zpow_natCast, ← zpow_add₀ h20]
    norm_num
  have hx : (a : ℚ) / (b : ℚ) = (a : ℚ) / (b : ℚ) * (2 : ℚ) ^ (-(E - 52)) * (2 : ℚ) ^ (E - 52) := by
    rw [mul_assoc, ← zpow_add₀ h20]
    simp
  have hd : (n : ℚ) * (2 : ℚ) ^ (E - 52) - (a : ℚ) / (b : ℚ)
      = ((n : ℚ) - (a : ℚ) / (b : ℚ) * (2 : ℚ) ^ (-(E - 52))) * (2 : ℚ) ^ (E - 52) := by
    rw [sub_mul, ← hx]
  rw [hd, abs_mul, abs_of_pos hpe]
  have h1 : |(n : ℚ) - (a : ℚ) / (b : ℚ) * (2 : ℚ) ^ (-(E - 52))| * (2 : ℚ) ^ (E - 52)
      ≤ 1 / 2 * (2 : ℚ) ^ (E - 52) := mul_le_mul_of_nonneg_right hnear hpe.le
  have h2 : 1 / 2 * (2 : ℚ) ^ (E - 52) = (2 : ℚ) ^ E * (1 / 2 ^ 53) := by
    rw [hsplit]
    norm_num
    ring
  have h3 : (2 : ℚ) ^ E * (1 / 2 ^ 53) ≤ (a : ℚ) / (b : ℚ) * (1 / 2 ^ 53) :=
    mul_le_mul_of_nonneg_right hlo (by positivity)
  linarith

theorem toRat_nonneg (x : Double) : 0 ≤ x.toRat := by
  unfold Double.toRat
  positivity

theorem roundHalfEvenDiv_one (p : Nat) : roundHalfEvenDiv p 1 = p := by
  simp [roundHalfEvenDiv, Nat.mod_one]

theorem ofNat_exact (n : Nat) (hn : n < 2 ^ 53) : (Double.ofNat n).toRat = (n : ℚ) := by
  rcases Nat.eq_zero_or_pos n with h0 | hpos
  · subst h0
    simp [Double.ofNat, Double.round, Double.toRat]
  have h20 : (2 : ℚ) ≠ 0 := by norm_num
  obtain ⟨hlo, _⟩ := floorLog2Ratio_bounds n 1 hpos Nat.one_pos
  have hn' : (n : ℚ) < (2 : ℚ) ^ (53 : Int) := by
    have : (n : ℚ) < (2 : ℚ) ^ (53 : Nat) := by exact_mod_cast hn
    rw [← zpow_natCast] at this
    exact this
  have hE : floorLog2Ratio n 1 < 53 := by
    have hlt : (2 : ℚ) ^ floorLog2Ratio n 1 < (2 : ℚ) ^ (53 : Int) := by
      have : (2 : ℚ) ^ floorLog2Ratio n 1 ≤ (n : ℚ) := by simpa using hlo
      exact lt_of_le_of_lt this hn'
    exact (zpow_lt_zpow_iff_right₀ (by norm_num : (1 : ℚ) < 2)).mp hlt
  unfold Double.ofNat
  rw [round_toRat n 1 hpos Nat.one_pos]
  have hz : (floorLog2Ratio n 1 - 52).toNat = 0 := Int.toNat_eq_zero.mpr (by omega)
  rw [hz, pow_zero, mul_one, roundHalfEvenDiv_one]
  have hk : (((-(floorLog2Ratio n 1 - 52)).toNat : Nat) : Int) = -(floorLog2Ratio n 1 - 52) :=
    Int.toNat_of_nonneg (by omega)
  push_cast
  rw [← zpow_natCast, hk, mul_assoc, ← zpow_add₀ h20]
  simp

theorem ofNat_mant_pos (n : Nat) (hpos : 0 < n) (hn : n < 2 ^ 53) : 0 < (Double.ofNat n).mant := by
  have h := ofNat_exact n hn
  rcases Nat.eq_zero_or_pos (Double.ofNat n).mant with h0 | h0
  · exfalso
    unfold Double.toRat at h
    rw [h0] at h
    have : (n : ℚ) = 0 := by simpa using h.symm
    have : n = 0 := by exact_mod_cast this
    omega
  · exact h0

theorem div_near (x y : Double) (hy : 0 < y.mant) :
    |(Double.div x y).toRat - x.toRat / y.toRat| ≤ x.toRat / y.toRat * (1 / 2 ^ 53) := by
  have h20 : (2 : ℚ) ≠ 0 := by norm_num
  have hb : 0 < y.mant * 2 ^ (y.exp - x.exp).toNat := Nat.mul_pos hy (Nat.two_pow_pos _)
  have h := round_near (x.mant * 2 ^ (x.exp - y.exp).toNat) (y.mant * 2 ^ (y.exp - x.exp).toNat) hb
  have hr : ((x.mant * 2 ^ (x.exp - y.exp).toNat : Nat) : ℚ)
      / ((y.mant * 2 ^ (y.exp - x.exp).toNat : Nat) : ℚ) = x.toRat / y.toRat := by
    have := scaled_ratio x.mant y.mant (y.exp - x.exp)
    rw [neg_sub] at this
    rw [this]
    unfold Double.toRat
    rw [zpow_sub₀ h20]
    field_simp
  rw [hr] at h
  exact h

theorem mul_near (x y : Double) :
    |(Double.mul x y).toRat - x.toRat * y.toRat| ≤ x.toRat * y.toRat * (1 / 2 ^ 53) := by
  have h20 : (2 : ℚ) ≠ 0 := by norm_num
  have hb : 0 < 2 ^ (-(x.exp + y.exp)).toNat := Nat.two_pow_pos _
  have h := round_near (x.mant * y.mant * 2 ^ (x.exp + y.exp).toNat)
    (2 ^ (-(x.exp + y.exp)).toNat) hb
  have hr : ((x.mant * y.mant * 2 ^ (x.exp + y.exp).toNat : Nat) : ℚ)
      / ((2 ^ (-(x.exp + y.exp)).toNat : Nat) : ℚ) = x.toRat * y.toRat := by
    have := scaled_ratio (x.mant * y.mant) 1 (-(x.exp + y.exp))
    rw [neg_neg, one_mul] at this
    rw [this]
    unfold Double.toRat
    rw [zpow_add₀ h20]
    push_cast
    ring
  rw [hr] at h
  exact h

theorem floor_eq_natFloor (x : Double) : x.floor = ⌊x.toRat⌋₊ := by
  have h := scaled_ratio x.mant 1 (-x.exp)
  rw [neg_neg, one_mul] at h
  have hv : x.toRat = ((x.mant * 2 ^ x.exp.toNat : Nat) : ℚ) / ((2 ^ (-x.exp).toNat : Nat) : ℚ) := by
    rw [h]
    unfold Double.toRat
    simp
  rw [hv, Nat.floor_div_eq_div]
  rfl

theorem scaled_height_near (w h m : Nat) (hw : w < 2 ^ 53) (hh : h < 2 ^ 53) (hmw : m < w) :
    |(Double.mul (Double.div (Double.ofNat m) (Double.ofNat w)) (Double.ofNat h)).toRat
        - (h : ℚ) * (m : ℚ) / (w : ℚ)|
      ≤ (h : ℚ) * (m : ℚ) / (w : ℚ) * (1 / 2 ^ 52 + 1 / 2 ^ 106) := by
  have hwpos : 0 < w := by omega
  have hm : m < 2 ^ 53 := by omega
  have hd := div_near (Double.ofNat m) (Double.ofNat w) (ofNat_mant_pos w hwpos hw)
  have hmul := mul_near (Double.div (Double.ofNat m) (Double.ofNat w)) (Double.ofNat h)
  rw [ofNat_exact m hm, ofNat_exact w hw] at hd
  rw [ofNat_exact h hh] at hmul
  generalize (Double.mul (Double.div (Double.ofNat m) (Double.ofNat w)) (Double.ofNat h)).toRat
    = R at hmul ⊢
  generalize (Double.div (Double.ofNat m) (Double.ofNat w)).toRat = Q at hd hmul
  have hH : (0 : ℚ) ≤ (h : ℚ) := Nat.cast_nonneg h
  have hX : (0 : ℚ) ≤ (m : ℚ) / (w : ℚ) := by positivity
  have hxh : (h : ℚ) * (m : ℚ) / (w : ℚ) = (m : ℚ) / (w : ℚ) * (h : ℚ) := by ring
  rw [hxh]
  rw [abs_le] at hd hmul ⊢
  obtain ⟨hd1, hd2⟩ := hd
  obtain ⟨hm1, hm2⟩ := hmul
  have e1 := mul_le_mul_of_nonneg_right hd1 hH
  have e2 := mul_le_mul_of_nonneg_right hd2 hH
  constructor <;> nlinarith

/-! ## Image normalisation (`compressImage` of both components) -/

namespace Community

theorem banner_canvasSize_of_gt (w h m : Nat) (hgt : m < w) :
    canvasSize w h m
      = (m, Double.mul (Double.div (Double.ofNat m) (Double.ofNat w)) (Double.ofNat h)) := by
  simp [canvasSize, hgt]

theorem banner_canvasSize_of_le (w h m : Nat) (hle : w ≤ m) :
    canvasSize w h m = (w, Double.ofNat h) := by
  simp [canvasSize, Nat.not_lt.mpr hle]

end Community

namespace UploadTestimonials

theorem avatar_canvasSize_of_gt (w h m : Nat) (hgt : m < w) :
    canvasSize w h m
      = (m, Double.mul (Double.div (Double.ofNat m) (Double.ofNat w)) (Double.ofNat h)) := by
  simp [canvasSize, hgt]

theorem avatar_canvasSize_of_le (w h m : Nat) (hle : w ≤ m) :
    canvasSize w h m = (w, Double.ofNat h) := by
  simp [canvasSize, Nat.not_lt.mpr hle]

end UploadTestimonials

set_option maxRecDepth 100000 in
theorem scaled_height_1392_1160_1200 :
    Double.mul (Double.div (Double.ofNat 1200) (Double.ofNat 1392)) (Double.ofNat 1160)
      = ⟨8796093022207999, -43⟩ := by
  decide

set_option maxRecDepth 100000 in
theorem scaled_height_464_1160_400 :
    Double.mul (Double.div (Double.ofNat 400) (Double.ofNat 464)) (Double.ofNat 1160)
      = ⟨8796093022207999, -43⟩ := by
  decide

set_option maxRecDepth 100000 in
theorem scaled_height_2400_1_1200 :
    Double.mul (Double.div (Double.ofNat 1200) (Double.ofNat 2400)) (Double.ofNat 1)
      = ⟨4503599627370496, -53⟩ := by
  decide

set_option maxRecDepth 100000 in
theorem scaled_height_2400_1_400 :
    Double.mul (Double.div (Double.ofNat 400) (Double.ofNat 2400)) (Double.ofNat 1)
      = ⟨6004799503160661, -55⟩ := by
  decide

/-- The height both copies compute for a source wider than `maxWidth`, and the integer the
canvas keeps of it, against the exact `h * maxWidth / w`. -/
theorem scaled_height_bounds (w h m : Nat) (hw : w < 2 ^ 32) (hh : h < 2 ^ 32) (hmw : m < w) :
    |(Double.mul (Double.div (Double.ofNat m) (Double.ofNat w)) (Double.ofNat h)).toRat
        - (h : ℚ) * (m : ℚ) / (w : ℚ)| < 1 / 2 ^ 19
    ∧ h * m / w
        ≤ canvasDimension
            (Double.mul (Double.div (Double.ofNat m) (Double.ofNat w)) (Double.ofNat h)) + 1
    ∧ canvasDimension
          (Double.mul (Double.div (Double.ofNat m) (Double.ofNat w)) (Double.ofNat h))
        ≤ h * m / w + 1 := by
  have hnear := scaled_height_near w h m (by omega) (by omega) hmw
  have hwpos : (0 : ℚ) < (w : ℚ) := by
    have : 0 < w := by omega
    exact_mod_cast this
  have hx0 : (0 : ℚ) ≤ (h : ℚ) * (m : ℚ) / (w : ℚ) := by positivity
  have hxh : (h : ℚ) * (m : ℚ) / (w : ℚ) < 2 ^ 32 := by
    have h1 : (h : ℚ) * (m : ℚ) / (w : ℚ) ≤ (h : ℚ) := by
      rw [div_le_iff₀ hwpos]
      have hm' : (m : ℚ) ≤ (w : ℚ) := by exact_mod_cast hmw.le
      exact mul_le_mul_of_nonneg_left hm' (Nat.cast_nonneg h)
    have h2 : (h : ℚ) < 2 ^ 32 := by exact_mod_cast hh
    linarith
  have habs : |(Double.mul (Double.div (Double.ofNat m) (Double.ofNat w))
      (Double.ofNat h)).toRat - (h : ℚ) * (m : ℚ) / (w : ℚ)| < 1 / 2 ^ 19 := by
    refine lt_of_le_of_lt hnear ?_
    have : (h : ℚ) * (m : ℚ) / (w : ℚ) * (1 / 2 ^ 52 + 1 / 2 ^ 106)
        < 2 ^ 32 * (1 / 2 ^ 52 + 1 / 2 ^ 106) :=
      mul_lt_mul_of_pos_right hxh (by positivity)
    refine lt_trans this ?_
    norm_num
  refine ⟨habs, ?_, ?_⟩
  · unfold canvasDimension
    rw [floor_eq_natFloor]
    have hfl : h * m / w = ⌊((h * m : Nat) : ℚ) / (w : ℚ)⌋₊ := (Nat.floor_div_eq_div _ _).symm
    rw [hfl]
    have hR0 := toRat_nonneg
      (Double.mul (Double.div (Double.ofNat m) (Double.ofNat w)) (Double.ofNat h))
    generalize (Double.mul (Double.div (Double.ofNat m) (Double.ofNat w))
      (Double.ofNat h)).toRat = R at habs hR0 ⊢
    have h1 : (⌊((h * m : Nat) : ℚ) / (w : ℚ)⌋₊ : ℚ) ≤ ((h * m : Nat) : ℚ) / (w : ℚ) :=
      Nat.floor_le (by positivity)
    have h2 : R < (⌊R⌋₊ : ℚ) + 1 := Nat.lt_floor_add_one R
    rw [abs_lt] at habs
    push_cast at h1
    have h3 : (⌊((h * m : Nat) : ℚ) / (w : ℚ)⌋₊ : ℚ) < ((⌊R⌋₊ + 2 : Nat) : ℚ) := by
      push_cast
      linarith [habs.1]
    have h4 : ⌊((h * m : Nat) : ℚ) / (w : ℚ)⌋₊ < ⌊R⌋₊ + 2 := by exact_mod_cast h3
    omega
  · unfold canvasDimension
    rw [floor_eq_natFloor]
    have hfl : h * m / w = ⌊((h * m : Nat) : ℚ) / (w : ℚ)⌋₊ := (Nat.floor_div_eq_div _ _).symm
    rw [hfl]
    have hR0 := toRat_nonneg
      (Double.mul (Double.div (Double.ofNat m) (Double.ofNat w)) (Double.ofNat h))
    generalize (Double.mul (Double.div (Double.ofNat m) (Double.ofNat w))
      (Double.ofNat h)).toRat = R at habs hR0 ⊢
    have h1 : ((h * m : Nat) : ℚ) / (w : ℚ) < (⌊((h * m : Nat) : ℚ) / (w : ℚ)⌋₊ : ℚ) + 1 :=
      Nat.lt_floor_add_one _
    have h2 : (⌊R⌋₊ : ℚ) ≤ R := Nat.floor_le hR0
    rw [abs_lt] at habs
    push_cast at h1
    have h3 : (⌊R⌋₊ : ℚ) < ((⌊((h * m : Nat) : ℚ) / (w : ℚ)⌋₊ + 2 : Nat) : ℚ) := by
      push_cast
      linarith [habs.2]
    have h4 : ⌊R⌋₊ < ⌊((h * m : Nat) : ℚ) / (w : ℚ)⌋₊ + 2 := by exact_mod_cast h3
    omega

/-- An unscaled height is kept exactly, on the canvas too. -/
theorem unscaled_height_exact (h : Nat) (hh : h < 2 ^ 32) :
    (Double.ofNat h).toRat = (h : ℚ) ∧ canvasDimension (Double.ofNat h) = h := by
  have hex := ofNat_exact h (by omega)
  refine ⟨hex, ?_⟩
  unfold canvasDimension
  rw [floor_eq_natFloor, hex]
  exact Nat.floor_natCast h

/-- C14: for every source width `w` and maximum `m`, the canvas width computed by either
`compressImage` is `min w m`: it never exceeds `m` nor `w`, and it is `w` whenever
`w ≤ m`. -/
theorem canvas_width_is_min (w h m : Nat) :
    (Community.canvasSize w h m).1 = min w m
    ∧ (UploadTestimonials.canvasSize w h m).1 = min w m
    ∧ (Community.canvasSize w h m).1 ≤ m
    ∧ (UploadTestimonials.canvasSize w h m).1 ≤ m
    ∧ (Community.canvasSize w h m).1 ≤ w
    ∧ (UploadTestimonials.canvasSize w h m).1 ≤ w
    ∧ (w ≤ m → (Community.canvasSize w h m).1 = w
        ∧ (UploadTestimonials.canvasSize w h m).1 = w) := by
  by_cases hgt : m < w
  · rw [Community.banner_canvasSize_of_gt w h m hgt, UploadTestimonials.avatar_canvasSize_of_gt w h m hgt]
    refine ⟨?_, ?_, ?_, ?_, ?_, ?_, ?_⟩ <;> simp <;> omega
  · have hle : w ≤ m := Nat.not_lt.mp hgt
    rw [Community.banner_canvasSize_of_le w h m hle, UploadTestimonials.avatar_canvasSize_of_le w h m hle]
    refine ⟨?_, ?_, ?_, ?_, ?_, ?_, ?_⟩ <;> simp <;> omega

/-- C15 fails as stated: for a 1392 x 1160 source and `maxWidth` 1200 (and for a 464 x 1160
source and `maxWidth` 400) the exact `h * maxWidth / w` is 1000, but the height the code
computes, `(maxWidth / w) * h` in doubles, is `1000 - 2 ^ (-43)` (printed
999.9999999999999), and the canvas keeps the integer 999. -/
theorem canvas_height_ratio_counterexample :
    1200 < 1392
    ∧ (1160 : ℚ) * 1200 / 1392 = 1000
    ∧ (Community.canvasSize 1392 1160 1200).2 = ⟨8796093022207999, -43⟩
    ∧ (Community.canvasSize 1392 1160 1200).2.toRat ≠ (1160 : ℚ) * 1200 / 1392
    ∧ canvasDimension (Community.canvasSize 1392 1160 1200).2 = 999
    ∧ 400 < 464
    ∧ (1160 : ℚ) * 400 / 464 = 1000
    ∧ (UploadTestimonials.canvasSize 464 1160 400).2 = ⟨8796093022207999, -43⟩
    ∧ (UploadTestimonials.canvasSize 464 1160 400).2.toRat ≠ (1160 : ℚ) * 400 / 464
    ∧ canvasDimension (UploadTestimonials.canvasSize 464 1160 400).2 = 999 := by
  have h1 : (Community.canvasSize 1392 1160 1200).2 = ⟨8796093022207999, -43⟩ := by
    rw [Community.banner_canvasSize_of_gt 1392 1160 1200 (by decide)]
    simp only
    rw [scaled_height_1392_1160_1200]
  have h2 : (UploadTestimonials.canvasSize 464 1160 400).2 = ⟨8796093022207999, -43⟩ := by
    rw [UploadTestimonials.avatar_canvasSize_of_gt 464 1160 400 (by decide)]
    simp only
    rw [scaled_height_464_1160_400]
  have hv : (Double.toRat ⟨8796093022207999, -43⟩) ≠ 1000 := by
    unfold Double.toRat
    norm_num
  have hfl : canvasDimension ⟨8796093022207999, -43⟩ = 999 := by decide
  refine ⟨by decide, by norm_num, h1, ?_, ?_, by decide, by norm_num, h2, ?_, ?_⟩
  · rw [h1]
    norm_num
    exact hv
  · rw [h1]
    exact hfl
  · rw [h2]
    norm_num
    exact hv
  · rw [h2]
    exact hfl

/-- C15 amended: for a source image of size `w × h` (image sizes are below `2 ^ 32`): when
`w ≤ maxWidth`, width and height are the source's, also on the canvas.  When
`w > maxWidth` the width is `maxWidth` and the height is `(maxWidth / w) * h` computed in
doubles: it is within the relative error `2 ^ (-52) + 2 ^ (-106)` of the exact
`h * maxWidth / w`, hence less than `2 ^ (-19)` away from it, but in general not equal;
the canvas keeps its integer part, which differs by at most one from the integer part of
`h * maxWidth / w`.  These are the sizes `compressImage` gives the canvas of a file that
reads and decodes as a `w × h` image. -/
theorem canvas_height_ratio_up_to_rounding (w h m : Nat) (hw : w < 2 ^ 32) (hh : h < 2 ^ 32) :
    (m < w →
      (Community.canvasSize w h m).1 = m
      ∧ (UploadTestimonials.canvasSize w h m).1 = m
      ∧ |(Community.canvasSize w h m).2.toRat - (h : ℚ) * (m : ℚ) / (w : ℚ)|
          ≤ (h : ℚ) * (m : ℚ) / (w : ℚ) * (1 / 2 ^ 52 + 1 / 2 ^ 106)
      ∧ |(UploadTestimonials.canvasSize w h m).2.toRat - (h : ℚ) * (m : ℚ) / (w : ℚ)|
          ≤ (h : ℚ) * (m : ℚ) / (w : ℚ) * (1 / 2 ^ 52 + 1 / 2 ^ 106)
      ∧ |(Community.canvasSize w h m).2.toRat - (h : ℚ) * (m : ℚ) / (w : ℚ)| < 1 / 2 ^ 19
      ∧ |(UploadTestimonials.canvasSize w h m).2.toRat - (h : ℚ) * (m : ℚ) / (w : ℚ)|
          < 1 / 2 ^ 19
      ∧ canvasDimension (Community.canvasSize w h m).2
          = ⌊(Community.canvasSize w h m).2.toRat⌋₊
      ∧ canvasDimension (UploadTestimonials.canvasSize w h m).2
          = ⌊(UploadTestimonials.canvasSize w h m).2.toRat⌋₊
      ∧ h * m / w ≤ canvasDimension (Community.canvasSize w h m).2 + 1
      ∧ canvasDimension (Community.canvasSize w h m).2 ≤ h * m / w + 1
      ∧ h * m / w ≤ canvasDimension (UploadTestimonials.canvasSize w h m).2 + 1
      ∧ canvasDimension (UploadTestimonials.canvasSize w h m).2 ≤ h * m / w + 1)
    ∧ (w ≤ m →
      (Community.canvasSize w h m).1 = w
      ∧ (UploadTestimonials.canvasSize w h m).1 = w
      ∧ (Community.canvasSize w h m).2.toRat = (h : ℚ)
      ∧ (UploadTestimonials.canvasSize w h m).2.toRat = (h : ℚ)
      ∧ canvasDimension (Community.canvasSize w h m).2 = h
      ∧ canvasDimension (UploadTestimonials.canvasSize w h m).2 = h)
    ∧ (∀ file : FileEnv, file.readOk = true → file.decoded = some (w, h) →
      Community.compressImage file m
          = .ok (file.toBlob (min w m) (canvasDimension (Community.canvasSize w h m).2)
              (Community.canvasSize w h m).2)
      ∧ UploadTestimonials.compressImage file m
          = .ok (file.toBlob (min w m) (canvasDimension (UploadTestimonials.canvasSize w h m).2)
              (UploadTestimonials.canvasSize w h m).2)) := by
  have hmin : (Community.canvasSize w h m).1 = min w m
      ∧ (UploadTestimonials.canvasSize w h m).1 = min w m := by
    by_cases hgt : m < w
    · rw [Community.banner_canvasSize_of_gt w h m hgt,
        UploadTestimonials.avatar_canvasSize_of_gt w h m hgt]
      simp only
      omega
    · rw [Community.banner_canvasSize_of_le w h m (by omega),
        UploadTestimonials.avatar_canvasSize_of_le w h m (by omega)]
      simp only
      omega
  refine ⟨?_, ?_, ?_⟩
  rotate_left 2
  · intro file hr hd
    constructor
    · rw [← hmin.1]
      simp [Community.compressImage, hr, hd]
    · rw [← hmin.2]
      simp [UploadTestimonials.compressImage, hr, hd]
  · intro hgt
    rw [Community.banner_canvasSize_of_gt w h m hgt,
      UploadTestimonials.avatar_canvasSize_of_gt w h m hgt]
    have hnear := scaled_height_near w h m (by omega) (by omega) hgt
    obtain ⟨habs, hlo, hhi⟩ := scaled_height_bounds w h m hw hh hgt
    exact ⟨rfl, rfl, hnear, hnear, habs, habs, floor_eq_natFloor _, floor_eq_natFloor _,
      hlo, hhi, hlo, hhi⟩
  · intro hle
    rw [Community.banner_canvasSize_of_le w h m hle,
      UploadTestimonials.avatar_canvasSize_of_le w h m hle]
    obtain ⟨hex, hdim⟩ := unscaled_height_exact h hh
    exact ⟨rfl, rfl, hex, hex, hdim, hdim⟩

/-- Witness for C15: the 1392 x 1160 source at `maxWidth` 1200 is within the hypotheses;
its computed height is less than `2 ^ (-19)` away from the exact 1000 and its canvas
height is at most one off. -/
theorem canvas_height_ratio_up_to_rounding_witness :
    1392 < 2 ^ 32 ∧ 1160 < 2 ^ 32 ∧ 1200 < 1392
    ∧ |(Community.canvasSize 1392 1160 1200).2.toRat - (1160 : ℚ) * (1200 : ℚ) / (1392 : ℚ)|
        < 1 / 2 ^ 19
    ∧ 1160 * 1200 / 1392 ≤ canvasDimension (Community.canvasSize 1392 1160 1200).2 + 1 :=
  ⟨by decide, by decide, by decide,
   by exact_mod_cast ((canvas_height_ratio_up_to_rounding 1392 1160 1200 (by decide)
      (by decide)).1 (by decide)).2.2.2.2.1,
   ((canvas_height_ratio_up_to_rounding 1392 1160 1200 (by decide)
      (by decide)).1 (by decide)).2.2.2.2.2.2.2.2.1⟩

/-- C16 (the code's behaviour at the failing input): a file that reads and decodes as a
2400 x 1 image, for which `canvas.toBlob` yields `null`, makes both `compressImage`
promises resolve with `null` instead of rejecting; `handleFileChange` of the submission
form then stores `null` as the banner before failing on `URL.createObjectURL(null)`.
Read and decode failures do reject. -/
theorem compressImage_resolves_null :
    Community.compressImage Community.thinImage Community.defaultMaxWidth = .ok none
    ∧ UploadTestimonials.compressImage Community.thinImage UploadTestimonials.defaultMaxWidth
        = .ok none
    ∧ (Community.handleFileChange (some Community.thinImage) (fun _ => "blob:preview")
          Community.lagosState Community.emptyWorld).1.submitFormData.banner = .null
    ∧ (Community.handleFileChange (some Community.thinImage) (fun _ => "blob:preview")
          Community.lagosState Community.emptyWorld).2.toasts
        = [.error "Failed to process image"]
    ∧ (∀ (file : FileEnv) (m : Nat), file.readOk = false →
        Community.compressImage file m = .error .readError
        ∧ UploadTestimonials.compressImage file m = .error .readError)
    ∧ (∀ (file : FileEnv) (m : Nat), file.readOk = true → file.decoded = none →
        Community.compressImage file m = .error .decodeError
        ∧ UploadTestimonials.compressImage file m = .error .decodeError) := by
  have h1 : Community.compressImage Community.thinImage Community.defaultMaxWidth
      = .ok none := by
    simp [Community.compressImage, Community.thinImage, Community.defaultMaxWidth,
      Community.canvasSize, scaled_height_2400_1_1200, canvasDimension, Double.floor]
  have h2 : UploadTestimonials.compressImage Community.thinImage
      UploadTestimonials.defaultMaxWidth = .ok none := by
    simp [UploadTestimonials.compressImage, Community.thinImage,
      UploadTestimonials.defaultMaxWidth, UploadTestimonials.canvasSize,
      scaled_height_2400_1_400, canvasDimension, Double.floor]
  refine ⟨h1, h2, ?_, ?_, ?_, ?_⟩
  · simp [Community.handleFileChange, h1, Community.fileChangeCatch]
  · simp [Community.handleFileChange, h1, Community.fileChangeCatch, Community.emptyWorld]
  · intro file m hr
    simp [Community.compressImage, UploadTestimonials.compressImage, hr]
  · intro file m hr hd
    simp [Community.compressImage, UploadTestimonials.compressImage, hr, hd]

/-! ## Testimonial curation (`UploadTestimonials`) -/

/-! ### JavaScript string facts -/

theorem includesChars_iff_contiguous (l pat : List Char) :
    includesChars l pat = true ↔ pat <:+: l := by
  induction l with
  | nil => simp [includesChars]
  | cons c cs ih =>
    simp only [includesChars, Bool.or_eq_true, List.isPrefixOf_iff_prefix, ih]
    exact List.infix_cons_iff.symm

theorem jsIncludes_iff_contiguous (s pat : String) :
    jsIncludes s pat = true ↔ pat.toList <:+: s.toList :=
  includesChars_iff_contiguous s.toList pat.toList

theorem trimmed_eq_nil_iff (p : Char → Bool) (l : List Char) :
    ((l.dropWhile p).reverse.dropWhile p).reverse = [] ↔ ∀ c ∈ l, p c = true := by
  rw [List.reverse_eq_nil_iff, List.dropWhile_eq_nil_iff]
  constructor
  · intro h
    have hall : ∀ c ∈ l.dropWhile p, p c = true := fun c hc => h c (List.mem_reverse.mpr hc)
    have hnil : l.dropWhile p = [] := by
      cases hd : l.dropWhile p with
      | nil => rfl
      | cons a t =>
        have hne : l.dropWhile p ≠ [] := by simp [hd]
        have hnot := List.head_dropWhile_not p l hne
        have hmem : (l.dropWhile p).head hne ∈ l.dropWhile p := List.head_mem hne
        rw [hall _ hmem] at hnot
        cases hnot
    exact List.dropWhile_eq_nil_iff.mp hnil
  · intro h c hc
    have hnil : l.dropWhile p = [] := List.dropWhile_eq_nil_iff.mpr h
    rw [hnil] at hc
    simp at hc

theorem jsTrim_eq_empty_iff (s : String) :
    jsTrim s = "" ↔ ∀ c ∈ s.toList, jsIsWhiteSpace c = true := by
  rw [← trimmed_eq_nil_iff]
  unfold jsTrim
  constructor
  · intro h
    have := congrArg String.toList h
    simpa using this
  · intro h
    rw [h]

namespace UploadTestimonials

/-! ### Validation -/

/-- C17: for every form state whose text has more than 280 UTF-16 code units, whatever the
other fields, the outcomes and the editing flag, `handleSubmit` leaves the world as it was
(no `uploadBytes`, `getDownloadURL`, `deleteObject`, `addDoc` or `updateDoc` is issued) and
only opens the error modal: form, list and editing flag are unchanged. -/
theorem handleSubmit_long_text_no_calls (now : Nat) (o : SubmitOutcomes) (st : State)
    (w : NetWorld) (hlen : 280 < jsLength st.formData.text) :
    (handleSubmit now o st w).2 = w
    ∧ (handleSubmit now o st w).2.calls = w.calls
    ∧ (handleSubmit now o st w).1.formData = st.formData
    ∧ (handleSubmit now o st w).1.testimonials = st.testimonials
    ∧ (handleSubmit now o st w).1.isEditing = st.isEditing
    ∧ (handleSubmit now o st w).1.isSubmitting = st.isSubmitting
    ∧ (handleSubmit now o st w).1.modal.isOpen = true
    ∧ (handleSubmit now o st w).1.modal.title = "Error" := by
  unfold handleSubmit
  split
  · exact ⟨rfl, rfl, rfl, rfl, rfl, rfl, rfl, rfl⟩
  · rw [if_pos (by simpa [MAX_TEXT_LENGTH] using hlen)]
    exact ⟨rfl, rfl, rfl, rfl, rfl, rfl, rfl, rfl⟩

theorem jsLength_replicate_a (n : Nat) :
    jsLength (String.mk (List.replicate n (Char.ofNat 97))) = n := by
  have h1 : (if (Char.ofNat 97).val < 0x10000 then 1 else 2) = 1 := by decide
  show ((List.replicate n (Char.ofNat 97)).map
    (fun c => if c.val < 0x10000 then 1 else 2)).sum = n
  simp only [List.map_replicate, h1, List.sum_replicate, smul_eq_mul, mul_one]

theorem longTextState_length : 280 < jsLength longTextState.formData.text := by
  show 280 < jsLength (String.mk (List.replicate 281 (Char.ofNat 97)))
  rw [jsLength_replicate_a]
  decide

/-- Witness for C17: a form with a 281-character text, submitted while every call would
resolve, issues no call. -/
theorem handleSubmit_long_text_no_calls_witness :
    280 < jsLength longTextState.formData.text
    ∧ (handleSubmit 0 allResolve longTextState emptyWorld).2.calls = [] :=
  ⟨longTextState_length,
   (handleSubmit_long_text_no_calls 0 allResolve longTextState emptyWorld
      longTextState_length).2.1⟩

/-- C18 fails as stated: the link consisting of one space is not the empty string and
contains neither "twitter.com" nor "x.com", yet `validateTwitterLink` returns true. -/
theorem validateTwitterLink_blank_counterexample :
    validateTwitterLink " " = true
    ∧ " " ≠ ""
    ∧ jsIncludes " " "twitter.com" = false
    ∧ jsIncludes " " "x.com" = false := by
  decide

/-- C18 amended: `validateTwitterLink(link)` returns true if and only if `link` is blank
(empty after `trim()`, that is, made of white space only) or contains "twitter.com" or
"x.com" as a substring; in particular it accepts the empty string. -/
theorem validateTwitterLink_iff (link : String) :
    (validateTwitterLink link = true ↔
      (jsTrim link = "" ∨ "twitter.com".toList <:+: link.toList
        ∨ "x.com".toList <:+: link.toList))
    ∧ (jsTrim link = "" ↔ ∀ c ∈ link.toList, jsIsWhiteSpace c = true)
    ∧ validateTwitterLink "" = true := by
  refine ⟨?_, jsTrim_eq_empty_iff link, by decide⟩
  unfold validateTwitterLink
  by_cases hb : jsTrim link = ""
  · simp [hb]
  · simp [hb, jsIncludes_iff_contiguous]

/-! ### Old-image cleanup on edit -/

theorem replacesStoredImage_same (s : String) :
    replacesStoredImage (.str s) (some s) = false := by
  have h : JsVal.strictNe (JsVal.str s) (JsVal.str s) = false := by
    simp [JsVal.strictNe, JsVal.strictEq]
  simp [replacesStoredImage, urlToJs, ImageVal.toJs, h]

theorem cleanupOldImage_same (s : String) (o : SubmitOutcomes) (w : NetWorld) :
    cleanupOldImage (.str s) (some s) o w = w := by
  simp [cleanupOldImage, replacesStoredImage_same]

theorem saveTestimonial_no_deleteObject (imageUrl : Option String) (o : SubmitOutcomes)
    (st : State) (w : NetWorld)
    (hc : cleanupOldImage st.formData.image imageUrl o w = w) :
    ∀ r ∈ (saveTestimonial imageUrl o st w).2.calls,
      r ∈ w.calls ∨ ∀ u, r.call ≠ .deleteObject u := by
  intro r hr
  unfold saveTestimonial at hr
  rw [hc] at hr
  cases hid : editingId st with
  | some id =>
    rw [hid] at hr
    cases hu : o.updateDoc with
    | error e =>
      simp [hu, submitCatch, NetWorld.log] at hr
      rcases hr with hr | hr
      · exact Or.inl hr
      · right; rw [hr]; intro u hcall; cases hcall
    | ok v =>
      simp [hu, NetWorld.log] at hr
      rcases hr with hr | hr
      · exact Or.inl hr
      · right; rw [hr]; intro u hcall; cases hcall
  | none =>
    rw [hid] at hr
    cases ha : o.addDoc with
    | error e =>
      simp [ha, submitCatch, NetWorld.log] at hr
      rcases hr with hr | hr
      · exact Or.inl hr
      · right; rw [hr]; intro u hcall; cases hcall
    | ok v =>
      simp [ha, NetWorld.log] at hr
      rcases hr with hr | hr
      · exact Or.inl hr
      · right; rw [hr]; intro u hcall; cases hcall

/-- The cleanup guard of the edit branch can never hold: `imageUrl` is `formData.image`
itself unless that is a blob, and a blob is not a string.  So no run of `handleSubmit`
issues a `deleteObject`. -/
theorem handleSubmit_no_deleteObject (now : Nat) (o : SubmitOutcomes) (st : State)
    (w : NetWorld) :
    ∀ r ∈ (handleSubmit now o st w).2.calls, r ∈ w.calls ∨ ∀ u, r.call ≠ .deleteObject u := by
  intro r hr
  unfold handleSubmit at hr
  split at hr
  · exact Or.inl hr
  · split at hr
    · exact Or.inl hr
    · split at hr
      · exact Or.inl hr
      · cases himg : st.formData.image with
        | str s =>
          simp only [himg] at hr
          exact saveTestimonial_no_deleteObject (some s) o { st with isSubmitting := true } w
            (by simp [himg, cleanupOldImage_same]) r hr
        | null =>
          simp only [himg] at hr
          exact saveTestimonial_no_deleteObject none o { st with isSubmitting := true } w
            (by simp [himg, cleanupOldImage]) r hr
        | blob b =>
          simp only [himg] at hr
          cases hup : o.uploadBytes with
          | error e =>
            simp [hup, submitCatch, NetWorld.log] at hr
            rcases hr with hr | hr
            · exact Or.inl hr
            · right; rw [hr]; intro u hcall; cases hcall
          | ok v =>
            cases hdl : o.getDownloadURL with
            | error e =>
              simp [hup, hdl, submitCatch, NetWorld.log] at hr
              rcases hr with hr | hr | hr
              · exact Or.inl hr
              · right; rw [hr]; intro u hcall; cases hcall
              · right; rw [hr]; intro u hcall; cases hcall
            | ok url =>
              simp only [hup, hdl] at hr
              have h := saveTestimonial_no_deleteObject (some url) o
                { st with isSubmitting := true }
                ((w.log (.uploadBytes (imagePath now) b) true).log
                  (.getDownloadURL (imagePath now)) true)
                (by simp [himg, cleanupOldImage]) r hr
              rcases h with h | h
              · simp [NetWorld.log] at h
                rcases h with h | h | h
                · exact Or.inl h
                · right; rw [h]; intro u hcall; cases hcall
                · right; rw [h]; intro u hcall; cases hcall
              · exact Or.inr h

/-- C19 (the code's behaviour at the failing inputs): the first testimonial has a
storage-hosted image; editing it and saving with a different image URL issues only the
`updateDoc`, and saving with a newly chosen file issues only `uploadBytes`,
`getDownloadURL` and `updateDoc`: in neither case is `deleteObject` attempted on the old
image. -/
theorem edit_replacing_image_skips_cleanup :
    jsIncludes amara.image "firebasestorage" = true
    ∧ editNewUrlState.formData.image = .str "https://example.com/new.jpg"
    ∧ (handleSubmit 5 allResolve editNewUrlState emptyWorld).2.calls
        = [⟨.updateDoc "testimonials" "t1"
              (mkPayload editNewUrlState.formData (some "https://example.com/new.jpg")).toJs,
            true⟩]
    ∧ editNewFileState.formData.image = .blob ⟨9⟩
    ∧ (handleSubmit 5 allResolve editNewFileState emptyWorld).2.calls
        = [⟨.uploadBytes (imagePath 5) ⟨9⟩, true⟩,
           ⟨.getDownloadURL (imagePath 5), true⟩,
           ⟨.updateDoc "testimonials" "t1"
              (mkPayload editNewFileState.formData
                (some "https://firebasestorage.googleapis.com/new")).toJs,
            true⟩] := by
  refine ⟨by decide, rfl, by decide, rfl, by decide⟩

/-! ### Deleting a testimonial -/

theorem deleteConfirm_calls_and_list (testimonial : Testimonial) (o : DeleteOutcomes)
    (st : State) (w : NetWorld) :
    (deleteConfirm testimonial o st w).2.calls
        = w.calls
          ++ (if hostedInStorage testimonial.image then
                [⟨.deleteObject testimonial.image, o.deleteObject.toBool⟩]
              else [])
          ++ [⟨.deleteDoc "testimonials" testimonial.id, o.deleteDoc.toBool⟩]
    ∧ (deleteConfirm testimonial o st w).1.testimonials
        = (match o.deleteDoc with
           | .ok _ => st.testimonials.filter (fun t => t.id != testimonial.id)
           | .error _ => st.testimonials)
    ∧ (∀ t ∈ (deleteConfirm testimonial o st w).1.testimonials,
        o.deleteDoc = .ok () → t.id ≠ testimonial.id)
    ∧ (testimonial ∈ st.testimonials →
        (testimonial ∉ (deleteConfirm testimonial o st w).1.testimonials
          ↔ o.deleteDoc = .ok ())) := by
  obtain ⟨dobj, ddoc⟩ := o
  have hw : (cleanupImage testimonial ⟨dobj, ddoc⟩ w).calls
      = w.calls ++ (if hostedInStorage testimonial.image then
          [⟨.deleteObject testimonial.image, dobj.toBool⟩] else []) := by
    unfold cleanupImage
    by_cases hh : hostedInStorage testimonial.image = true
    · cases dobj with
      | error e => simp [hh, NetWorld.log, Except.toBool]
      | ok v => simp [hh, NetWorld.log, Except.toBool]
    · simp [hh]
  cases ddoc with
  | error e =>
    have hs : (deleteConfirm testimonial ⟨dobj, .error e⟩ st w).1.testimonials
        = st.testimonials := rfl
    refine ⟨?_, rfl, ?_, ?_⟩
    · simp only [deleteConfirm, NetWorld.log, hw, Except.toBool]
    · intro t _ h
      cases h
    · intro hmem
      rw [hs]
      constructor
      · intro h
        exact absurd hmem h
      · intro h
        cases h
  | ok v =>
    have hs : (deleteConfirm testimonial ⟨dobj, .ok v⟩ st w).1.testimonials
        = st.testimonials.filter (fun t => t.id != testimonial.id) := rfl
    refine ⟨?_, rfl, ?_, ?_⟩
    · simp only [deleteConfirm, NetWorld.log, hw, Except.toBool]
    · intro t ht _
      rw [hs] at ht
      simpa using (List.mem_filter.mp ht).2
    · intro _
      rw [hs]
      constructor
      · intro _
        rfl
      · intro _ hmem
        have := (List.mem_filter.mp hmem).2
        simp at this

/-- C20: in the testimonial delete confirm action, for every testimonial and every outcome:
when the image is storage-hosted (a non-empty string containing
"firebasestorage.googleapis.com") one `deleteObject` of that image is issued first, and
whether it resolves or rejects the `deleteDoc` on `testimonials` is issued next; for any
other image `deleteDoc` is the only call.  The local list is the list without the
testimonial's id when `deleteDoc` resolved and is unchanged when it rejected, whatever
`deleteObject` did; so a listed testimonial is gone from the list if and only if
`deleteDoc` resolved.  For the listed testimonial t1 with a bucket image and a rejecting
`deleteObject`, the log is the failed `deleteObject` followed by the resolved `deleteDoc`,
and t1 is gone from the list. -/
theorem deleteConfirm_cleanup_then_delete (testimonial : Testimonial) (o : DeleteOutcomes)
    (st : State) (w : NetWorld) :
    (deleteConfirm testimonial o st w).2.calls
        = w.calls
          ++ (if hostedInStorage testimonial.image then
                [⟨.deleteObject testimonial.image, o.deleteObject.toBool⟩]
              else [])
          ++ [⟨.deleteDoc "testimonials" testimonial.id, o.deleteDoc.toBool⟩]
    ∧ (deleteConfirm testimonial o st w).1.testimonials
        = (match o.deleteDoc with
           | .ok _ => st.testimonials.filter (fun t => t.id != testimonial.id)
           | .error _ => st.testimonials)
    ∧ (∀ t ∈ (deleteConfirm testimonial o st w).1.testimonials,
        o.deleteDoc = .ok () → t.id ≠ testimonial.id)
    ∧ (testimonial ∈ st.testimonials →
        (testimonial ∉ (deleteConfirm testimonial o st w).1.testimonials
          ↔ o.deleteDoc = .ok ()))
    ∧ (testimonial.image ≠ ""
          ∧ "firebasestorage.googleapis.com".toList <:+: testimonial.image.toList →
        (deleteConfirm testimonial o st w).2.calls
          = w.calls ++ [⟨.deleteObject testimonial.image, o.deleteObject.toBool⟩,
                        ⟨.deleteDoc "testimonials" testimonial.id, o.deleteDoc.toBool⟩])
    ∧ (¬ (testimonial.image ≠ ""
          ∧ "firebasestorage.googleapis.com".toList <:+: testimonial.image.toList) →
        (deleteConfirm testimonial o st w).2.calls
          = w.calls ++ [⟨.deleteDoc "testimonials" testimonial.id, o.deleteDoc.toBool⟩])
    ∧ (deleteConfirm amara ⟨.error ⟨"storage/object-not-found"⟩, .ok ()⟩ listState
          emptyWorld).2.calls
        = [⟨.deleteObject "https://firebasestorage.googleapis.com/v0/b/bas/o/testimonials%2Fimage_1",
            false⟩,
           ⟨.deleteDoc "testimonials" "t1", true⟩]
    ∧ (deleteConfirm amara ⟨.error ⟨"storage/object-not-found"⟩, .ok ()⟩ listState
          emptyWorld).1.testimonials = [kofi]
    ∧ (deleteConfirm amara ⟨.ok (), .error ⟨"unavailable"⟩⟩ listState emptyWorld).2.calls
        = [⟨.deleteObject "https://firebasestorage.googleapis.com/v0/b/bas/o/testimonials%2Fimage_1",
            true⟩,
           ⟨.deleteDoc "testimonials" "t1", false⟩]
    ∧ (deleteConfirm amara ⟨.ok (), .error ⟨"unavailable"⟩⟩ listState
          emptyWorld).1.testimonials = [amara, kofi]
    ∧ (deleteConfirm kofi ⟨.ok (), .ok ()⟩ listState emptyWorld).2.calls
        = [⟨.deleteDoc "testimonials" "t2", true⟩] := by
  obtain ⟨h1, h2, h3, h4⟩ := deleteConfirm_calls_and_list testimonial o st w
  have hhost : hostedInStorage testimonial.image = true
      ↔ testimonial.image ≠ ""
        ∧ "firebasestorage.googleapis.com".toList <:+: testimonial.image.toList := by
    simp [hostedInStorage, jsIncludes_iff_contiguous]
  refine ⟨h1, h2, h3, h4, ?_, ?_, by decide, by decide, by decide, by decide, by decide⟩
  · intro hc
    rw [h1, if_pos (hhost.mpr hc), List.append_assoc]
    rfl
  · intro hc
    have hf : ¬ hostedInStorage testimonial.image = true := fun h => hc (hhost.mp h)
    rw [h1, if_neg hf, List.append_nil]

end UploadTestimonials

namespace UploadTestimonials

/-! ### Validation before any call -/

theorem saveTestimonial_payloads (imageUrl : Option String) (o : SubmitOutcomes)
    (st : State) (w : NetWorld)
    (hc : cleanupOldImage st.formData.image imageUrl o w = w) :
    ∀ r ∈ (saveTestimonial imageUrl o st w).2.calls,
      r ∈ w.calls
      ∨ r.call = .addDoc "testimonials" (mkPayload st.formData imageUrl).toJs
      ∨ ∃ id, r.call = .updateDoc "testimonials" id (mkPayload st.formData imageUrl).toJs := by
  intro r hr
  unfold saveTestimonial at hr
  rw [hc] at hr
  cases hid : editingId st with
  | some id =>
    rw [hid] at hr
    cases hu : o.updateDoc with
    | error e =>
      simp [hu, submitCatch, NetWorld.log] at hr
      rcases hr with hr | hr
      · exact Or.inl hr
      · right; right; exact ⟨id, by rw [hr]⟩
    | ok v =>
      simp [hu, NetWorld.log] at hr
      rcases hr with hr | hr
      · exact Or.inl hr
      · right; right; exact ⟨id, by rw [hr]⟩
  | none =>
    rw [hid] at hr
    cases ha : o.addDoc with
    | error e =>
      simp [ha, submitCatch, NetWorld.log] at hr
      rcases hr with hr | hr
      · exact Or.inl hr
      · right; left; rw [hr]
    | ok v =>
      simp [ha, NetWorld.log] at hr
      rcases hr with hr | hr
      · exact Or.inl hr
      · right; left; rw [hr]

theorem handleSubmit_payloads (now : Nat) (o : SubmitOutcomes) (st : State) (w : NetWorld) :
    ∀ r ∈ (handleSubmit now o st w).2.calls,
      r ∈ w.calls
      ∨ (∃ b, r.call = .uploadBytes (imagePath now) b)
      ∨ r.call = .getDownloadURL (imagePath now)
      ∨ ∃ imageUrl,
          r.call = .addDoc "testimonials" (mkPayload st.formData imageUrl).toJs
          ∨ ∃ id, r.call = .updateDoc "testimonials" id (mkPayload st.formData imageUrl).toJs := by
  intro r hr
  unfold handleSubmit at hr
  split at hr
  · exact Or.inl hr
  · split at hr
    · exact Or.inl hr
    · split at hr
      · exact Or.inl hr
      · cases himg : st.formData.image with
        | str s =>
          simp only [himg] at hr
          rcases saveTestimonial_payloads (some s) o { st with isSubmitting := true } w
            (by simp [himg, cleanupOldImage_same]) r hr with h | h
          · exact Or.inl h
          · exact Or.inr (Or.inr (Or.inr ⟨some s, h⟩))
        | null =>
          simp only [himg] at hr
          rcases saveTestimonial_payloads none o { st with isSubmitting := true } w
            (by simp [himg, cleanupOldImage]) r hr with h | h
          · exact Or.inl h
          · exact Or.inr (Or.inr (Or.inr ⟨none, h⟩))
        | blob b =>
          simp only [himg] at hr
          cases hup : o.uploadBytes with
          | error e =>
            simp [hup, submitCatch, NetWorld.log] at hr
            rcases hr with hr | hr
            · exact Or.inl hr
            · right; left; exact ⟨b, by rw [hr]⟩
          | ok v =>
            cases hdl : o.getDownloadURL with
            | error e =>
              simp [hup, hdl, submitCatch, NetWorld.log] at hr
              rcases hr with hr | hr | hr
              · exact Or.inl hr
              · right; left; exact ⟨b, by rw [hr]⟩
              · right; right; left; rw [hr]
            | ok url =>
              simp only [hup, hdl] at hr
              rcases saveTestimonial_payloads (some url) o { st with isSubmitting := true }
                ((w.log (.uploadBytes (imagePath now) b) true).log
                  (.getDownloadURL (imagePath now)) true)
                (by simp [himg, cleanupOldImage]) r hr with h | h
              · simp [NetWorld.log] at h
                rcases h with h | h | h
                · exact Or.inl h
                · right; left; exact ⟨b, by rw [h]⟩
                · right; right; left; rw [h]
              · exact Or.inr (Or.inr (Or.inr ⟨some url, h⟩))

/-- C21 fails as stated: with name, role and text filled and a link consisting of one
space, `handleSubmit` sends a create payload whose `twitterLink` is that space, which is
neither empty nor contains "twitter.com" or "x.com". -/
theorem blank_link_is_sent_counterexample :
    (handleSubmit 0 allResolve blankLinkState emptyWorld).2.calls
        = [⟨.addDoc "testimonials" (mkPayload blankLinkState.formData (some "")).toJs, true⟩]
    ∧ (mkPayload blankLinkState.formData (some "")).toJs.getProp "twitterLink" = .str " "
    ∧ " " ≠ ""
    ∧ jsIncludes " " "twitter.com" = false
    ∧ jsIncludes " " "x.com" = false := by
  decide

/-- C21 amended: `handleSubmit` leaves the world untouched (no storage or store call) when
name, role or text is blank after trimming, or when `twitterLink` is non-blank and contains
neither "twitter.com" nor "x.com"; conversely, whenever it issues a call, name, role and
text are non-blank and `twitterLink` is blank (white space only) or contains one of the two
substrings, and every `addDoc`/`updateDoc` it sends carries the payload built from the
form, with the form's untrimmed name, role, text and twitterLink. -/
theorem handleSubmit_validation (now : Nat) (o : SubmitOutcomes) (st : State) (w : NetWorld) :
    ((jsTrim st.formData.name = "" ∨ jsTrim st.formData.role = ""
        ∨ jsTrim st.formData.text = "") → (handleSubmit now o st w).2 = w)
    ∧ ((jsTrim st.formData.twitterLink ≠ ""
        ∧ ¬ "twitter.com".toList <:+: st.formData.twitterLink.toList
        ∧ ¬ "x.com".toList <:+: st.formData.twitterLink.toList) →
        (handleSubmit now o st w).2 = w)
    ∧ ((handleSubmit now o st w).2.calls ≠ w.calls →
        jsTrim st.formData.name ≠ "" ∧ jsTrim st.formData.role ≠ ""
        ∧ jsTrim st.formData.text ≠ ""
        ∧ (jsTrim st.formData.twitterLink = ""
            ∨ "twitter.com".toList <:+: st.formData.twitterLink.toList
            ∨ "x.com".toList <:+: st.formData.twitterLink.toList))
    ∧ (∀ r ∈ (handleSubmit now o st w).2.calls,
        r ∈ w.calls
        ∨ (∃ b, r.call = .uploadBytes (imagePath now) b)
        ∨ r.call = .getDownloadURL (imagePath now)
        ∨ ∃ imageUrl,
            r.call = .addDoc "testimonials" (mkPayload st.formData imageUrl).toJs
            ∨ ∃ id, r.call = .updateDoc "testimonials" id
                (mkPayload st.formData imageUrl).toJs)
    ∧ (∀ imageUrl,
        (mkPayload st.formData imageUrl).toJs.getProp "name" = .str st.formData.name
        ∧ (mkPayload st.formData imageUrl).toJs.getProp "role" = .str st.formData.role
        ∧ (mkPayload st.formData imageUrl).toJs.getProp "text" = .str st.formData.text
        ∧ (mkPayload st.formData imageUrl).toJs.getProp "twitterLink"
            = .str st.formData.twitterLink) := by
  have hblank : (jsTrim st.formData.name = "" ∨ jsTrim st.formData.role = ""
      ∨ jsTrim st.formData.text = "") → (handleSubmit now o st w).2 = w := by
    intro h
    unfold handleSubmit
    rw [if_pos (by simpa [Bool.or_eq_true, or_assoc] using h)]
  have hlink : (jsTrim st.formData.twitterLink ≠ ""
      ∧ ¬ "twitter.com".toList <:+: st.formData.twitterLink.toList
      ∧ ¬ "x.com".toList <:+: st.formData.twitterLink.toList) →
      (handleSubmit now o st w).2 = w := by
    rintro ⟨h1, h2, h3⟩
    have hv : validateTwitterLink st.formData.twitterLink = false := by
      unfold validateTwitterLink
      have ha : jsIncludes st.formData.twitterLink "twitter.com" = false := by
        rw [Bool.eq_false_iff]
        intro hc
        exact h2 ((jsIncludes_iff_contiguous _ _).mp hc)
      have hb : jsIncludes st.formData.twitterLink "x.com" = false := by
        rw [Bool.eq_false_iff]
        intro hc
        exact h3 ((jsIncludes_iff_contiguous _ _).mp hc)
      simp [h1, ha, hb]
    unfold handleSubmit
    split
    · rfl
    · split
      · rfl
      · rw [if_pos (by simp [h1, hv])]
  refine ⟨hblank, hlink, ?_, handleSubmit_payloads now o st w, ?_⟩
  · intro hcalls
    have hn : ¬ (jsTrim st.formData.name = "" ∨ jsTrim st.formData.role = ""
        ∨ jsTrim st.formData.text = "") := by
      intro h
      exact hcalls (by rw [hblank h])
    have hl : ¬ (jsTrim st.formData.twitterLink ≠ ""
        ∧ ¬ "twitter.com".toList <:+: st.formData.twitterLink.toList
        ∧ ¬ "x.com".toList <:+: st.formData.twitterLink.toList) := by
      intro h
      exact hcalls (by rw [hlink h])
    refine ⟨fun h => hn (Or.inl h), fun h => hn (Or.inr (Or.inl h)),
      fun h => hn (Or.inr (Or.inr h)), ?_⟩
    by_cases hb : jsTrim st.formData.twitterLink = ""
    · exact Or.inl hb
    · by_cases ht : "twitter.com".toList <:+: st.formData.twitterLink.toList
      · exact Or.inr (Or.inl ht)
      · by_cases hx : "x.com".toList <:+: st.formData.twitterLink.toList
        · exact Or.inr (Or.inr hx)
        · exact absurd ⟨hb, ht, hx⟩ hl
  · intro imageUrl
    simp [mkPayload, Payload.toJs, JsObj.getProp, List.lookup]

end UploadTestimonials

namespace UploadTestimonials

/-! ### The two storage-hosted tests -/

theorem hostedInStorage_iff (s : String) :
    hostedInStorage s = true
      ↔ s ≠ "" ∧ "firebasestorage.googleapis.com".toList <:+: s.toList := by
  simp [hostedInStorage, jsIncludes_iff_contiguous]

theorem editHostedInStorage_iff (s : String) :
    editHostedInStorage (.str s) = true ↔ s ≠ "" ∧ "firebasestorage".toList <:+: s.toList := by
  simp [editHostedInStorage, ImageVal.toJs, JsVal.truthy, ImageVal.isString,
    jsIncludes_iff_contiguous]

/-- C25 (the code's behaviour at the failing input): the edit branch treats the URL
"https://firebasestorage.example.com/a.jpg" as storage-hosted (it contains
"firebasestorage"), the delete closure does not (it lacks
"firebasestorage.googleapis.com"). -/
theorem hosted_tests_differ :
    editHostedInStorage (.str "https://firebasestorage.example.com/a.jpg") = true
    ∧ hostedInStorage "https://firebasestorage.example.com/a.jpg" = false
    ∧ (∀ imageUrl,
        replacesStoredImage (.str "https://firebasestorage.example.com/a.jpg") imageUrl
          = (editHostedInStorage (.str "https://firebasestorage.example.com/a.jpg")
              && JsVal.strictNe (urlToJs imageUrl)
                  (JsVal.str "https://firebasestorage.example.com/a.jpg"))) := by
  refine ⟨by decide, by decide, fun _ => rfl⟩

/-- The two hosted tests compared: the edit guard is its hosted test together with
`imageUrl !== formData.image`; the delete closure tests for a non-empty string containing
"firebasestorage.googleapis.com", the edit branch for one containing "firebasestorage"; so
every image URL that `handleDelete` treats as storage-hosted is treated so by the edit
branch, and the two tests agree on every URL containing "firebasestorage.googleapis.com"
and on every URL not containing "firebasestorage". -/
theorem hosted_on_delete_implies_hosted_on_edit (s : String) :
    (∀ imageUrl, replacesStoredImage (.str s) imageUrl
        = (editHostedInStorage (.str s) && JsVal.strictNe (urlToJs imageUrl) (JsVal.str s)))
    ∧ (hostedInStorage s = true
        ↔ s ≠ "" ∧ "firebasestorage.googleapis.com".toList <:+: s.toList)
    ∧ (editHostedInStorage (.str s) = true
        ↔ s ≠ "" ∧ "firebasestorage".toList <:+: s.toList)
    ∧ (hostedInStorage s = true → editHostedInStorage (.str s) = true)
    ∧ ("firebasestorage.googleapis.com".toList <:+: s.toList →
        hostedInStorage s = editHostedInStorage (.str s))
    ∧ (¬ "firebasestorage".toList <:+: s.toList →
        hostedInStorage s = editHostedInStorage (.str s)) := by
  have hsub : "firebasestorage".toList <:+: "firebasestorage.googleapis.com".toList :=
    ⟨[], ".googleapis.com".toList, by decide⟩
  have himp : hostedInStorage s = true → editHostedInStorage (.str s) = true := by
    intro h
    have h1 := (hostedInStorage_iff s).mp h
    exact (editHostedInStorage_iff s).mpr ⟨h1.1, hsub.trans h1.2⟩
  refine ⟨fun _ => rfl, hostedInStorage_iff s, editHostedInStorage_iff s, himp, ?_, ?_⟩
  · intro hg
    by_cases hs : s = ""
    · subst hs
      decide
    · have h1 : hostedInStorage s = true := (hostedInStorage_iff s).mpr ⟨hs, hg⟩
      rw [h1, himp h1]
  · intro hng
    have h1 : editHostedInStorage (.str s) = false := by
      rw [Bool.eq_false_iff]
      intro hc
      exact hng ((editHostedInStorage_iff s).mp hc).2
    have h2 : hostedInStorage s = false := by
      rw [Bool.eq_false_iff]
      intro hc
      rw [himp hc] at h1
      cases h1
    rw [h1, h2]

end UploadTestimonials

/-! ## The two image normalisers compared -/

/-- C26: the two copies of `compressImage` compute the same canvas size for every source
width, source height and `maxWidth`, and the same promise for every file and `maxWidth`;
their default bounds are 400 (testimonials) and 1200 (event banners); and each
`handleFileChange`, the only caller, passes no bound, so its effect depends on the file
only through `compressImage` at that default. -/
theorem compressImage_copies_agree :
    (∀ w h m, UploadTestimonials.canvasSize w h m = Community.canvasSize w h m)
    ∧ (∀ file m, UploadTestimonials.compressImage file m = Community.compressImage file m)
    ∧ UploadTestimonials.defaultMaxWidth = 400
    ∧ Community.defaultMaxWidth = 1200
    ∧ (∀ f g objectUrl st w,
        UploadTestimonials.compressImage f 400 = UploadTestimonials.compressImage g 400 →
        UploadTestimonials.handleFileChange (some f) objectUrl st w
          = UploadTestimonials.handleFileChange (some g) objectUrl st w)
    ∧ (∀ f g objectUrl st w,
        Community.compressImage f 1200 = Community.compressImage g 1200 →
        Community.handleFileChange (some f) objectUrl st w
          = Community.handleFileChange (some g) objectUrl st w)
    ∧ (∀ f objectUrl st w blob,
        UploadTestimonials.compressImage f 400 = .ok (some blob) →
        (UploadTestimonials.handleFileChange (some f) objectUrl st w).1.formData.image
          = .blob blob)
    ∧ (∀ f objectUrl st w blob,
        Community.compressImage f 1200 = .ok (some blob) →
        (Community.handleFileChange (some f) objectUrl st w).1.submitFormData.banner
          = .blob blob) := by
  refine ⟨fun _ _ _ => rfl, fun _ _ => rfl, rfl, rfl, ?_, ?_, ?_, ?_⟩
  · intro f g objectUrl st w h
    simp only [UploadTestimonials.handleFileChange, UploadTestimonials.defaultMaxWidth, h]
  · intro f g objectUrl st w h
    simp only [Community.handleFileChange, Community.defaultMaxWidth, h]
  · intro f objectUrl st w blob h
    simp only [UploadTestimonials.handleFileChange, UploadTestimonials.defaultMaxWidth, h]
  · intro f objectUrl st w blob h
    simp only [Community.handleFileChange, Community.defaultMaxWidth, h]

/-! ## The testimonial carousel -/

namespace TestimonialCarousel

theorem next_eq_emod (n : Nat) (i : Int) (hn : 0 < n) (h0 : 0 ≤ i) :
    nextTestimonial n i = (i + 1) % (n : Int) := by
  have hne : (n != 0) = true := by simpa using hn.ne'
  simp only [nextTestimonial, hne, if_true]
  exact Int.tmod_eq_emod (by omega) (by omega)

theorem prev_eq_emod (n : Nat) (i : Int) (hn : 0 < n) (h0 : 0 ≤ i) :
    prevTestimonial n i = (i - 1 + (n : Int)) % (n : Int) := by
  have hne : (n != 0) = true := by simpa using hn.ne'
  simp only [prevTestimonial, hne, if_true]
  exact Int.tmod_eq_emod (by omega) (by omega)

theorem next_range (n : Nat) (i : Int) (hn : 0 < n) (h0 : 0 ≤ i) :
    0 ≤ nextTestimonial n i ∧ nextTestimonial n i < n := by
  rw [next_eq_emod n i hn h0]
  have hpos : (0 : Int) < n := by exact_mod_cast hn
  exact ⟨Int.emod_nonneg _ hpos.ne', Int.emod_lt_of_pos _ hpos⟩

theorem prev_range (n : Nat) (i : Int) (hn : 0 < n) (h0 : 0 ≤ i) :
    0 ≤ prevTestimonial n i ∧ prevTestimonial n i < n := by
  rw [prev_eq_emod n i hn h0]
  have hpos : (0 : Int) < n := by exact_mod_cast hn
  exact ⟨Int.emod_nonneg _ hpos.ne', Int.emod_lt_of_pos _ hpos⟩

theorem iterate_next (n : Nat) (i : Int) (hn : 0 < n) (h0 : 0 ≤ i) (k : Nat) :
    (nextTestimonial n)^[k] i = (i + (k : Int)) % (n : Int) ∨ (k = 0 ∧ (nextTestimonial n)^[k] i = i) := by
  have hpos : (0 : Int) < n := by exact_mod_cast hn
  induction k with
  | zero => exact Or.inr ⟨rfl, rfl⟩
  | succ k ih =>
    left
    rw [Function.iterate_succ_apply']
    rcases ih with ih | ⟨hk, ih⟩
    · rw [ih, next_eq_emod n _ hn (Int.emod_nonneg _ hpos.ne'), Int.emod_add_emod]
      congr 1
      push_cast
      ring
    · subst hk
      rw [ih, next_eq_emod n i hn h0]
      simp

/-- C30: for a list of length `n > 0` and an index with `0 ≤ i < n`, the index after
`nextTestimonial`, `prevTestimonial` or an auto-advance tick is again in `[0, n)`;
`nextTestimonial` then `prevTestimonial`, and the converse, restore the index; `n`
consecutive `nextTestimonial` steps return to it.  For an empty list both operations set
the index to 0, whatever it was. -/
theorem carousel_index_in_range (n : Nat) (i : Int) (hn : 0 < n) (h0 : 0 ≤ i)
    (hi : i < (n : Int)) :
    (0 ≤ nextTestimonial n i ∧ nextTestimonial n i < n)
    ∧ (0 ≤ prevTestimonial n i ∧ prevTestimonial n i < n)
    ∧ (0 ≤ tick n i ∧ tick n i < n)
    ∧ (∀ isPaused, 0 ≤ autoAdvance n isPaused i ∧ autoAdvance n isPaused i < n)
    ∧ prevTestimonial n (nextTestimonial n i) = i
    ∧ nextTestimonial n (prevTestimonial n i) = i
    ∧ (nextTestimonial n)^[n] i = i
    ∧ (∀ j, prevTestimonial 0 j = 0 ∧ nextTestimonial 0 j = 0) := by
  have hpos : (0 : Int) < n := by exact_mod_cast hn
  have hne : (n != 0) = true := by simpa using hn.ne'
  have htick : tick n i = nextTestimonial n i := by
    simp only [tick, nextTestimonial, hne, if_true]
  have hnext := next_range n i hn h0
  have hprev := prev_range n i hn h0
  refine ⟨hnext, hprev, htick ▸ hnext, ?_, ?_, ?_, ?_, ?_⟩
  · intro isPaused
    unfold autoAdvance
    rw [if_neg hn.ne']
    cases isPaused with
    | true => exact ⟨h0, hi⟩
    | false => simpa [htick] using hnext
  · rw [prev_eq_emod n _ hn hnext.1, next_eq_emod n i hn h0]
    by_cases hlast : i + 1 = n
    · rw [hlast, Int.emod_self]
      have : (0 - 1 + (n : Int)) % (n : Int) = (n : Int) - 1 := by
        apply Int.emod_eq_of_lt <;> omega
      rw [this]
      omega
    · have h1 : (i + 1) % (n : Int) = i + 1 := by
        apply Int.emod_eq_of_lt <;> omega
      rw [h1]
      have : i + 1 - 1 + (n : Int) = i + n := by ring
      rw [this, Int.add_emod_self]
      apply Int.emod_eq_of_lt <;> omega
  · rw [next_eq_emod n _ hn hprev.1, prev_eq_emod n i hn h0]
    by_cases hfirst : i = 0
    · subst hfirst
      have h1 : (0 - 1 + (n : Int)) % (n : Int) = (n : Int) - 1 := by
        apply Int.emod_eq_of_lt <;> omega
      rw [h1]
      have : (n : Int) - 1 + 1 = n := by ring
      rw [this, Int.emod_self]
    · have h1 : (i - 1 + (n : Int)) % (n : Int) = i - 1 := by
        rw [Int.add_emod_self]
        apply Int.emod_eq_of_lt <;> omega
      rw [h1]
      have : i - 1 + 1 = i := by ring
      rw [this]
      apply Int.emod_eq_of_lt <;> omega
  · rcases iterate_next n i hn h0 n with h | ⟨hk, _⟩
    · rw [h, Int.add_emod_self]
      apply Int.emod_eq_of_lt <;> omega
    · omega
  · intro j
    exact ⟨rfl, rfl⟩

/-- Witness for C30: a carousel of three testimonials at index 2. -/
theorem carousel_index_in_range_witness :
    (0 : Nat) < 3 ∧ (0 : Int) ≤ 2 ∧ (2 : Int) < ((3 : Nat) : Int)
    ∧ nextTestimonial 3 2 = 0 ∧ prevTestimonial 3 (nextTestimonial 3 2) = 2 :=
  ⟨by decide, by decide, by decide, by decide,
   (carousel_index_in_range 3 2 (by decide) (by decide) (by decide)).2.2.2.2.1⟩

end TestimonialCarousel

/-! ## Newsletter subscribers -/

namespace NewsletterSubscribers

/-! ### Filtering -/

theorem matchesSearch_iff (env : Env) (searchTerm : String) (sub : Subscriber) :
    matchesSearch env searchTerm sub = true
      ↔ ∃ e, sub.email = some e
          ∧ (env.toLowerCase searchTerm).toList <:+: (env.toLowerCase e).toList := by
  unfold matchesSearch
  cases h : sub.email with
  | none => simp
  | some e => simp [jsIncludes_iff_contiguous]

theorem mem_filteredSubscribers (env : Env) (st : State) (sub : Subscriber) :
    sub ∈ filteredSubscribers env st
      ↔ sub ∈ st.subscribers ∧ matchesSearch env st.searchTerm sub = true := by
  simp [filteredSubscribers, List.mem_filter]

theorem filtered_email_some (env : Env) (st : State) :
    ∀ e ∈ (filteredSubscribers env st).map (fun sub => sub.email),
      ∃ sub ∈ filteredSubscribers env st, sub.email = e ∧ ∃ s, e = some s := by
  intro e he
  obtain ⟨sub, hsub, rfl⟩ := List.mem_map.mp he
  refine ⟨sub, hsub, rfl, ?_⟩
  obtain ⟨s, hs, _⟩ := (matchesSearch_iff env st.searchTerm sub).mp
    ((mem_filteredSubscribers env st sub).mp hsub).2
  exact ⟨s, hs⟩

/-- C22: for every subscriber list and search term, `filteredSubscribers` is the list of
subscribers filtered, in the original order, by the test "has an email whose lower-cased
text contains the lower-cased search term as a substring"; with the empty search term
(lower-casing the empty string gives the empty string) every subscriber that has an email
is kept. -/
theorem filteredSubscribers_spec (env : Env) (st : State)
    (hlow : env.toLowerCase "" = "") :
    (filteredSubscribers env st).Sublist st.subscribers
    ∧ (∃ keep : Subscriber → Bool,
        (∀ sub, keep sub = true
          ↔ ∃ e, sub.email = some e
              ∧ (env.toLowerCase st.searchTerm).toList <:+: (env.toLowerCase e).toList)
        ∧ filteredSubscribers env st = st.subscribers.filter keep)
    ∧ (∀ sub, sub ∈ filteredSubscribers env st
        ↔ sub ∈ st.subscribers
          ∧ ∃ e, sub.email = some e
              ∧ (env.toLowerCase st.searchTerm).toList <:+: (env.toLowerCase e).toList)
    ∧ (st.searchTerm = "" →
        filteredSubscribers env st = st.subscribers.filter (fun sub => sub.email.isSome)) := by
  refine ⟨List.filter_sublist _, ⟨matchesSearch env st.searchTerm,
    matchesSearch_iff env st.searchTerm, rfl⟩, ?_, ?_⟩
  · intro sub
    rw [mem_filteredSubscribers, matchesSearch_iff]
  · intro hterm
    unfold filteredSubscribers
    congr 1
    funext sub
    unfold matchesSearch
    cases h : sub.email with
    | none => rfl
    | some e =>
      rw [hterm, hlow]
      simp only [Option.isSome_some]
      rw [jsIncludes_iff_contiguous]
      exact ⟨[], (env.toLowerCase e).toList, by simp⟩

/-- Witness for C22 on the scenario of the specification: of a@x.com and b@y.com the filter
text "a@" keeps the first only. -/
theorem filteredSubscribers_spec_witness :
    sampleEnv.toLowerCase "" = ""
    ∧ filteredSubscribers sampleEnv scenarioState = [subA]
    ∧ (filteredSubscribers sampleEnv scenarioState).Sublist scenarioState.subscribers :=
  ⟨by decide, by decide, (filteredSubscribers_spec sampleEnv scenarioState (by decide)).1⟩

/-! ### Compose -/

/-- C23: the recipient list of `openGmailCompose` is `selectedEmails` when the selection is
non-empty and otherwise the emails of the filtered view (each the email of a subscriber of
`filteredSubscribers`); when it is empty no URL is opened and an error toast is shown,
otherwise exactly one compose URL carrying the recipients is opened.  In the scenario
(a@x.com and b@y.com, no selection, filter "a@") the recipients are exactly a@x.com. -/
theorem compose_recipients (env : Env) (st : State) (w : SubWorld) :
    (st.selectedEmails ≠ [] → composeEmails env st = st.selectedEmails)
    ∧ (st.selectedEmails = [] →
        composeEmails env st = (filteredSubscribers env st).map (fun sub => sub.email))
    ∧ (st.selectedEmails = [] →
        ∀ e ∈ composeEmails env st,
          ∃ sub ∈ filteredSubscribers env st, sub.email = e ∧ ∃ s, e = some s)
    ∧ (composeEmails env st = [] →
        (openGmailCompose env st w).opened = w.opened
        ∧ (openGmailCompose env st w).toasts = w.toasts ++ [.error "No subscribers to email"])
    ∧ (composeEmails env st ≠ [] →
        (openGmailCompose env st w).opened = w.opened ++
          ["https://mail.google.com/mail/?view=cm&fs=1&bcc="
            ++ ",".intercalate ((composeEmails env st).map joinText)]
        ∧ (openGmailCompose env st w).toasts = w.toasts)
    ∧ composeEmails sampleEnv scenarioState = [some "a@x.com"]
    ∧ (openGmailCompose sampleEnv scenarioState quietWorld).opened
        = ["https://mail.google.com/mail/?view=cm&fs=1&bcc=a@x.com"] := by
  have hsel : st.selectedEmails ≠ [] → composeEmails env st = st.selectedEmails := by
    intro h
    have hlen : st.selectedEmails.length > 0 := List.length_pos.mpr h
    simp [composeEmails, hlen]
  have hnone : st.selectedEmails = [] →
      composeEmails env st = (filteredSubscribers env st).map (fun sub => sub.email) := by
    intro h
    simp [composeEmails, h]
  refine ⟨hsel, hnone, ?_, ?_, ?_, by decide, by decide⟩
  · intro h e he
    rw [hnone h] at he
    exact filtered_email_some env st e he
  · intro h
    simp [openGmailCompose, h]
  · intro h
    have hlen : (composeEmails env st).length ≠ 0 := by
      intro hc
      exact h (List.length_eq_zero.mp hc)
    simp [openGmailCompose, hlen]

/-! ### Export -/

/-- With no selection the exported rows are those of the filtered view, in order, and
their number is the number the success notice reports. -/
theorem export_without_selection (env : Env) (st : State) (h : st.selectedEmails = []) :
    exportedSubscribers env st = filteredSubscribers env st
    ∧ (exportRows env st).length = (exportEmails env st).length := by
  simp [exportedSubscribers, exportRows, exportEmails, h]

/-- C24 (the code's behaviour at the failing input): with a@x.com selected and "b@" then
typed into the search box, Compose addresses the selection, [a@x.com], and `exportToCSV`
takes the same list as `emails`, but its rows are drawn from the filtered view restricted
to the selection, which is empty: the file holds the header line only, no row for
a@x.com. -/
theorem export_rows_miss_selected_email :
    selectedThenFiltered.selectedEmails = [some "a@x.com"]
    ∧ composeEmails sampleEnv selectedThenFiltered = [some "a@x.com"]
    ∧ exportEmails sampleEnv selectedThenFiltered = [some "a@x.com"]
    ∧ filteredSubscribers sampleEnv selectedThenFiltered = [subB]
    ∧ exportRows sampleEnv selectedThenFiltered = []
    ∧ (exportToCSV sampleEnv selectedThenFiltered quietWorld).downloads
        = [("newsletter_subscribers_2026-03-02.csv", "Email,Subscribed Date\n")] := by
  decide

/-- C29 (the code's behaviour at the failing input): after the selected subscriber a@x.com
was deleted, its email is still selected; `exportToCSV` reports "Exported 1 subscribers to
CSV" although the CSV it writes has no data row after the header line. -/
theorem export_notice_miscounts :
    afterDeleteState.subscribers = [subB]
    ∧ afterDeleteState.selectedEmails = [some "a@x.com"]
    ∧ (exportToCSV sampleEnv afterDeleteState quietWorld).toasts
        = [.success "Exported 1 subscribers to CSV"]
    ∧ (exportRows sampleEnv afterDeleteState).length = 0
    ∧ (exportToCSV sampleEnv afterDeleteState quietWorld).downloads
        = [("newsletter_subscribers_2026-03-02.csv", "Email,Subscribed Date\n")] := by
  decide

/-! ### The selection and the list -/

/-- C28 fails as stated: with a@x.com selected (and listed), a successful `handleDelete` of
that subscriber leaves the selection as it was, so the selection then holds an email of no
listed subscriber, and Compose addresses it. -/
theorem delete_keeps_selection_counterexample :
    selectionListed selectedAState
    ∧ ¬ selectionListed
        (handleDelete "s1" (some "a@x.com") (.ok ()) selectedAState quietWorld).1
    ∧ (handleDelete "s1" (some "a@x.com") (.ok ()) selectedAState quietWorld).1.subscribers
        = [subB]
    ∧ composeEmails sampleEnv
        (handleDelete "s1" (some "a@x.com") (.ok ()) selectedAState quietWorld).1
        = [some "a@x.com"] := by
  decide

/-- C28 amended: "every selected email is the email of a listed subscriber" holds
initially and is preserved by `toggleEmailSelection` called with a listed subscriber's
email and by `toggleSelectAll`; `handleDelete` never changes `selectedEmails`, so after a
successful delete the invariant holds exactly when every selected email is the email of a
listed subscriber whose id is not the deleted one; in particular it is preserved when no
subscriber with the deleted id has a selected email, and also when another document
carries the same email (s1 and s3 sharing a@x.com); a failed delete changes nothing. -/
theorem selection_invariant (env : Env) (st : State) (w : SubWorld) :
    selectionListed initialState
    ∧ (∀ email, (∃ sub ∈ st.subscribers, sub.email = email) → selectionListed st →
        selectionListed (toggleEmailSelection email st))
    ∧ selectionListed (toggleSelectAll env st)
    ∧ (∀ id email res, (handleDelete id email res st w).1.selectedEmails = st.selectedEmails)
    ∧ (∀ id email res, ∀ sub ∈ (handleDelete id email res st w).1.subscribers,
        sub ∈ st.subscribers)
    ∧ (∀ id email, selectionListed st →
        (∀ sub ∈ st.subscribers, sub.id = id → sub.email ∉ st.selectedEmails) →
        selectionListed (handleDelete id email (.ok ()) st w).1)
    ∧ (∀ id email, selectionListed (handleDelete id email (.ok ()) st w).1
        ↔ ∀ e ∈ st.selectedEmails, ∃ sub ∈ st.subscribers, sub.id ≠ id ∧ sub.email = e)
    ∧ (∀ id email err, (handleDelete id email (.error err) st w).1 = st)
    ∧ (selectionListed sharedEmailState
        ∧ selectionListed
            (handleDelete "s1" (some "a@x.com") (.ok ()) sharedEmailState quietWorld).1
        ∧ (handleDelete "s1" (some "a@x.com") (.ok ()) sharedEmailState
            quietWorld).1.subscribers = [subB, subA2]) := by
  refine ⟨?_, ?_, ?_, ?_, ?_, ?_, ?_, fun _ _ _ => rfl, by decide⟩
  · intro e he
    simp [initialState] at he
  · intro email hlisted hinv e he
    simp only [toggleEmailSelection] at he ⊢
    split at he
    · exact hinv e (List.mem_filter.mp he).1
    · rcases List.mem_append.mp he with h | h
      · exact hinv e h
      · rw [List.mem_singleton.mp h]
        exact hlisted
  · intro e he
    unfold toggleSelectAll at he ⊢
    split
    · rename_i hlen
      rw [if_pos hlen] at he
      simp at he
    · rename_i hlen
      rw [if_neg hlen] at he
      obtain ⟨sub, hsub, hse⟩ := List.mem_map.mp he
      exact ⟨sub, ((mem_filteredSubscribers env st sub).mp hsub).1, hse⟩
  · intro id email res
    cases res <;> rfl
  · intro id email res sub hsub
    cases res with
    | error e => exact hsub
    | ok u => exact (List.mem_filter.mp hsub).1
  · intro id email hinv hfree e he
    obtain ⟨sub, hsub, hse⟩ := hinv e he
    refine ⟨sub, ?_, hse⟩
    have hid : sub.id ≠ id := by
      intro hc
      exact hfree sub hsub hc (hse ▸ he)
    simp only [handleDelete]
    exact List.mem_filter.mpr ⟨hsub, by simpa using hid⟩
  · intro id email
    have hsubs : (handleDelete id email (.ok ()) st w).1.subscribers
        = st.subscribers.filter (fun sub => sub.id != id) := rfl
    have hsel : (handleDelete id email (.ok ()) st w).1.selectedEmails = st.selectedEmails := rfl
    unfold selectionListed
    rw [hsubs, hsel]
    constructor
    · intro h e he
      obtain ⟨sub, hsub, hse⟩ := h e he
      have hm := List.mem_filter.mp hsub
      exact ⟨sub, hm.1, by simpa using hm.2, hse⟩
    · intro h e he
      obtain ⟨sub, hsub, hid, hse⟩ := h e he
      exact ⟨sub, List.mem_filter.mpr ⟨hsub, by simpa using hid⟩, hse⟩

end NewsletterSubscribers

/-! ## Footer categories -/

namespace Footer

theorem proto_mem_inheritedNames : "__proto__" ∈ inheritedNames := by decide

theorem bump_cases (counts : List (String × CountVal)) (c : String)
    (hc : c ∉ inheritedNames) :
    (bump counts c = counts.map (fun kv => if kv.1 = c then (kv.1, kv.2.bumped) else kv)
        ∧ c ∈ counts.map Prod.fst)
    ∨ (bump counts c = counts ++ [(c, .num 1)] ∧ c ∉ counts.map Prod.fst) := by
  have hproto : c ≠ "__proto__" := fun h => hc (h ▸ proto_mem_inheritedNames)
  unfold bump
  cases h : counts.lookup c with
  | none =>
    right
    refine ⟨by simp [hproto, hc], ?_⟩
    intro hmem
    obtain ⟨kv, hkv, hk⟩ := List.mem_map.mp hmem
    have := (List.lookup_eq_none_iff.mp h) kv hkv
    simp [hk] at this
  | some v =>
    left
    refine ⟨rfl, ?_⟩
    have hs : (counts.lookup c).isSome = true := by simp [h]
    obtain ⟨kv, hkv, hk⟩ := List.lookup_isSome_iff.mp hs
    exact List.mem_map.mpr ⟨kv, hkv, by simpa using (beq_iff_eq.mp hk).symm⟩

theorem countCategories_snoc (news : List Post) (post : Post) :
    countCategories (news ++ [post]) = countPost (countCategories news) post := by
  simp [countCategories, List.foldl_append]

theorem postsIn_snoc (news : List Post) (post : Post) (name : String) :
    postsIn (news ++ [post]) name
      = postsIn news name + (if post.category = some name then 1 else 0) := by
  simp [postsIn, List.countP_append, List.countP_cons]

/-- The invariant of the counting loop, for news whose categories name no inherited
property: the names in `counts` are distinct and non-empty, each holds the number of posts
of that category so far, and every non-empty category met so far is present. -/
theorem countCategories_exact (news : List Post)
    (hplain : ∀ post ∈ news, ∀ c, post.category = some c → c ∉ inheritedNames) :
    ((countCategories news).map Prod.fst).Nodup
    ∧ (∀ kv ∈ countCategories news,
        kv.1 ≠ "" ∧ kv.2 = .num (postsIn news kv.1) ∧ 0 < postsIn news kv.1)
    ∧ (∀ k, k ≠ "" → 0 < postsIn news k → k ∈ (countCategories news).map Prod.fst) := by
  induction news using List.reverseRecOn with
  | nil =>
    refine ⟨by simp [countCategories], ?_, ?_⟩
    · intro kv hkv
      simp [countCategories] at hkv
    · intro k _ hpos
      simp [postsIn] at hpos
  | append_singleton l p ih =>
    have hl : ∀ post ∈ l, ∀ c, post.category = some c → c ∉ inheritedNames :=
      fun post hpost => hplain post (List.mem_append_left _ hpost)
    obtain ⟨hnd, hval, hall⟩ := ih hl
    rw [countCategories_snoc]
    simp only [postsIn_snoc]
    unfold countPost
    cases hcat : p.category with
    | none =>
      simp only [reduceCtorEq, if_false, Nat.add_zero]
      exact ⟨hnd, hval, hall⟩
    | some c =>
      by_cases hempty : c = ""
      · subst hempty
        simp only [bne_self_eq_false, Bool.false_eq_true, if_false]
        refine ⟨hnd, ?_, ?_⟩
        · intro kv hkv
          obtain ⟨h1, h2, h3⟩ := hval kv hkv
          have hne : ¬ (some "" = some kv.1) := by
            intro hc
            exact h1 (Option.some.inj hc).symm
          simp only [hne, if_false, Nat.add_zero]
          exact ⟨h1, h2, h3⟩
        · intro k hk hpos
          have hne : ¬ (some "" = some k) := by
            intro hc
            exact hk (Option.some.inj hc).symm
          simp only [hne, if_false, Nat.add_zero] at hpos
          exact hall k hk hpos
      · have hbne : (c != "") = true := by simpa using hempty
        simp only [hbne, if_true]
        have hc : c ∉ inheritedNames := hplain p (by simp) c hcat
        rcases bump_cases (countCategories l) c hc with ⟨hb, hmem⟩ | ⟨hb, hnot⟩
        · rw [hb]
          refine ⟨?_, ?_, ?_⟩
          · have hkeys : ((countCategories l).map
                (fun kv => if kv.1 = c then (kv.1, kv.2.bumped) else kv)).map Prod.fst
                = (countCategories l).map Prod.fst := by
              rw [List.map_map]
              apply List.map_congr_left
              intro kv _
              simp only [Function.comp]
              split <;> rfl
            rw [hkeys]
            exact hnd
          · intro kv hkv
            obtain ⟨kv0, hkv0, rfl⟩ := List.mem_map.mp hkv
            obtain ⟨h1, h2, h3⟩ := hval kv0 hkv0
            by_cases hk : kv0.1 = c
            · simp only [hk, if_true]
              refine ⟨hempty, ?_, by omega⟩
              rw [h2, hk]
              simp [CountVal.bumped]
            · have hne : ¬ (some c = some kv0.1) := by
                intro hc2
                exact hk (Option.some.inj hc2).symm
              simp only [hk, if_false, hne, Nat.add_zero]
              exact ⟨h1, h2, h3⟩
          · intro k hk hpos
            have hkeys : ((countCategories l).map
                (fun kv => if kv.1 = c then (kv.1, kv.2.bumped) else kv)).map Prod.fst
                = (countCategories l).map Prod.fst := by
              rw [List.map_map]
              apply List.map_congr_left
              intro kv _
              simp only [Function.comp]
              split <;> rfl
            rw [hkeys]
            by_cases hkc : k = c
            · rw [hkc]
              exact hmem
            · have hne : ¬ (some c = some k) := by
                intro hc2
                exact hkc (Option.some.inj hc2).symm
              simp only [hne, if_false, Nat.add_zero] at hpos
              exact hall k hk hpos
        · rw [hb]
          have hzero : postsIn l c = 0 := by
            by_contra hne
            exact hnot (hall c hempty (Nat.pos_of_ne_zero hne))
          refine ⟨?_, ?_, ?_⟩
          · rw [List.map_append, List.nodup_append]
            refine ⟨hnd, by simp, ?_⟩
            intro k hk1 hk2
            simp only [List.map_cons, List.map_nil, List.mem_singleton] at hk2
            exact hnot (hk2 ▸ hk1)
          · intro kv hkv
            rcases List.mem_append.mp hkv with hkv | hkv
            · obtain ⟨h1, h2, h3⟩ := hval kv hkv
              have hk : kv.1 ≠ c := by
                intro hc2
                exact hnot (hc2 ▸ List.mem_map.mpr ⟨kv, hkv, rfl⟩)
              have hne : ¬ (some c = some kv.1) := by
                intro hc2
                exact hk (Option.some.inj hc2).symm
              simp only [hne, if_false, Nat.add_zero]
              exact ⟨h1, h2, h3⟩
            · rw [List.mem_singleton.mp hkv]
              simp [hzero, hempty]
          · intro k hk hpos
            rw [List.map_append, List.mem_append]
            by_cases hkc : k = c
            · right
              simp [hkc]
            · left
              have hne : ¬ (some c = some k) := by
                intro hc2
                exact hkc (Option.some.inj hc2).symm
              simp only [hne, if_false, Nat.add_zero] at hpos
              exact hall k hk hpos

theorem objectEntries_perm (counts : List (String × CountVal)) :
    (objectEntries counts).Perm counts := by
  unfold objectEntries
  exact ((List.perm_insertionSort indexBefore _).append_right _).trans
    (List.filter_append_perm _ counts)

theorem staysBefore_num (a b : Category) (m n : Nat) (ha : a.count = .num m)
    (hb : b.count = .num n) : staysBefore a b ↔ n ≤ m := by
  simp only [staysBefore, compareCount, ha, hb]
  omega

theorem orderedInsert_sorted_num (a : Category) (l : List Category)
    (ha : ∃ m, a.count = .num m) (hl : ∀ x ∈ l, ∃ n, x.count = .num n)
    (hs : l.Pairwise staysBefore) :
    (l.orderedInsert staysBefore a).Pairwise staysBefore := by
  obtain ⟨m, hm⟩ := ha
  induction l with
  | nil => simp
  | cons b t ih =>
    obtain ⟨n, hn⟩ := hl b (by simp)
    have ht : ∀ x ∈ t, ∃ k, x.count = .num k := fun x hx => hl x (by simp [hx])
    have hs2 := List.pairwise_cons.mp hs
    simp only [List.orderedInsert]
    split
    · rename_i hab
      refine List.pairwise_cons.mpr ⟨?_, hs⟩
      intro x hx
      rcases List.mem_cons.mp hx with hx | hx
      · rw [hx]; exact hab
      · obtain ⟨k, hk⟩ := ht x hx
        have h1 := (staysBefore_num a b m n hm hn).mp hab
        have h2 := (staysBefore_num b x n k hn hk).mp (hs2.1 x hx)
        exact (staysBefore_num a x m k hm hk).mpr (by omega)
    · rename_i hab
      have hba : staysBefore b a := by
        rw [staysBefore_num b a n m hn hm]
        rw [staysBefore_num a b m n hm hn] at hab
        omega
      refine List.pairwise_cons.mpr ⟨?_, ih ht hs2.2⟩
      intro x hx
      rcases (List.mem_orderedInsert staysBefore).mp hx with hx | hx
      · rw [hx]; exact hba
      · exact hs2.1 x hx

theorem insertionSort_sorted_num (l : List Category)
    (hl : ∀ x ∈ l, ∃ n, x.count = .num n) :
    (l.insertionSort staysBefore).Pairwise staysBefore := by
  induction l with
  | nil => simp
  | cons a t ih =>
    have ht : ∀ x ∈ t, ∃ k, x.count = .num k := fun x hx => hl x (by simp [hx])
    simp only [List.insertionSort]
    apply orderedInsert_sorted_num a _ (hl a (by simp)) _ (ih ht)
    intro x hx
    exact ht x ((List.perm_insertionSort staysBefore t).mem_iff.mp hx)

/-- For news whose categories name no property inherited from `Object.prototype`, the
`categories` value lists distinct non-empty category names of the news, each with the
exact number of its posts, in non-increasing order of count, at most 8 of them, and no
omitted category has more posts than a listed one. -/
theorem categories_of_plain_news (toLowerCase : String → String) (news : List Post)
    (hplain : ∀ post ∈ news, ∀ c, post.category = some c → c ∉ inheritedNames) :
    ((categories toLowerCase (some news)).map (fun cat => cat.name)).Nodup
    ∧ (∀ cat ∈ categories toLowerCase (some news),
        cat.name ≠ "" ∧ cat.count = .num (postsIn news cat.name)
        ∧ 0 < postsIn news cat.name)
    ∧ (categories toLowerCase (some news)).Pairwise
        (fun a b => postsIn news b.name ≤ postsIn news a.name)
    ∧ (categories toLowerCase (some news)).length ≤ 8
    ∧ (∀ k, k ≠ "" → 0 < postsIn news k →
        k ∉ (categories toLowerCase (some news)).map (fun cat => cat.name) →
        ∀ cat ∈ categories toLowerCase (some news), postsIn news k ≤ postsIn news cat.name) := by
  by_cases hlen : news.length = 0
  · have hc : categories toLowerCase (some news) = [] := by simp [categories, hlen]
    rw [hc]
    simp
  · obtain ⟨hnd, hval, hall⟩ := countCategories_exact news hplain
    have hc : categories toLowerCase (some news)
        = (List.insertionSort staysBefore
            ((objectEntries (countCategories news)).map (toCategory toLowerCase))).take 8 := by
      simp [categories, hlen]
    have hperm : (List.insertionSort staysBefore
        ((objectEntries (countCategories news)).map (toCategory toLowerCase))).Perm
        ((countCategories news).map (toCategory toLowerCase)) :=
      (List.perm_insertionSort staysBefore _).trans
        ((objectEntries_perm (countCategories news)).map _)
    have hmemS : ∀ cat ∈ List.insertionSort staysBefore
        ((objectEntries (countCategories news)).map (toCategory toLowerCase)),
        cat.name ≠ "" ∧ cat.count = .num (postsIn news cat.name)
          ∧ 0 < postsIn news cat.name := by
      intro cat hcat
      obtain ⟨kv, hkv, rfl⟩ := List.mem_map.mp (hperm.mem_iff.mp hcat)
      exact hval kv hkv
    have hsorted := insertionSort_sorted_num
      ((objectEntries (countCategories news)).map (toCategory toLowerCase))
      (by
        intro x hx
        have hx2 : x ∈ List.insertionSort staysBefore
            ((objectEntries (countCategories news)).map (toCategory toLowerCase)) :=
          (List.perm_insertionSort staysBefore _).mem_iff.mpr hx
        exact ⟨_, (hmemS x hx2).2.1⟩)
    have hnames : ((List.insertionSort staysBefore
        ((objectEntries (countCategories news)).map (toCategory toLowerCase))).map
          (fun cat => cat.name)).Nodup := by
      have h1 := hperm.map (fun cat => cat.name)
      rw [h1.nodup_iff, List.map_map]
      exact hnd
    rw [hc]
    refine ⟨?_, ?_, ?_, List.length_take_le _ _, ?_⟩
    · exact List.Nodup.sublist ((List.take_sublist _ _).map _) hnames
    · intro cat hcat
      exact hmemS cat (List.mem_of_mem_take hcat)
    · apply List.Pairwise.sublist (List.take_sublist _ _)
      apply List.Pairwise.imp_of_mem _ hsorted
      intro a b ha hb hab
      exact (staysBefore_num a b _ _ (hmemS a ha).2.1 (hmemS b hb).2.1).mp hab
    · intro k hk hpos hnot cat hcat
      obtain ⟨kv, hkv, hkk⟩ := List.mem_map.mp (hall k hk hpos)
      have hkS : toCategory toLowerCase kv ∈ List.insertionSort staysBefore
          ((objectEntries (countCategories news)).map (toCategory toLowerCase)) :=
        hperm.mem_iff.mpr (List.mem_map.mpr ⟨kv, hkv, rfl⟩)
      have hsplit := List.take_append_drop 8 (List.insertionSort staysBefore
          ((objectEntries (countCategories news)).map (toCategory toLowerCase)))
      rw [← hsplit] at hkS hsorted
      rcases List.mem_append.mp hkS with h | h
      · exfalso
        apply hnot
        exact List.mem_map.mpr ⟨_, h, hkk⟩
      · have hpw := (List.pairwise_append.mp hsorted).2.2 cat hcat _ h
        have hcS := hmemS cat (List.mem_of_mem_take hcat)
        have hkS2 := hmemS _ (hperm.mem_iff.mpr (List.mem_map.mpr ⟨kv, hkv, rfl⟩))
        have := (staysBefore_num cat _ _ _ hcS.2.1 hkS2.2.1).mp hpw
        have hname : (toCategory toLowerCase kv).name = k := hkk
        rw [hname] at this
        exact this

/-- C27 (the code's behaviour at the failing inputs): `counts` is created by `{}`, so for a
post whose category is "__proto__" the read `counts[category]` yields the prototype object
and the write is dropped: the category has one post and yet `categories` is empty; for a
category "constructor" the count listed is not a number.  A news list with ordinary names
gives the counted, sorted list, and absent or empty news gives the empty list. -/
theorem categories_miscounts_inherited_names :
    postsIn protoNews "__proto__" = 1
    ∧ categories asciiLower (some protoNews) = []
    ∧ postsIn constructorNews "constructor" = 1
    ∧ categories asciiLower (some constructorNews)
        = [⟨"constructor", .text, "/category/constructor"⟩]
    ∧ categories asciiLower (some mixedNews)
        = [⟨"Op Ed", .num 2, "/category/op-ed"⟩, ⟨"2024", .num 1, "/category/2024"⟩,
           ⟨"News", .num 1, "/category/news"⟩]
    ∧ categories asciiLower none = []
    ∧ categories asciiLower (some []) = [] := by
  decide

end Footer

end BAS
